import Mathlib

/-!
Administrative ReQL terms (`rdb_protocol/terms/db_table.cc`), type manipulation
(`rdb_protocol/terms/type_manip.hpp`) and table metadata
(`clustering/table_manager/table_metadata.cc`).

A shallow embedding of the argument parsing and cluster-interface dispatch of the
administrative terms (`db`, `db_create`, `table_create`, `reconfigure`, `wait`, ...), of
the type codes and the `coerce_to` term, and of the epoch and timestamp records.

Conventions of the embedding:

* a C++ function that can throw returns `Except exc_t _`;
* `int64_t` values are integers in the range `[-2^63, 2^63)`, `size_t` values are natural
  numbers below `2^64` (the LP64 targets of the server), and every `static_cast` between
  the two is written out with an explicit `% 2^64`;
* the cluster interface is a state machine over an arbitrary state type; every call a term
  makes is appended to a log so that "which operation was invoked, with which arguments"
  can be stated;
* the argument sub-terms of a term are already evaluated to values (`args_t`); the
  interruptor passed to every cluster call is not modelled;
* C++ `int` values are integers, without overflow;
* bodies that live outside the translated files and are not determined by the
  declarations in them are fields of `externals` and `type_externals`; what is described
  only by the specification is marked as modelled from it.
-/

namespace ql

/-! ## Errors -/

/-- The error classes of `base_exc_t::type_t` that `db_table.cc` raises. -/
inductive base_exc_type
  | GENERIC
  deriving DecidableEq, Repr

/-- What a term evaluation can throw.  `rfail` is an `rcheck`/`rcheck_target`/`rfail`
of the translated files, `sanity` a failed `r_sanity_check`, and `type_error` is raised
by an accessor of `val_t`/`datum_t` applied to a value of the wrong kind. -/
inductive exc_t
  | rfail (type : base_exc_type) (msg : String)
  | sanity
  | type_error (accessor : String)
  deriving DecidableEq, Repr

deriving instance DecidableEq for Except

/-- The statement `rcheck(pred, type, msg)`: throws when `pred` is false. -/
def rcheck (pred : Bool) (type : base_exc_type) (msg : String) : Except exc_t Unit :=
  if pred then .ok () else .error (.rfail type msg)

/-- The statement `r_sanity_check(pred)`. -/
def r_sanity_check (pred : Bool) : Except exc_t Unit :=
  if pred then .ok () else .error .sanity

/-! ## Machine integers -/

/-- The conversion `static_cast<size_t>(i)` of an `int64_t`, with a 64-bit `size_t`. -/
def static_cast_size_t (i : Int) : Nat := (i % 2 ^ 64).toNat

/-- The conversion `static_cast<int64_t>(t)` of a `size_t`. -/
def static_cast_int64_t (t : Nat) : Int :=
  if (t : Int) % 2 ^ 64 < 2 ^ 63 then (t : Int) % 2 ^ 64 else (t : Int) % 2 ^ 64 - 2 ^ 64

/-- Membership in the range of `int64_t`. -/
def is_int64 (i : Int) : Prop := -(2 ^ 63) ≤ i ∧ i < 2 ^ 63

instance (i : Int) : Decidable (is_int64 i) := by
  unfold is_int64; exact inferInstance

/-! ## Names, databases, tables -/

/-- A `name_string_t`: a string that passed `assign_value` (or `guarantee_valid`). -/
structure name_string_t where
  str_ : String
  deriving DecidableEq, Repr

/-- The accessor `name_string_t::str()`. -/
def name_string_t.str (n : name_string_t) : String := n.str_

/-- The comparison `name_string_t::operator<`: the comparison of the underlying strings. -/
instance : LinearOrder name_string_t :=
  LinearOrder.lift' name_string_t.str_ (fun a b h => by cases a; cases b; simp_all)

/-- A `db_t`; the terms only read its `name`. -/
structure db_t where
  name : name_string_t
  deriving DecidableEq, Repr

/-- A handle to a `base_table_t`, as produced by `table_find`. -/
structure base_table_t where
  handle : Nat
  deriving DecidableEq, Repr

/-- A `table_t` (`val.hpp`): the fields `tbl`, `db`, `name` and `use_outdated`. -/
structure table_t where
  tbl : base_table_t
  db : db_t
  name : String
  use_outdated : Bool
  deriving DecidableEq, Repr

/-! ## Datums and values -/

/-- A `datum_t`.  The six kinds are those `type_manip.hpp` enumerates; a number is a
finite `double`, represented by its rational value. -/
inductive datum_t
  | R_NULL
  | R_BOOL (b : Bool)
  | R_NUM (d : ℚ)
  | R_STR (s : String)
  | R_ARRAY (xs : List datum_t)
  | R_OBJECT (kvs : List (String × datum_t))

/-- The enumeration `datum_t::type_t`. -/
inductive datum_type_t
  | R_NULL | R_BOOL | R_NUM | R_STR | R_ARRAY | R_OBJECT
  deriving DecidableEq, Repr

/-- The accessor `datum_t::get_type()`. -/
def datum_t.get_type : datum_t → datum_type_t
  | .R_NULL => .R_NULL
  | .R_BOOL _ => .R_BOOL
  | .R_NUM _ => .R_NUM
  | .R_STR _ => .R_STR
  | .R_ARRAY _ => .R_ARRAY
  | .R_OBJECT _ => .R_OBJECT

/-- The pairs `get_pair(0)`, ..., `get_pair(obj_size() - 1)` of an object. -/
def datum_t.pairs : datum_t → List (String × datum_t)
  | .R_OBJECT kvs => kvs
  | _ => []

/-- The accessor `datum_t::as_num()`. -/
def datum_t.as_num : datum_t → Except exc_t ℚ
  | .R_NUM d => .ok d
  | _ => .error (.type_error "as_num")

/-- The accessor `datum_t::as_str()`. -/
def datum_t.as_str : datum_t → Except exc_t String
  | .R_STR s => .ok s
  | _ => .error (.type_error "as_str")

/-- The accessor `datum_t::as_bool()`. -/
def datum_t.as_bool : datum_t → Except exc_t Bool
  | .R_BOOL b => .ok b
  | _ => .error (.type_error "as_bool")

/-- The enumeration `val_t::type_t::raw_type_t` (`val.hpp`). -/
inductive raw_type_t
  | DB | TABLE | TABLE_SLICE | SELECTION | SEQUENCE | SINGLE_SELECTION | DATUM | FUNC
  | GROUPED_DATA
  deriving DecidableEq, Repr

/-- A `val_t`: one alternative per constructor declared in `val.hpp`. -/
inductive val_t
  | datum (d : datum_t)
  | grouped_data
  | single_selection (t : table_t)
  | sequence
  | table (t : table_t)
  | table_slice (t : table_t)
  | selection (t : table_t)
  | db (d : db_t)
  | func

/-- The accessor `val_t::get_type()`, as a raw type. -/
def val_t.get_type : val_t → raw_type_t
  | .datum _ => .DATUM
  | .grouped_data => .GROUPED_DATA
  | .single_selection _ => .SINGLE_SELECTION
  | .sequence => .SEQUENCE
  | .table _ => .TABLE
  | .table_slice _ => .TABLE_SLICE
  | .selection _ => .SELECTION
  | .db _ => .DB
  | .func => .FUNC

/-- The accessor `val_t::as_datum()`: the `datum()` alternative of the variant. -/
def val_t.as_datum : val_t → Except exc_t datum_t
  | .datum d => .ok d
  | _ => .error (.type_error "as_datum")

/-- The accessor `val_t::as_db()`: the `db()` alternative of the variant. -/
def val_t.as_db : val_t → Except exc_t db_t
  | .db d => .ok d
  | _ => .error (.type_error "as_db")

/-- The accessor `val_t::as_table()`: the `table()` alternative of the variant. -/
def val_t.as_table : val_t → Except exc_t table_t
  | .table t => .ok t
  | _ => .error (.type_error "as_table")

/-- The accessor `val_t::as_str()`. -/
def val_t.as_str (v : val_t) : Except exc_t String :=
  v.as_datum >>= datum_t.as_str

/-- The accessor `val_t::as_bool()`. -/
def val_t.as_bool (v : val_t) : Except exc_t Bool :=
  v.as_datum >>= datum_t.as_bool

/-! ## Bodies outside the translated files -/

/-- The configuration parameters `table_generate_config_params_t`, with the three fields
the terms assign.  The `std::map` is an association list with distinct keys. -/
structure table_generate_config_params_t where
  num_shards : Nat
  num_replicas : List (name_string_t × Nat)
  director_tag : name_string_t
  deriving DecidableEq, Repr

/-- The helpers the terms call whose bodies are outside the translated files:
`checked_convert_to_int` (with its `int64_t` result range), the acceptance test of
`name_string_t::assign_value`, `name_string_t::valid_char_msg`, `datum_t::print` and
`datum_t::get_type_name`, `val_t::type_t::is_convertible`, the array constructor
`datum_t(std::vector<datum_t> &&, limits)` and
`table_generate_config_params_t::make_default`. -/
structure externals where
  checked_convert_to_int : ℚ → Except exc_t Int
  checked_convert_range : ∀ d i, checked_convert_to_int d = .ok i → is_int64 i
  is_acceptable_name : String → Bool
  valid_char_msg : String
  print : datum_t → String
  get_type_name : datum_t → String
  is_convertible : raw_type_t → raw_type_t → Bool
  array_datum : List datum_t → Except exc_t datum_t
  make_default : table_generate_config_params_t

/-- The accessor `int64_t val_t::as_int()`: the number of the datum, converted by
`checked_convert_to_int`. -/
def val_t.as_int (X : externals) (v : val_t) : Except exc_t Int := do
  let d ← v.as_datum
  let n ← d.as_num
  X.checked_convert_to_int n

/-- The template `val_t::as_int<T>()` of `val.hpp` at `T = size_t`. -/
def val_t.as_int_size_t (X : externals) (v : val_t) : Except exc_t Nat := do
  let i ← v.as_int X
  let t := static_cast_size_t i
  rcheck (static_cast_int64_t t == i) .GENERIC ("Integer too large: " ++ toString i)
  return t

/-! ## `std::map` and `std::set` -/

/-- The lookup `std::map::find`. -/
def map_find (m : List (name_string_t × Nat)) (k : name_string_t) : Option Nat :=
  (m.find? (fun e => e.1 == k)).map Prod.snd

/-- The insertion `std::map::insert`: an existing key keeps its value. -/
def map_insert (m : List (name_string_t × Nat)) (k : name_string_t) (v : Nat) :
    List (name_string_t × Nat) :=
  if (m.any (fun e => e.1 == k)) then m else m ++ [(k, v)]

/-! ## `get_name` and `get_replicas_and_director` -/

/-- The function `get_name(val, type_str)`. -/
def get_name (X : externals) (val : Option val_t) (type_str : String) :
    Except exc_t name_string_t := do
  r_sanity_check val.isSome
  match val with
  | none => .error .sanity
  | some v =>
    let raw_name ← v.as_str
    let assignment_successful := X.is_acceptable_name raw_name
    rcheck assignment_successful .GENERIC
      (type_str ++ " name `" ++ raw_name ++ "` invalid (" ++ X.valid_char_msg ++ ").")
    return ⟨raw_name⟩

/-- The body of the loop over the pairs of an OBJECT `replicas`, up to the insertion:
the checks made on `pair = datum.get_pair(i)`, yielding `(name, size_count)`. -/
def replicas_entry (X : externals) (pair : String × datum_t) :
    Except exc_t (name_string_t × Nat) := do
  let assignment_successful := X.is_acceptable_name pair.1
  rcheck assignment_successful .GENERIC
    ("Server tag name `" ++ pair.1 ++ "` invalid (" ++ X.valid_char_msg ++ ").")
  let count ← pair.2.as_num >>= X.checked_convert_to_int
  rcheck (decide (count ≥ 0)) .GENERIC "Can't have a negative number of replicas"
  let size_count := static_cast_size_t count
  rcheck (static_cast_int64_t size_count == count) .GENERIC
    ("Integer too large: " ++ toString count)
  pure (⟨pair.1⟩, size_count)

/-- The loop `for (size_t i = 0; i < datum.obj_size(); ++i)` over the pairs of an OBJECT
`replicas`: each pair is checked and inserted into `params->num_replicas`. -/
def replicas_loop (X : externals) :
    List (String × datum_t) → List (name_string_t × Nat) →
      Except exc_t (List (name_string_t × Nat))
  | [], num_replicas => .ok num_replicas
  | pair :: rest, num_replicas => do
    let entry ← replicas_entry X pair
    replicas_loop X rest (map_insert num_replicas entry.1 entry.2)

/-- The function `get_replicas_and_director(replicas, director_tag, params)`; the updated
`*params` is the result. -/
def get_replicas_and_director (X : externals) (replicas director_tag : Option val_t)
    (params : table_generate_config_params_t) :
    Except exc_t table_generate_config_params_t := do
  let params ← (match replicas with
    | some r => do
      let params := { params with num_replicas := [] }
      let datum ← r.as_datum
      if datum.get_type = .R_OBJECT then do
        rcheck director_tag.isSome .GENERIC
          "`director_tag` must be specified when `replicas` is an OBJECT."
        let m ← replicas_loop X datum.pairs params.num_replicas
        pure { params with num_replicas := m }
      else if datum.get_type = .R_NUM then do
        rcheck (!director_tag.isSome) .GENERIC
          "`replicas` must be an OBJECT if `director_tag` is specified."
        let count ← r.as_int_size_t X
        pure { params with
          num_replicas := map_insert params.num_replicas params.director_tag count }
      else
        .error (.rfail .GENERIC
          ("Expected type OBJECT or NUMBER but found " ++ X.get_type_name datum ++ ":\n"
            ++ X.print datum))
    | none => pure params)
  if director_tag.isSome then do
    let name ← get_name X director_tag "Server tag"
    pure { params with director_tag := name }
  else
    pure params

/-! ## The cluster interface -/

/-- The enumeration `admin_identifier_format_t`. -/
inductive admin_identifier_format_t
  | name | uuid
  deriving DecidableEq, Repr

/-- Modelled from the spec: the enumeration `table_readiness_t`, whose declaration is
outside the translated files; the levels are ordered outdated-reads-ok < reads-ok <
writes-ok < finished. -/
inductive table_readiness_t
  | outdated_read | read | write | finished
  deriving DecidableEq, Repr

/-- One call on `reql_cluster_interface_t`, with the arguments the caller supplies.
`table_status` is part of the interface although no term of `db_table.cc` calls it. -/
inductive cluster_call
  | db_find (name : name_string_t)
  | db_create (name : name_string_t)
  | db_drop (name : name_string_t)
  | db_list
  | table_create (name : name_string_t) (db : db_t)
      (config_params : table_generate_config_params_t) (primary_key : String)
  | table_drop (name : name_string_t) (db : db_t)
  | table_list (db : db_t)
  | table_find (name : name_string_t) (db : db_t)
      (identifier_format : Option admin_identifier_format_t)
  | db_config (db : db_t)
  | table_config (db : db_t) (name : name_string_t)
  | table_status (db : db_t) (name : name_string_t)
  | table_wait (db : db_t) (name : name_string_t) (readiness : table_readiness_t)
  | db_wait (db : db_t) (readiness : table_readiness_t)
  | table_reconfigure (db : db_t) (name : name_string_t)
      (config_params : table_generate_config_params_t) (dry_run : Bool)
  | db_reconfigure (db : db_t) (config_params : table_generate_config_params_t)
      (dry_run : Bool)
  | table_rebalance (db : db_t) (name : name_string_t)
  | db_rebalance (db : db_t)
  deriving DecidableEq, Repr

/-- The type of the out-parameter a call fills on success. -/
def cluster_call.result : cluster_call → Type
  | .db_find _ => db_t
  | .db_list => Finset name_string_t
  | .table_list _ => Finset name_string_t
  | .table_find _ _ _ => base_table_t
  | .db_config _ => val_t
  | .table_config _ _ => val_t
  | .table_status _ _ => val_t
  | _ => datum_t

/-- A `reql_cluster_interface_t` over the cluster state `σ`: each operation returns
either the error string (the C++ `false` with `*error_out` set) or the result (the C++
`true` with the out-parameter set), and the next cluster state. -/
structure reql_cluster_interface (σ : Type) where
  run : (c : cluster_call) → σ → Except String c.result × σ

/-- The cluster state together with the log of the calls made so far. -/
structure world (σ : Type) where
  st : σ
  log : List cluster_call

/-- Performs the call `c` and records it. -/
def invoke {σ : Type} (I : reql_cluster_interface σ) (c : cluster_call) (w : world σ) :
    Except String c.result × world σ :=
  ((I.run c w.st).1, ⟨(I.run c w.st).2, w.log ++ [c]⟩)

/-- The text a `%s` conversion prints for `s.c_str()`: the characters of `s` before its
first NUL character (all of `s` when it holds none). -/
def c_str (s : String) : String := ⟨s.data.takeWhile (fun ch => decide (ch ≠ Char.ofNat 0))⟩

/-- The idiom
`if (!interface->op(..., &result, &error)) rfail(GENERIC, "%s", error.c_str()); return k(result);`
that ends every term: the message thrown is the format `"%s"` applied to
`error.c_str()`. -/
def cluster_op {σ : Type} (I : reql_cluster_interface σ) (c : cluster_call)
    (k : c.result → Except exc_t val_t) (w : world σ) : Except exc_t val_t × world σ :=
  match invoke I c w with
  | (.error error, w1) => (.error (.rfail .GENERIC (c_str error)), w1)
  | (.ok result, w1) => (k result, w1)

/-! ## Arguments -/

/-- The evaluated arguments of a term: positional arguments and optional arguments
(the global optarg `db` included). -/
structure args_t where
  args : List val_t
  optargs : List (String × val_t)

/-- The accessor `args_t::num_args()`. -/
def args_t.num_args (a : args_t) : Nat := a.args.length

/-- The accessor `args_t::arg(env, i)`. -/
def args_t.arg (a : args_t) (i : Nat) : Except exc_t val_t :=
  match a.args.get? i with
  | some v => .ok v
  | none => .error .sanity

/-- The accessor `args_t::optarg(env, name)`: empty when the optarg is not given. -/
def args_t.optarg (a : args_t) (name : String) : Option val_t :=
  (a.optargs.find? (fun e => e.1 == name)).map Prod.snd

/-- The idiom shared by the terms that take `(db, table)` or a table with the `db`
optarg: `if (args->num_args() == 1) ... else ...`, yielding `db` and the name. -/
def db_and_table_name (X : externals) (args : args_t) :
    Except exc_t (db_t × name_string_t) :=
  if args.num_args = 1 then do
    let dbv := args.optarg "db"
    r_sanity_check dbv.isSome
    match dbv with
    | none => .error .sanity
    | some dbv =>
      let db ← dbv.as_db
      let tbl_name ← get_name X (some (← args.arg 0)) "Table"
      pure (db, tbl_name)
  else do
    let db ← (← args.arg 0).as_db
    let tbl_name ← get_name X (some (← args.arg 1)) "Table"
    pure (db, tbl_name)

/-! ## The terms -/

/-- The term `db`: `db_term_t::eval_impl`. -/
def db_term_t.eval_impl {σ : Type} (X : externals) (I : reql_cluster_interface σ)
    (args : args_t) (w : world σ) : Except exc_t val_t × world σ :=
  match (do get_name X (some (← args.arg 0)) "Database") with
  | .error e => (.error e, w)
  | .ok db_name => cluster_op I (.db_find db_name) (fun db => .ok (.db db)) w

/-- The term `db_create`: `db_create_term_t::eval_impl`. -/
def db_create_term_t.eval_impl {σ : Type} (X : externals) (I : reql_cluster_interface σ)
    (args : args_t) (w : world σ) : Except exc_t val_t × world σ :=
  match (do get_name X (some (← args.arg 0)) "Database") with
  | .error e => (.error e, w)
  | .ok db_name => cluster_op I (.db_create db_name) (fun result => .ok (.datum result)) w

/-- The block `// Parse the 'shards' optarg` of `table_create_term_t::eval_impl`;
`num_shards` is a `size_t`. -/
def table_create_term_t.parse_shards (X : externals) (args : args_t)
    (config_params : table_generate_config_params_t) :
    Except exc_t table_generate_config_params_t :=
  match args.optarg "shards" with
  | some shards_optarg => do
    rcheck (decide ((← shards_optarg.as_int X) > 0)) .GENERIC
      "Every table must have at least one shard."
    pure { config_params with num_shards := static_cast_size_t (← shards_optarg.as_int X) }
  | none => pure config_params

/-- The part `/* Parse arguments */` of `table_create_term_t::eval_impl`: the arguments of
the `table_create` call, or the exception thrown before it. -/
def table_create_term_t.parse_arguments (X : externals) (args : args_t) :
    Except exc_t (name_string_t × db_t × table_generate_config_params_t × String) := do
  let config_params := X.make_default
  let config_params ← table_create_term_t.parse_shards X args config_params
  let config_params ← get_replicas_and_director X (args.optarg "replicas")
    (args.optarg "director_tag") config_params
  let primary_key ← (match args.optarg "primary_key" with
    | some v => v.as_str
    | none => pure "id")
  let (db, tbl_name) ← db_and_table_name X args
  pure (tbl_name, db, config_params, primary_key)

/-- The term `table_create`: `table_create_term_t::eval_impl`. -/
def table_create_term_t.eval_impl {σ : Type} (X : externals) (I : reql_cluster_interface σ)
    (args : args_t) (w : world σ) : Except exc_t val_t × world σ :=
  match table_create_term_t.parse_arguments X args with
  | .error e => (.error e, w)
  | .ok (tbl_name, db, config_params, primary_key) =>
    cluster_op I (.table_create tbl_name db config_params primary_key)
      (fun result => .ok (.datum result)) w

/-- The term `db_drop`: `db_drop_term_t::eval_impl`. -/
def db_drop_term_t.eval_impl {σ : Type} (X : externals) (I : reql_cluster_interface σ)
    (args : args_t) (w : world σ) : Except exc_t val_t × world σ :=
  match (do get_name X (some (← args.arg 0)) "Database") with
  | .error e => (.error e, w)
  | .ok db_name => cluster_op I (.db_drop db_name) (fun result => .ok (.datum result)) w

/-- The term `table_drop`: `table_drop_term_t::eval_impl`. -/
def table_drop_term_t.eval_impl {σ : Type} (X : externals) (I : reql_cluster_interface σ)
    (args : args_t) (w : world σ) : Except exc_t val_t × world σ :=
  match db_and_table_name X args with
  | .error e => (.error e, w)
  | .ok (db, tbl_name) =>
    cluster_op I (.table_drop tbl_name db) (fun result => .ok (.datum result)) w

/-- The loop `for (it = names.begin(); it != names.end(); ++it) arr.push_back(...)` over
a `std::set<name_string_t>`, which iterates in ascending order. -/
def names_to_array (names : Finset name_string_t) : List datum_t :=
  (names.sort (· ≤ ·)).map (fun it => datum_t.R_STR it.str)

/-- The term `db_list`: `db_list_term_t::eval_impl`. -/
def db_list_term_t.eval_impl {σ : Type} (X : externals) (I : reql_cluster_interface σ)
    (_args : args_t) (w : world σ) : Except exc_t val_t × world σ :=
  cluster_op I .db_list
    (fun dbs => do
      let arr := names_to_array dbs
      pure (.datum (← X.array_datum arr))) w

/-- The term `table_list`: `table_list_term_t::eval_impl`. -/
def table_list_term_t.eval_impl {σ : Type} (X : externals) (I : reql_cluster_interface σ)
    (args : args_t) (w : world σ) : Except exc_t val_t × world σ :=
  match (if args.num_args = 0 then do
      let dbv := args.optarg "db"
      r_sanity_check dbv.isSome
      match dbv with
      | none => .error .sanity
      | some dbv => dbv.as_db
    else do (← args.arg 0).as_db) with
  | .error e => (.error e, w)
  | .ok db =>
    cluster_op I (.table_list db)
      (fun tables => do
        let arr := names_to_array tables
        pure (.datum (← X.array_datum arr))) w

/-- The constructor `name_string_t::guarantee_valid`. -/
def name_string_t.guarantee_valid (s : String) : name_string_t := ⟨s⟩

/-- The term `config`: `config_term_t::eval_impl`. -/
def config_term_t.eval_impl {σ : Type} (X : externals) (I : reql_cluster_interface σ)
    (args : args_t) (w : world σ) : Except exc_t val_t × world σ :=
  match args.arg 0 with
  | .error e => (.error e, w)
  | .ok target =>
    if X.is_convertible target.get_type .DB then
      match target.as_db with
      | .error e => (.error e, w)
      | .ok db => cluster_op I (.db_config db) (fun selection => .ok selection) w
    else
      match target.as_table with
      | .error e => (.error e, w)
      | .ok table =>
        let name := name_string_t.guarantee_valid table.name
        cluster_op I (.table_config table.db name) (fun selection => .ok selection) w

/-- The term `status`: `status_term_t::eval_impl`. -/
def status_term_t.eval_impl {σ : Type} (_X : externals) (I : reql_cluster_interface σ)
    (args : args_t) (w : world σ) : Except exc_t val_t × world σ :=
  match (do (← args.arg 0).as_table) with
  | .error e => (.error e, w)
  | .ok table =>
    let name := name_string_t.guarantee_valid table.name
    cluster_op I (.table_config table.db name) (fun selection => .ok selection) w

/-- The dispatcher `table_or_db_meta_term_t::eval_impl` of `wait`, `reconfigure` and
`rebalance`; `eval_impl_on_table_or_db` is the virtual method of the subclass, called
with `db` and `name_if_table`. -/
def table_or_db_meta_term_t.eval_impl {σ : Type} (X : externals)
    (eval_impl_on_table_or_db :
      args_t → db_t → Option name_string_t → world σ → Except exc_t val_t × world σ)
    (args : args_t) (w : world σ) : Except exc_t val_t × world σ :=
  match (if args.num_args = 0 then do
      let target := args.optarg "db"
      r_sanity_check target.isSome
      match target with
      | none => .error .sanity
      | some target => pure target
    else args.arg 0) with
  | .error e => (.error e, w)
  | .ok target =>
    if X.is_convertible target.get_type .DB then
      match target.as_db with
      | .error e => (.error e, w)
      | .ok db => eval_impl_on_table_or_db args db none w
    else
      match target.as_table with
      | .error e => (.error e, w)
      | .ok table =>
        let name := name_string_t.guarantee_valid table.name
        eval_impl_on_table_or_db args table.db (some name) w

/-- The method `wait_term_t::eval_impl_on_table_or_db`. -/
def wait_term_t.eval_impl_on_table_or_db {σ : Type} (I : reql_cluster_interface σ)
    (_args : args_t) (db : db_t) (name_if_table : Option name_string_t) (w : world σ) :
    Except exc_t val_t × world σ :=
  let readiness := table_readiness_t.finished
  match name_if_table with
  | some name => cluster_op I (.table_wait db name readiness) (fun result => .ok (.datum result)) w
  | none => cluster_op I (.db_wait db readiness) (fun result => .ok (.datum result)) w

/-- The term `wait`. -/
def wait_term_t.eval_impl {σ : Type} (X : externals) (I : reql_cluster_interface σ)
    (args : args_t) (w : world σ) : Except exc_t val_t × world σ :=
  table_or_db_meta_term_t.eval_impl X (wait_term_t.eval_impl_on_table_or_db I) args w

/-- The method `reconfigure_term_t::required_optarg`. -/
def reconfigure_term_t.required_optarg (args : args_t) (name : String) :
    Except exc_t val_t := do
  let result := args.optarg name
  rcheck result.isSome .GENERIC ("Missing required argument `" ++ name ++ "`.")
  match result with
  | none => .error .sanity
  | some v => pure v

/-- The block `// Parse the 'shards' optarg` of
`reconfigure_term_t::eval_impl_on_table_or_db`; `num_shards` is a `size_t`. -/
def reconfigure_term_t.parse_shards (X : externals) (args : args_t)
    (config_params : table_generate_config_params_t) :
    Except exc_t table_generate_config_params_t := do
  let shards_optarg ← reconfigure_term_t.required_optarg args "shards"
  rcheck (decide ((← shards_optarg.as_int X) > 0)) .GENERIC
    "Every table must have at least one shard."
  pure { config_params with num_shards := static_cast_size_t (← shards_optarg.as_int X) }

/-- The argument parsing of `reconfigure_term_t::eval_impl_on_table_or_db`: the
parameters and the `dry_run` flag of the call, or the exception thrown before it. -/
def reconfigure_term_t.parse_arguments (X : externals) (args : args_t) :
    Except exc_t (table_generate_config_params_t × Bool) := do
  let config_params := X.make_default
  let config_params ← reconfigure_term_t.parse_shards X args config_params
  let config_params ← get_replicas_and_director X
    (some (← reconfigure_term_t.required_optarg args "replicas"))
    (args.optarg "director_tag") config_params
  let dry_run ← (match args.optarg "dry_run" with
    | some v => v.as_bool
    | none => pure false)
  pure (config_params, dry_run)

/-- The method `reconfigure_term_t::eval_impl_on_table_or_db`. -/
def reconfigure_term_t.eval_impl_on_table_or_db {σ : Type} (X : externals)
    (I : reql_cluster_interface σ) (args : args_t) (db : db_t)
    (name_if_table : Option name_string_t) (w : world σ) : Except exc_t val_t × world σ :=
  match reconfigure_term_t.parse_arguments X args with
  | .error e => (.error e, w)
  | .ok (config_params, dry_run) =>
    match name_if_table with
    | some name =>
      cluster_op I (.table_reconfigure db name config_params dry_run)
        (fun result => .ok (.datum result)) w
    | none =>
      cluster_op I (.db_reconfigure db config_params dry_run)
        (fun result => .ok (.datum result)) w

/-- The term `reconfigure`. -/
def reconfigure_term_t.eval_impl {σ : Type} (X : externals) (I : reql_cluster_interface σ)
    (args : args_t) (w : world σ) : Except exc_t val_t × world σ :=
  table_or_db_meta_term_t.eval_impl X (reconfigure_term_t.eval_impl_on_table_or_db X I) args w

/-- The method `rebalance_term_t::eval_impl_on_table_or_db`. -/
def rebalance_term_t.eval_impl_on_table_or_db {σ : Type} (I : reql_cluster_interface σ)
    (_args : args_t) (db : db_t) (name_if_table : Option name_string_t) (w : world σ) :
    Except exc_t val_t × world σ :=
  match name_if_table with
  | some name => cluster_op I (.table_rebalance db name) (fun result => .ok (.datum result)) w
  | none => cluster_op I (.db_rebalance db) (fun result => .ok (.datum result)) w

/-- The term `rebalance`. -/
def rebalance_term_t.eval_impl {σ : Type} (X : externals) (I : reql_cluster_interface σ)
    (args : args_t) (w : world σ) : Except exc_t val_t × world σ :=
  table_or_db_meta_term_t.eval_impl X (rebalance_term_t.eval_impl_on_table_or_db I) args w

/-- The argument parsing of `table_term_t::eval_impl`: `use_outdated`, the identifier
format, the database and the table name. -/
def table_term_t.parse_arguments (X : externals) (args : args_t) :
    Except exc_t (Bool × Option admin_identifier_format_t × db_t × name_string_t) := do
  let use_outdated ← (match args.optarg "use_outdated" with
    | some t => t.as_bool
    | none => pure false)
  let identifier_format ← (match args.optarg "identifier_format" with
    | some v => do
      let str ← v.as_str
      if str = "name" then pure (some admin_identifier_format_t.name)
      else if str = "uuid" then pure (some admin_identifier_format_t.uuid)
      else .error (.rfail .GENERIC ("Identifier format `" ++ str ++
        "` unrecognized (options are \"name\" and \"uuid\")."))
    | none => pure none)
  let (db, name) ← (if args.num_args = 1 then do
      let dbv := args.optarg "db"
      r_sanity_check dbv.isSome
      match dbv with
      | none => .error .sanity
      | some dbv =>
        let db ← dbv.as_db
        let name ← get_name X (some (← args.arg 0)) "Table"
        pure (db, name)
    else do
      r_sanity_check (args.num_args == 2)
      let db ← (← args.arg 0).as_db
      let name ← get_name X (some (← args.arg 1)) "Table"
      pure (db, name))
  pure (use_outdated, identifier_format, db, name)

/-- The term `table`: `table_term_t::eval_impl`. -/
def table_term_t.eval_impl {σ : Type} (X : externals) (I : reql_cluster_interface σ)
    (args : args_t) (w : world σ) : Except exc_t val_t × world σ :=
  match table_term_t.parse_arguments X args with
  | .error e => (.error e, w)
  | .ok (use_outdated, identifier_format, db, name) =>
    cluster_op I (.table_find name db identifier_format)
      (fun table => .ok (.table ⟨table, db, name.str, use_outdated⟩)) w

/-! ## Reconfiguration behind the cluster interface -/

/-- Modelled from the spec: the implementation of `table_reconfigure` behind the cluster
interface, which is outside the translated files.  The Reconfiguration Planner is a
"pure, deterministic function" `plan` from the current contract set and the desired
parameters to a new contract set (or a validation error); "`dry_run` mode returns the
computed plan without submitting it to the Table Manager"; otherwise the plan is
proposed through consensus (`propose`), which either commits a new contract set or
fails and leaves the committed one as it was.  The second component is the committed
state after the call. -/
def spec_table_reconfigure {contracts : Type}
    (plan : contracts → table_generate_config_params_t → Except String contracts)
    (propose : contracts → contracts → Except String contracts)
    (params : table_generate_config_params_t) (dry_run : Bool) (committed : contracts) :
    Except String contracts × contracts :=
  match plan committed params with
  | .error e => (.error e, committed)
  | .ok new_contracts =>
    if dry_run then (.ok new_contracts, committed)
    else
      match propose committed new_contracts with
      | .error e => (.error e, committed)
      | .ok committed1 => (.ok new_contracts, committed1)

/-- Modelled from the spec: a cluster interface whose `table_reconfigure` and
`db_reconfigure` are `spec_table_reconfigure` (the plan is returned as the datum
`encode plan`); the other operations are not described by the specification and report
themselves unavailable. -/
def spec_cluster_interface {contracts : Type}
    (plan : contracts → table_generate_config_params_t → Except String contracts)
    (propose : contracts → contracts → Except String contracts)
    (encode : contracts → datum_t) : reql_cluster_interface contracts where
  run := fun c st =>
    match c with
    | .table_reconfigure _ _ params dry_run =>
      ((spec_table_reconfigure plan propose params dry_run st).1.map encode,
        (spec_table_reconfigure plan propose params dry_run st).2)
    | .db_reconfigure _ params dry_run =>
      ((spec_table_reconfigure plan propose params dry_run st).1.map encode,
        (spec_table_reconfigure plan propose params dry_run st).2)
    | _ => (.error "unavailable", st)

/-! ## Concrete helpers and inputs for evaluation -/

/-- A concrete choice of the external helpers, used to evaluate the terms on examples:
integers of magnitude at most `2^53` convert, names are non-empty words over
`A-Za-z0-9_`, a value converts to `DB` only when it is a `DB`, arrays are built
unchanged, and the default parameters are one shard and one replica under the tag
`default`. -/
def reference_externals : externals where
  checked_convert_to_int := fun d =>
    if d.den = 1 ∧ -(2 ^ 53) ≤ d.num ∧ d.num ≤ 2 ^ 53 then .ok d.num
    else .error (.type_error "checked_convert_to_int")
  checked_convert_range := by
    intro d i h
    beta_reduce at h
    split at h
    · rename_i hc
      cases h
      unfold is_int64
      constructor <;> omega
    · cases h
  is_acceptable_name := fun s =>
    !s.data.isEmpty && s.data.all (fun c => c.isAlphanum || c == '_')
  valid_char_msg := "Use A-Za-z0-9_ only"
  print := fun _ => ""
  get_type_name := fun d =>
    match d.get_type with
    | .R_NULL => "NULL"
    | .R_BOOL => "BOOL"
    | .R_NUM => "NUMBER"
    | .R_STR => "STRING"
    | .R_ARRAY => "ARRAY"
    | .R_OBJECT => "OBJECT"
  is_convertible := fun t1 t2 =>
    match t1 with
    | .DB => t2 == .DB
    | .TABLE => t2 == .TABLE || t2 == .TABLE_SLICE || t2 == .SELECTION || t2 == .SEQUENCE
    | .TABLE_SLICE => t2 == .TABLE_SLICE || t2 == .SELECTION || t2 == .SEQUENCE
    | .SELECTION => t2 == .SELECTION || t2 == .SEQUENCE
    | .SEQUENCE => t2 == .SEQUENCE
    | .SINGLE_SELECTION => t2 == .SINGLE_SELECTION || t2 == .DATUM
    | .DATUM => t2 == .DATUM || t2 == .SEQUENCE
    | .FUNC => t2 == .FUNC
    | .GROUPED_DATA => t2 == .GROUPED_DATA
  array_datum := fun xs => .ok (.R_ARRAY xs)
  make_default := ⟨1, [(⟨"default"⟩, 1)], ⟨"default"⟩⟩

/-- An interface for evaluation on examples: contract sets are numbers, the planner
asks for `num_shards` contracts and consensus commits what is proposed. -/
def example_interface : reql_cluster_interface Nat :=
  spec_cluster_interface (fun _ params => .ok params.num_shards) (fun _ new => .ok new)
    (fun n => .R_NUM (Rat.ofInt n))

/-- An interface for evaluation on examples that distinguishes the two documents of a
table: `table_config` returns the string "config document" and `table_status` the
string "status document". -/
def document_interface : reql_cluster_interface Unit where
  run := fun c st =>
    match c with
    | .table_config _ _ => (.ok (val_t.datum (.R_STR "config document")), st)
    | .table_status _ _ => (.ok (val_t.datum (.R_STR "status document")), st)
    | _ => (.error "unavailable", st)

/-- The outcome `out` of evaluating a term in the world `w` relays the call `c`: `c` is
the one call appended to the log and the cluster state is the one `c` leaves; if `c`
reports the failure `e` the term throws the GENERIC error whose message is `e` up to its
first NUL character; if `c` reports success with the result `r` the term returns `k r`. -/
def relays {σ : Type} (I : reql_cluster_interface σ) (w : world σ)
    (out : Except exc_t val_t × world σ) (c : cluster_call)
    (k : c.result → Except exc_t val_t) : Prop :=
  out.2 = ⟨(I.run c w.st).2, w.log ++ [c]⟩ ∧
  (∀ e, (I.run c w.st).1 = .error e → out.1 = .error (.rfail .GENERIC (c_str e))) ∧
  (∀ r, (I.run c w.st).1 = .ok r → out.1 = k r)

/-- The integer `i` as a number datum. -/
def int_datum (i : Int) : datum_t := .R_NUM (Rat.ofInt i)

/-- The integer `i` as a value. -/
def int_val (i : Int) : val_t := .datum (int_datum i)

/-- The string `s` as a value. -/
def str_val (s : String) : val_t := .datum (.R_STR s)

/-! ## `get_replicas_and_director` with `*params` threaded explicitly -/

/-- The loop of `replicas_loop` with the map as it stands when the loop is left, by
completion or by a throw. -/
def replicas_loop_inplace (X : externals) :
    List (String × datum_t) → List (name_string_t × Nat) →
      Except exc_t Unit × List (name_string_t × Nat)
  | [], num_replicas => (.ok (), num_replicas)
  | pair :: rest, num_replicas =>
    match replicas_entry X pair with
    | .error e => (.error e, num_replicas)
    | .ok entry => replicas_loop_inplace X rest (map_insert num_replicas entry.1 entry.2)

/-- The block `if (replicas.has()) { ... }` of `get_replicas_and_director` as the
in-place update it is: the second component is `*params` when the block is left,
whether it completes (`.ok ()`) or throws. -/
def get_replicas_inplace (X : externals) (replicas director_tag : Option val_t)
    (params : table_generate_config_params_t) :
    Except exc_t Unit × table_generate_config_params_t :=
  match replicas with
  | some r =>
    let params := { params with num_replicas := [] }
    match r.as_datum with
    | .error e => (.error e, params)
    | .ok datum =>
      if datum.get_type = .R_OBJECT then
        match rcheck director_tag.isSome .GENERIC
            "`director_tag` must be specified when `replicas` is an OBJECT." with
        | .error e => (.error e, params)
        | .ok _ =>
          ((replicas_loop_inplace X datum.pairs params.num_replicas).1,
            { params with
              num_replicas := (replicas_loop_inplace X datum.pairs params.num_replicas).2 })
      else if datum.get_type = .R_NUM then
        match rcheck (!director_tag.isSome) .GENERIC
            "`replicas` must be an OBJECT if `director_tag` is specified." with
        | .error e => (.error e, params)
        | .ok _ =>
          match r.as_int_size_t X with
          | .error e => (.error e, params)
          | .ok count =>
            (.ok (), { params with
              num_replicas := map_insert params.num_replicas params.director_tag count })
      else
        (.error (.rfail .GENERIC
          ("Expected type OBJECT or NUMBER but found " ++ X.get_type_name datum ++ ":\n"
            ++ X.print datum)), params)
  | none => (.ok (), params)

/-- The function `get_replicas_and_director(replicas, director_tag, params)` as the
in-place update it is: the second component is `*params` when the function is left,
whether it returns (`.ok ()`) or throws. -/
def get_replicas_and_director_inplace (X : externals) (replicas director_tag : Option val_t)
    (params : table_generate_config_params_t) :
    Except exc_t Unit × table_generate_config_params_t :=
  match (get_replicas_inplace X replicas director_tag params).1 with
  | .error e => (.error e, (get_replicas_inplace X replicas director_tag params).2)
  | .ok _ =>
    if director_tag.isSome then
      match get_name X director_tag "Server tag" with
      | .error e => (.error e, (get_replicas_inplace X replicas director_tag params).2)
      | .ok name =>
        (.ok (), { (get_replicas_inplace X replicas director_tag params).2 with
          director_tag := name })
    else
      (.ok (), (get_replicas_inplace X replicas director_tag params).2)

/-! ## Epochs and timestamps (`clustering/table_manager/table_metadata.cc`) -/

/-- The fields `timestamp` and `id` that `table_metadata.cc` serializes for
`multi_table_manager_bcard_t::timestamp_t::epoch_t`; the wall-clock counter and the
unique identifier are unsigned numbers. -/
structure epoch_t where
  timestamp : Nat
  id : Nat
  deriving DecidableEq, Repr

/-- The fields `epoch` and `log_index` that `table_metadata.cc` serializes for
`multi_table_manager_bcard_t::timestamp_t`. -/
structure timestamp_t where
  epoch : epoch_t
  log_index : Nat
  deriving DecidableEq, Repr

/-- Modelled from the spec: the comparison of epochs, whose body is outside the
translated files: "Epochs are compared lexicographically by `(timestamp, id)`", with
the three outcomes of `compare(a, b) -> {less, equal, greater}`. -/
def epoch_t.compare (a b : epoch_t) : Ordering :=
  if a.timestamp < b.timestamp then .lt
  else if b.timestamp < a.timestamp then .gt
  else if a.id < b.id then .lt
  else if b.id < a.id then .gt
  else .eq

/-- Modelled from the spec: the comparison of timestamps, whose body is outside the
translated files: "the pair is compared by epoch first", and within one epoch by
`log_index`. -/
def timestamp_t.compare (a b : timestamp_t) : Ordering :=
  match epoch_t.compare a.epoch b.epoch with
  | .lt => .lt
  | .gt => .gt
  | .eq =>
    if a.log_index < b.log_index then .lt
    else if b.log_index < a.log_index then .gt
    else .eq

/-- The order on epochs: `a` compares less than `b`. -/
def epoch_t.lt (a b : epoch_t) : Prop := epoch_t.compare a b = .lt

/-- The order on timestamps: `a` compares less than `b`. -/
def timestamp_t.lt (a b : timestamp_t) : Prop := timestamp_t.compare a b = .lt

instance (a b : epoch_t) : Decidable (epoch_t.lt a b) := by
  unfold epoch_t.lt; exact inferInstance

instance (a b : timestamp_t) : Decidable (timestamp_t.lt a b) := by
  unfold timestamp_t.lt; exact inferInstance

/-! ## The Reconfiguration Planner -/

/-- A server identifier. -/
abbrev server_id_t := Nat

/-- Modelled from the spec: a Contract, "one per shard":
`{primary: optional server id, replicas: set of server ids, voters: set of server ids}`;
the sets are lists and the branch/version token is left out. -/
structure contract_t where
  primary : Option server_id_t
  replicas : List server_id_t
  voters : List server_id_t
  deriving DecidableEq, Repr

/-- Modelled from the spec: the order of the readiness levels,
"outdated-reads-ok < reads-ok < writes-ok < finished". -/
def table_readiness_t.rank : table_readiness_t → Nat
  | .outdated_read => 0
  | .read => 1
  | .write => 2
  | .finished => 3

/-- Modelled from the spec: steps (1) and (2) of the planner, which is outside the
translated files: "validate `num_shards ≥ 1`" and "validate every replica-count is
non-negative and, if `director_tag` is set, that the director tag appears with a
non-zero count" (counts are unsigned, and `params` always names a director tag). -/
def spec_validate (params : table_generate_config_params_t) : Except String Unit :=
  if params.num_shards < 1 then .error "Every table must have at least one shard."
  else
    match map_find params.num_replicas params.director_tag with
    | none => .error "The director tag has no replicas."
    | some count =>
      if count = 0 then .error "The director tag has no replicas." else .ok ()

/-- Modelled from the spec: step (4) of the planner for one tag: select `count` servers
"from the eligible pool by tag, preferring to keep currently-assigned servers"; a pool
with fewer than `count` servers cannot satisfy the count. -/
def spec_select (pool current : List server_id_t) (count : Nat) :
    Except String (List server_id_t) :=
  if pool.length < count then .error "Not enough servers carry the tag."
  else
    .ok ((pool.filter (fun x => decide (x ∈ current)) ++
      pool.filter (fun x => !decide (x ∈ current))).take count)

/-- Modelled from the spec: step (4) over all the tags of `num_replicas`: the servers
selected for each tag. -/
def spec_select_all (pool : name_string_t → List server_id_t) (current : List server_id_t) :
    List (name_string_t × Nat) → Except String (List (name_string_t × List server_id_t))
  | [] => .ok []
  | (tag, count) :: rest => do
    let selected ← spec_select (pool tag) current count
    let others ← spec_select_all pool current rest
    pure ((tag, selected) :: others)

/-- Modelled from the spec: steps (4) and (5) of the planner for one shard: the replicas
are the servers selected for every tag; the primary is taken among the servers selected
for the director tag ("which tag's members are eligible to be primary"), keeping the
current primary when it is one of them; and `voters` is "the full replica set". -/
def spec_plan_shard (pool : name_string_t → List server_id_t)
    (params : table_generate_config_params_t) (current : Option contract_t) :
    Except String contract_t := do
  let current_replicas := (match current with
    | some c => c.replicas
    | none => [])
  let selections ← spec_select_all pool current_replicas params.num_replicas
  let replicas := (selections.map Prod.snd).flatten
  let director := (match selections.find? (fun e => e.1 == params.director_tag) with
    | some e => e.2
    | none => [])
  let primary := (match current with
    | some c =>
      match c.primary with
      | some p => if p ∈ director then some p else director.head?
      | none => director.head?
    | none => director.head?)
  pure ⟨primary, replicas, replicas⟩

/-- Modelled from the spec: the contracts of the shards `i, i+1, ...` of the list. -/
def spec_plan_shards (pool : name_string_t → List server_id_t)
    (params : table_generate_config_params_t) (current : List contract_t) :
    List Nat → Except String (List contract_t)
  | [] => .ok []
  | i :: rest => do
    let c ← spec_plan_shard pool params
      (if current.length = params.num_shards then current.get? i else none)
    let cs ← spec_plan_shards pool params current rest
    pure (c :: cs)

/-- Modelled from the spec: the Reconfiguration Planner, a "pure, deterministic function
mapping (current contracts, desired shard/replica/tag parameters) to a new contract
set": validation, then one contract per shard; the existing contract of a shard is the
base of its placement when the shard count is unchanged, and there is none at table
creation (`current = []`).  Shard boundaries are not represented. -/
def spec_planner (pool : name_string_t → List server_id_t) (current : List contract_t)
    (params : table_generate_config_params_t) : Except String (List contract_t) := do
  spec_validate params
  spec_plan_shards pool params current (List.range params.num_shards)

/-- The pool of servers used for evaluation on examples: servers 1, 2, 3 carry the tag
`default` and servers 4, 5 the tag `us`. -/
def example_pool (tag : name_string_t) : List server_id_t :=
  if tag.str_ = "default" then [1, 2, 3] else if tag.str_ = "us" then [4, 5] else []

/-! ## Type manipulation (`rdb_protocol/terms/type_manip.hpp`) -/

/-- The constant `MAX_TYPE`. -/
def MAX_TYPE : Int := 10

/-- The numeric values of the enumerators of `val_t::type_t::raw_type_t` (`val.hpp`). -/
def raw_type_t.code : raw_type_t → Int
  | .DB => 1
  | .TABLE => 2
  | .TABLE_SLICE => 9
  | .SELECTION => 3
  | .SEQUENCE => 4
  | .SINGLE_SELECTION => 5
  | .DATUM => 6
  | .FUNC => 7
  | .GROUPED_DATA => 8

/-- The enumerator of `raw_type_t` with a given numeric value, if there is one: the
conversion `static_cast<val_t::type_t::raw_type_t>(n)`. -/
def raw_type_t.of_code (n : Int) : Option raw_type_t :=
  if n = 1 then some .DB
  else if n = 2 then some .TABLE
  else if n = 9 then some .TABLE_SLICE
  else if n = 3 then some .SELECTION
  else if n = 4 then some .SEQUENCE
  else if n = 5 then some .SINGLE_SELECTION
  else if n = 6 then some .DATUM
  else if n = 7 then some .FUNC
  else if n = 8 then some .GROUPED_DATA
  else none

/-- What `type_manip.hpp` uses whose declaration or body is outside the translated
files: the numeric values of the enumerators of `datum_t::type_t`, and `val_t::as_seq`
(here: the elements the stream yields through `next()`, or the exception thrown). -/
structure type_externals where
  datum_type_code : datum_type_t → Int
  as_seq : val_t → Except exc_t (List datum_t)

/-- The constant `DB_TYPE`. -/
def DB_TYPE : Int := raw_type_t.DB.code * MAX_TYPE

/-- The constant `TABLE_TYPE`. -/
def TABLE_TYPE : Int := raw_type_t.TABLE.code * MAX_TYPE

/-- The constant `SELECTION_TYPE`. -/
def SELECTION_TYPE : Int := raw_type_t.SELECTION.code * MAX_TYPE

/-- The constant `SEQUENCE_TYPE`. -/
def SEQUENCE_TYPE : Int := raw_type_t.SEQUENCE.code * MAX_TYPE

/-- The constant `SINGLE_SELECTION_TYPE`. -/
def SINGLE_SELECTION_TYPE : Int := raw_type_t.SINGLE_SELECTION.code * MAX_TYPE

/-- The constant `DATUM_TYPE`. -/
def DATUM_TYPE : Int := raw_type_t.DATUM.code * MAX_TYPE

/-- The constant `FUNC_TYPE`. -/
def FUNC_TYPE : Int := raw_type_t.FUNC.code * MAX_TYPE

/-- The constant `R_NULL_TYPE`. -/
def R_NULL_TYPE (T : type_externals) : Int :=
  raw_type_t.DATUM.code * MAX_TYPE + T.datum_type_code .R_NULL

/-- The constant `R_BOOL_TYPE`. -/
def R_BOOL_TYPE (T : type_externals) : Int :=
  raw_type_t.DATUM.code * MAX_TYPE + T.datum_type_code .R_BOOL

/-- The constant `R_NUM_TYPE`. -/
def R_NUM_TYPE (T : type_externals) : Int :=
  raw_type_t.DATUM.code * MAX_TYPE + T.datum_type_code .R_NUM

/-- The constant `R_STR_TYPE`. -/
def R_STR_TYPE (T : type_externals) : Int :=
  raw_type_t.DATUM.code * MAX_TYPE + T.datum_type_code .R_STR

/-- The constant `R_ARRAY_TYPE`. -/
def R_ARRAY_TYPE (T : type_externals) : Int :=
  raw_type_t.DATUM.code * MAX_TYPE + T.datum_type_code .R_ARRAY

/-- The constant `R_OBJECT_TYPE`. -/
def R_OBJECT_TYPE (T : type_externals) : Int :=
  raw_type_t.DATUM.code * MAX_TYPE + T.datum_type_code .R_OBJECT

/-- The assignment `m[k] = v` on a `std::map`: the value of an existing key is
replaced, a new key is added. -/
def map_assign {κ ν : Type} [DecidableEq κ] (m : List (κ × ν)) (k : κ) (v : ν) :
    List (κ × ν) :=
  if m.any (fun e => decide (e.1 = k)) then m.map (fun e => if e.1 = k then (k, v) else e)
  else m ++ [(k, v)]

/-- The lookup `m.find(k)` on a `std::map`. -/
def map_lookup {κ ν : Type} [DecidableEq κ] (m : List (κ × ν)) (k : κ) : Option ν :=
  (m.find? (fun e => decide (e.1 = k))).map Prod.snd

/-- The comparison `operator<` of two `std::string`s, on their characters. -/
def string_lt : List Char → List Char → Bool
  | [], [] => false
  | [], _ :: _ => true
  | _ :: _, [] => false
  | a :: as, b :: bs =>
    if a.toNat < b.toNat then true
    else if b.toNat < a.toNat then false
    else string_lt as bs

/-- The order in which a `std::map` with `std::string` keys holds two entries. -/
def key_le (a b : String × Int) : Prop := string_lt b.1.data a.1.data = false

instance : DecidableRel key_le := fun a b => by
  unfold key_le; exact inferInstance

/-- The class `coerce_map_t`: the members `map` and `rmap`. -/
structure coerce_map_t where
  map : List (String × Int)
  rmap : List (Int × String)

/-- The assignments `map["DB"] = DB_TYPE; ...` of the constructor of `coerce_map_t`, in
the order of the source. -/
def coerce_map_t.assignments (T : type_externals) : List (String × Int) :=
  [("DB", DB_TYPE), ("TABLE", TABLE_TYPE), ("SELECTION", SELECTION_TYPE),
    ("STREAM", SEQUENCE_TYPE), ("SINGLE_SELECTION", SINGLE_SELECTION_TYPE),
    ("DATUM", DATUM_TYPE), ("FUNCTION", FUNC_TYPE),
    ("NULL", R_NULL_TYPE T), ("BOOL", R_BOOL_TYPE T), ("NUMBER", R_NUM_TYPE T),
    ("STRING", R_STR_TYPE T), ("ARRAY", R_ARRAY_TYPE T), ("OBJECT", R_OBJECT_TYPE T)]

/-- The constructor `coerce_map_t::coerce_map_t()`: the assignments to `map`, then the
loop `rmap[it->second] = it->first` over `map` in the ascending order of its keys. -/
def coerce_map_t.mk_default (T : type_externals) : coerce_map_t :=
  let map := (coerce_map_t.assignments T).foldl (fun m e => map_assign m e.1 e.2) []
  let rmap := (map.insertionSort key_le).foldl
    (fun r it => map_assign r it.2 it.1) []
  ⟨map, rmap⟩

/-- The method `coerce_map_t::get_type(s, caller)`. -/
def coerce_map_t.get_type (cm : coerce_map_t) (s : String) : Except exc_t Int :=
  match map_lookup cm.map s with
  | none => .error (.rfail .GENERIC ("Unknown Type: " ++ s))
  | some type => .ok type

/-- The method `coerce_map_t::get_name(type)`. -/
def coerce_map_t.get_name (cm : coerce_map_t) (type : Int) : Except exc_t String :=
  match map_lookup cm.rmap type with
  | none => .error .sanity
  | some name => .ok name

/-- The static object `_coerce_map`. -/
def _coerce_map (T : type_externals) : coerce_map_t := coerce_map_t.mk_default T

/-- The call `std::transform(s.begin(), s.end(), s.begin(), ::toupper)`. -/
def toupper (s : String) : String := ⟨s.data.map Char.toUpper⟩

/-- The static function `get_type(s, caller)` of `type_manip.hpp`. -/
def type_manip.get_type (T : type_externals) (s : String) : Except exc_t Int :=
  (_coerce_map T).get_type (toupper s)

/-- The static function `get_name(type)` of `type_manip.hpp`. -/
def type_manip.get_name (T : type_externals) (type : Int) : Except exc_t String :=
  (_coerce_map T).get_name type

/-- The function `supertype(type)`; the C++ division of `int`s truncates, and the result
is the numeric value of the `raw_type_t` it is cast to. -/
def supertype (type : Int) : Int := Int.tdiv type MAX_TYPE

/-- The function `subtype(type)`: `type - supertype(type)`, as the numeric value of the
`datum_t::type_t` it is cast to. -/
def subtype (type : Int) : Int := type - supertype type

/-- The function `merge_types(supertype, subtype)`. -/
def merge_types (supertype subtype : Int) : Int := supertype * MAX_TYPE + subtype

/-- The accessor `datum_t::el(index)` of an array. -/
def datum_t.el (d : datum_t) (index : Nat) : Except exc_t datum_t :=
  match d with
  | .R_ARRAY xs =>
    match xs.get? index with
    | some x => .ok x
    | none => .error (.type_error "el")
  | _ => .error (.type_error "el")

/-- The accessor `datum_t::as_object()`: the entries in the ascending order of their
keys. -/
def datum_t.as_object : datum_t → Except exc_t (List (String × datum_t))
  | .R_OBJECT kvs => .ok kvs
  | _ => .error (.type_error "as_object")

/-- The method `datum_t::add(key, val)` of an object: whether the key was already
there, and the object after the call (an existing key keeps its value). -/
def object_add (obj : List (String × datum_t)) (key : String) (val : datum_t) :
    Bool × List (String × datum_t) :=
  if obj.any (fun e => e.1 == key) then (true, obj)
  else
    (false, obj.filter (fun e => string_lt e.1.data key.data) ++ [(key, val)] ++
      obj.filter (fun e => string_lt key.data e.1.data))

/-- The test `opaque_start_type.is_convertible(supertype(end_type))`, the argument being
the `raw_type_t` with the numeric value `code`. -/
def is_convertible_to_code (X : externals) (t : raw_type_t) (code : Int) : Bool :=
  match raw_type_t.of_code code with
  | some r => X.is_convertible t r
  | none => false

/-- The statement `rfail("Cannot COERCE %s to %s.", ...)` that ends
`coerce_term_t::eval_impl`. -/
def coerce_term_t.fail (T : type_externals) (start_type end_type : Int) :
    Except exc_t val_t := do
  let start_name ← type_manip.get_name T start_type
  let end_name ← type_manip.get_name T end_type
  .error (.rfail .GENERIC ("Cannot COERCE " ++ start_name ++ " to " ++ end_name ++ "."))

/-- The block `// DATUM -> *` of `coerce_term_t::eval_impl`: the value returned, or
`none` when the block is left without returning. -/
def coerce_term_t.from_datum (X : externals) (T : type_externals) (val : val_t)
    (start_type end_type : Int) : Except exc_t (Option val_t) := do
  let d ← val.as_datum
  if supertype end_type = raw_type_t.DATUM.code then
    if end_type = R_STR_TYPE T then
      pure (some (.datum (.R_STR (X.print d))))
    else if start_type = R_OBJECT_TYPE T ∧ end_type = R_ARRAY_TYPE T then do
      let obj ← d.as_object
      pure (some (.datum (.R_ARRAY (obj.map (fun it => datum_t.R_ARRAY [.R_STR it.1, it.2])))))
    else pure none
  else pure none

/-- The loop `while (const datum_t *pair = ds->next())` of the block
`// SEQUENCE -> OBJECT`. -/
def coerce_term_t.pairs_to_object (X : externals) :
    List datum_t → List (String × datum_t) → Except exc_t (List (String × datum_t))
  | [], obj => .ok obj
  | pair :: rest, obj => do
    let key ← (← pair.el 0).as_str
    let keyval ← pair.el 1
    let b := (object_add obj key keyval).1
    let obj := (object_add obj key keyval).2
    rcheck (!b) .GENERIC
      ("Duplicate key " ++ key ++ " in coerced object.  (got " ++
        (match obj.find? (fun e => e.1 == key) with
          | some e => X.print e.2
          | none => "") ++
        " and " ++ X.print keyval ++ " as values)")
    coerce_term_t.pairs_to_object X rest obj

/-- The block `if (opaque_start_type.is_convertible(val_t::type_t::SEQUENCE))` of
`coerce_term_t::eval_impl`: the value returned, or `none` when the block is left without
returning. -/
def coerce_term_t.from_sequence (X : externals) (T : type_externals) (val : val_t)
    (start_type end_type : Int) : Except exc_t (Option val_t) :=
  match T.as_seq val with
  | .error _ => do
    let start_name ← type_manip.get_name T start_type
    let end_name ← type_manip.get_name T end_type
    .error (.rfail .GENERIC ("Cannot COERCE " ++ start_name ++ " to " ++ end_name ++
      " (failed to produce intermediate stream)."))
  | .ok ds =>
    if end_type = R_ARRAY_TYPE T ∨ end_type = DATUM_TYPE then
      pure (some (.datum (.R_ARRAY ds)))
    else if end_type = R_OBJECT_TYPE T then
      if start_type = R_ARRAY_TYPE T ∧ end_type = R_OBJECT_TYPE T then do
        let obj ← coerce_term_t.pairs_to_object X ds []
        pure (some (.datum (.R_OBJECT obj)))
      else pure none
    else pure none

/-- The term `coerce_to`: `coerce_term_t::eval_impl`, with `arg(0)` and `arg(1)`. -/
def coerce_term_t.eval_impl (X : externals) (T : type_externals) (arg0 arg1 : val_t) :
    Except exc_t val_t := do
  let val := arg0
  let opaque_start_type := val.get_type
  let start ← (if X.is_convertible opaque_start_type .DATUM then do
      let d ← val.as_datum
      pure (raw_type_t.DATUM.code, T.datum_type_code d.get_type)
    else pure (opaque_start_type.code, (0 : Int)))
  let start_type := merge_types start.1 start.2
  let end_type_name ← arg1.as_str
  let end_type ← type_manip.get_type T end_type_name
  if subtype end_type = 0 ∧
      is_convertible_to_code X opaque_start_type (supertype end_type) = true then
    pure val
  else do
    let from_datum ← (if X.is_convertible opaque_start_type .DATUM then
        coerce_term_t.from_datum X T val start_type end_type
      else pure none)
    match from_datum with
    | some v => pure v
    | none =>
      let from_sequence ← (if X.is_convertible opaque_start_type .SEQUENCE then
          coerce_term_t.from_sequence X T val start_type end_type
        else pure none)
      match from_sequence with
      | some v => pure v
      | none => coerce_term_t.fail T start_type end_type

/-- A concrete choice of `type_externals`, used to evaluate on examples: the datum type
codes 1 to 6 (in the alphabetical order of the enumerators), and a stream for array
datums only. -/
def reference_type_externals : type_externals where
  datum_type_code := fun t =>
    match t with
    | .R_ARRAY => 1
    | .R_BOOL => 2
    | .R_NULL => 3
    | .R_NUM => 4
    | .R_OBJECT => 5
    | .R_STR => 6
  as_seq := fun v =>
    match v with
    | .datum (.R_ARRAY xs) => .ok xs
    | _ => .error (.type_error "as_seq")

/-- The term `typeof`: `typeof_term_t::eval_impl`, with `arg(0)`; the name is returned
as a string datum. -/
def typeof_term_t.eval_impl (T : type_externals) (arg0 : val_t) : Except exc_t val_t := do
  let v0 := arg0
  let t := v0.get_type.code * MAX_TYPE
  let t ← (if t = DATUM_TYPE then do
      pure (t + T.datum_type_code (← v0.as_datum).get_type)
    else pure t)
  let name ← type_manip.get_name T t
  pure (.datum (.R_STR name))

/-- An interface for evaluation on examples whose `db_list` reports a failure with an
error string that holds a NUL character (`a`, NUL, `b`). -/
def nul_interface : reql_cluster_interface Unit where
  run := fun c st =>
    match c with
    | .db_list => (.error ⟨['a', Char.ofNat 0, 'b']⟩, st)
    | _ => (.error "unavailable", st)

/-- An interface for evaluation on examples whose `db_list` returns the one name `test`
and whose `table_list` returns the one name `t`. -/
def listing_interface : reql_cluster_interface Unit where
  run := fun c st =>
    match c with
    | .db_list => (.ok ({⟨"test"⟩} : Finset name_string_t), st)
    | .table_list _ => (.ok ({⟨"t"⟩} : Finset name_string_t), st)
    | _ => (.error "unavailable", st)

/-! ## General lemmas -/

theorem except_bind_ok {ε α β : Type} (x : Except ε α) (f : α → Except ε β) (b : β)
    (h : x >>= f = .ok b) : ∃ a, x = .ok a ∧ f a = .ok b := by
  cases x with
  | error e => cases h
  | ok a => exact ⟨a, rfl, h⟩

theorem except_bind_error {ε α β : Type} (x : Except ε α) (f : α → Except ε β) (e : ε)
    (h : x = .error e) : x >>= f = .error e := by
  subst h; rfl

theorem rcheck_true (t : base_exc_type) (m : String) : rcheck true t m = .ok () := rfl

theorem rcheck_false (t : base_exc_type) (m : String) :
    rcheck false t m = .error (.rfail t m) := rfl

theorem as_int_range (X : externals) (v : val_t) (s : Int) (h : v.as_int X = .ok s) :
    is_int64 s := by
  unfold val_t.as_int at h
  cases hd : v.as_datum with
  | error e => simp [hd, bind, Except.bind] at h
  | ok d =>
    cases hn : d.as_num with
    | error e => simp [hd, hn, bind, Except.bind] at h
    | ok n =>
      simp [hd, hn, bind, Except.bind] at h
      exact X.checked_convert_range n s h

theorem static_cast_size_t_of_nonneg (i : Int) (h0 : 0 ≤ i) (h1 : is_int64 i) :
    static_cast_size_t i = i.toNat := by
  unfold static_cast_size_t
  unfold is_int64 at h1
  rw [Int.emod_eq_of_lt h0 (by omega)]

theorem get_replicas_and_director_num_shards (X : externals) (replicas director_tag : Option val_t)
    (p q : table_generate_config_params_t)
    (h : get_replicas_and_director X replicas director_tag p = .ok q) :
    q.num_shards = p.num_shards := by
  unfold get_replicas_and_director at h
  simp only [bind, Except.bind, pure, Except.pure] at h
  split at h
  · cases h
  · rename_i p1 hp1
    have h1 : p1.num_shards = p.num_shards := by
      split at hp1
      · split at hp1
        · cases hp1
        · split at hp1
          · split at hp1
            · cases hp1
            · split at hp1
              · cases hp1
              · cases hp1; rfl
          · split at hp1
            · split at hp1
              · cases hp1
              · split at hp1
                · cases hp1
                · cases hp1; rfl
            · cases hp1
      · cases hp1; rfl
    split at h
    · split at h
      · cases h
      · cases h; exact h1
    · cases h; exact h1

theorem cluster_op_world {σ : Type} (I : reql_cluster_interface σ) (c : cluster_call)
    (k : c.result → Except exc_t val_t) (w : world σ) :
    (cluster_op I c k w).2 = ⟨(I.run c w.st).2, w.log ++ [c]⟩ := by
  unfold cluster_op invoke
  cases (I.run c w.st).1 <;> rfl

theorem table_create_parse_shards_ok (X : externals) (args : args_t) (v : val_t) (s : Int)
    (hopt : args.optarg "shards" = some v) (hs : v.as_int X = .ok s) (hpos : 0 < s)
    (p : table_generate_config_params_t) :
    table_create_term_t.parse_shards X args p = .ok { p with num_shards := s.toNat } := by
  have hr := as_int_range X v s hs
  unfold table_create_term_t.parse_shards
  simp [hopt, hs, bind, Except.bind, pure, Except.pure, hpos, rcheck_true,
    static_cast_size_t_of_nonneg s (le_of_lt hpos) hr]

theorem table_create_parse_shards_fail (X : externals) (args : args_t) (v : val_t) (s : Int)
    (hopt : args.optarg "shards" = some v) (hs : v.as_int X = .ok s) (hneg : s ≤ 0)
    (p : table_generate_config_params_t) :
    table_create_term_t.parse_shards X args p =
      .error (.rfail .GENERIC "Every table must have at least one shard.") := by
  unfold table_create_term_t.parse_shards
  simp [hopt, hs, bind, Except.bind, not_lt.mpr hneg, rcheck_false]

theorem reconfigure_parse_shards_ok (X : externals) (args : args_t) (v : val_t) (s : Int)
    (hopt : args.optarg "shards" = some v) (hs : v.as_int X = .ok s) (hpos : 0 < s)
    (p : table_generate_config_params_t) :
    reconfigure_term_t.parse_shards X args p = .ok { p with num_shards := s.toNat } := by
  have hr := as_int_range X v s hs
  unfold reconfigure_term_t.parse_shards reconfigure_term_t.required_optarg
  simp [hopt, hs, bind, Except.bind, pure, Except.pure, hpos, rcheck_true,
    static_cast_size_t_of_nonneg s (le_of_lt hpos) hr]

theorem reconfigure_parse_shards_fail (X : externals) (args : args_t) (v : val_t) (s : Int)
    (hopt : args.optarg "shards" = some v) (hs : v.as_int X = .ok s) (hneg : s ≤ 0)
    (p : table_generate_config_params_t) :
    reconfigure_term_t.parse_shards X args p =
      .error (.rfail .GENERIC "Every table must have at least one shard.") := by
  unfold reconfigure_term_t.parse_shards reconfigure_term_t.required_optarg
  simp [hopt, hs, bind, Except.bind, pure, Except.pure, not_lt.mpr hneg, rcheck_true,
    rcheck_false]

theorem table_create_parse_arguments_num_shards (X : externals) (args : args_t) (v : val_t)
    (s : Int) (hopt : args.optarg "shards" = some v) (hs : v.as_int X = .ok s) (hpos : 0 < s)
    (name : name_string_t) (db : db_t) (params : table_generate_config_params_t)
    (pk : String)
    (h : table_create_term_t.parse_arguments X args = .ok (name, db, params, pk)) :
    (params.num_shards : Int) = s := by
  unfold table_create_term_t.parse_arguments at h
  dsimp only at h
  rw [table_create_parse_shards_ok X args v s hopt hs hpos] at h
  obtain ⟨p1, hp1, h⟩ := except_bind_ok _ _ _ h
  cases hp1
  obtain ⟨q, hg, h⟩ := except_bind_ok _ _ _ h
  obtain ⟨pk1, -, h⟩ := except_bind_ok _ _ _ h
  obtain ⟨r, -, h⟩ := except_bind_ok _ _ _ h
  have hq := get_replicas_and_director_num_shards X _ _ _ _ hg
  simp only at hq
  obtain ⟨rdb, rname⟩ := r
  simp only [pure, Except.pure, Except.ok.injEq, Prod.mk.injEq] at h
  obtain ⟨-, -, h3, -⟩ := h
  rw [← h3, hq]
  exact Int.toNat_of_nonneg (le_of_lt hpos)

theorem reconfigure_parse_arguments_num_shards (X : externals) (args : args_t) (v : val_t)
    (s : Int) (hopt : args.optarg "shards" = some v) (hs : v.as_int X = .ok s) (hpos : 0 < s)
    (params : table_generate_config_params_t) (dry_run : Bool)
    (h : reconfigure_term_t.parse_arguments X args = .ok (params, dry_run)) :
    (params.num_shards : Int) = s := by
  unfold reconfigure_term_t.parse_arguments at h
  dsimp only at h
  rw [reconfigure_parse_shards_ok X args v s hopt hs hpos] at h
  obtain ⟨p1, hp1, h⟩ := except_bind_ok _ _ _ h
  cases hp1
  obtain ⟨rv, -, h⟩ := except_bind_ok _ _ _ h
  obtain ⟨q, hg, h⟩ := except_bind_ok _ _ _ h
  obtain ⟨d1, -, h⟩ := except_bind_ok _ _ _ h
  have hq := get_replicas_and_director_num_shards X _ _ _ _ hg
  simp only at hq
  simp only [pure, Except.pure, Except.ok.injEq, Prod.mk.injEq] at h
  obtain ⟨h3, -⟩ := h
  rw [← h3, hq]
  exact Int.toNat_of_nonneg (le_of_lt hpos)

/-! ## Lemmas on `get_replicas_and_director` -/

theorem get_name_ok_inv (X : externals) (v : val_t) (t : String) (n : name_string_t)
    (h : get_name X (some v) t = .ok n) :
    ∃ s, v.as_str = .ok s ∧ X.is_acceptable_name s = true ∧ n = ⟨s⟩ := by
  unfold get_name at h
  simp only [Option.isSome_some, r_sanity_check, if_true, bind, Except.bind] at h
  cases hs : v.as_str with
  | error e => rw [hs] at h; cases h
  | ok s =>
    rw [hs] at h
    cases hn : X.is_acceptable_name s with
    | false => simp [hn, rcheck_false] at h
    | true =>
      simp only [hn, rcheck_true, pure, Except.pure, Except.ok.injEq] at h
      exact ⟨s, rfl, hn, h.symm⟩

theorem get_name_of_ok (X : externals) (v : val_t) (t s : String) (hs : v.as_str = .ok s)
    (hn : X.is_acceptable_name s = true) : get_name X (some v) t = .ok ⟨s⟩ := by
  unfold get_name
  simp [r_sanity_check, bind, Except.bind, hs, hn, rcheck_true, pure, Except.pure]

theorem replicas_entry_ok_inv (X : externals) (kv : String × datum_t)
    (e : name_string_t × Nat) (h : replicas_entry X kv = .ok e) :
    e.1 = ⟨kv.1⟩ ∧ X.is_acceptable_name kv.1 = true ∧
      ∃ d c, kv.2 = .R_NUM d ∧ X.checked_convert_to_int d = .ok c ∧ 0 ≤ c ∧ (e.2 : Int) = c := by
  unfold replicas_entry at h
  dsimp only at h
  cases hn : X.is_acceptable_name kv.1 with
  | false => simp [hn, rcheck_false, bind, Except.bind] at h
  | true =>
    rw [hn, rcheck_true] at h
    obtain ⟨-, -, h⟩ := except_bind_ok _ _ _ h
    obtain ⟨c, hc, h⟩ := except_bind_ok _ _ _ h
    obtain ⟨d, hd, hc⟩ := except_bind_ok _ _ _ hc
    have hkv : kv.2 = .R_NUM d := by
      cases hk : kv.2 <;> rw [hk] at hd <;> simp [datum_t.as_num] at hd
      rw [hd]
    have hr := X.checked_convert_range d c hc
    by_cases h0 : 0 ≤ c
    · have hdec : decide (c ≥ 0) = true := by simpa using h0
      rw [hdec, rcheck_true] at h
      obtain ⟨-, -, h⟩ := except_bind_ok _ _ _ h
      obtain ⟨-, -, h⟩ := except_bind_ok _ _ _ h
      simp only [pure, Except.pure, Except.ok.injEq] at h
      rw [static_cast_size_t_of_nonneg c h0 hr] at h
      subst h
      exact ⟨rfl, rfl, d, c, hkv, hc, h0, Int.toNat_of_nonneg h0⟩
    · have hdec : decide (c ≥ 0) = false := by simpa using h0
      rw [hdec, rcheck_false] at h
      cases h

theorem replicas_entry_negative (X : externals) (kv : String × datum_t) (d : ℚ) (c : Int)
    (hkv : kv.2 = .R_NUM d) (hc : X.checked_convert_to_int d = .ok c) (hneg : c < 0) :
    replicas_entry X kv =
      if X.is_acceptable_name kv.1 = true then
        .error (.rfail .GENERIC "Can't have a negative number of replicas")
      else
        .error (.rfail .GENERIC
          ("Server tag name `" ++ kv.1 ++ "` invalid (" ++ X.valid_char_msg ++ ").")) := by
  unfold replicas_entry
  dsimp only
  cases hn : X.is_acceptable_name kv.1 with
  | false => simp [rcheck_false, bind, Except.bind]
  | true =>
    have hdec : decide (c ≥ 0) = false := by simpa using hneg
    simp [rcheck_true, rcheck_false, bind, Except.bind, hkv, datum_t.as_num, hc, hdec]

theorem replicas_loop_error_of_mem (X : externals) (kvs : List (String × datum_t))
    (kv : String × datum_t) (hmem : kv ∈ kvs) (e : exc_t)
    (he : replicas_entry X kv = .error e) (m : List (name_string_t × Nat)) :
    ∃ e1, replicas_loop X kvs m = .error e1 := by
  induction kvs generalizing m with
  | nil => cases hmem
  | cons x rest ih =>
    unfold replicas_loop
    cases hx : replicas_entry X x with
    | error e2 => exact ⟨e2, rfl⟩
    | ok en =>
      rcases List.mem_cons.mp hmem with hm | hm
      · subst hm; rw [hx] at he; cases he
      · exact ih hm _

theorem replicas_loop_first_error (X : externals) (pre post : List (String × datum_t))
    (kv : String × datum_t) (hpre : ∀ x ∈ pre, ∃ en, replicas_entry X x = .ok en) (e : exc_t)
    (he : replicas_entry X kv = .error e) (m : List (name_string_t × Nat)) :
    replicas_loop X (pre ++ kv :: post) m = .error e := by
  induction pre generalizing m with
  | nil =>
    simp only [List.nil_append]
    unfold replicas_loop
    rw [he]; rfl
  | cons x rest ih =>
    obtain ⟨en, hen⟩ := hpre x (List.mem_cons_self _ _)
    simp only [List.cons_append]
    unfold replicas_loop
    rw [hen]
    exact ih (fun y hy => hpre y (List.mem_cons_of_mem _ hy)) _

theorem map_insert_fresh (m : List (name_string_t × Nat)) (k : name_string_t) (v : Nat)
    (h : ∀ x ∈ m, x.1 ≠ k) : map_insert m k v = m ++ [(k, v)] := by
  unfold map_insert
  have : m.any (fun e => e.1 == k) = false := by
    rw [List.any_eq_false]
    intro x hx
    simpa using h x hx
  rw [this]; rfl

theorem replicas_loop_ok_inv (X : externals) (kvs : List (String × datum_t))
    (m q : List (name_string_t × Nat)) (hnd : (kvs.map Prod.fst).Nodup)
    (hfresh : ∀ x ∈ m, ∀ kv ∈ kvs, x.1 ≠ ⟨kv.1⟩)
    (h : replicas_loop X kvs m = .ok q) :
    ∃ es, q = m ++ es ∧ List.Forall₂ (fun en kv => replicas_entry X kv = .ok en) es kvs := by
  induction kvs generalizing m with
  | nil =>
    unfold replicas_loop at h
    cases h
    exact ⟨[], by simp, List.Forall₂.nil⟩
  | cons x rest ih =>
    unfold replicas_loop at h
    obtain ⟨en, hen, h⟩ := except_bind_ok _ _ _ h
    have hinv := replicas_entry_ok_inv X x en hen
    have hnd2 := List.nodup_cons.mp hnd
    rw [map_insert_fresh m en.1 en.2
      (fun y hy => by rw [hinv.1]; exact hfresh y hy x (List.mem_cons_self _ _))] at h
    obtain ⟨es, hq, hes⟩ := ih (m ++ [(en.1, en.2)]) hnd2.2 (by
      intro y hy kv hkv
      rcases List.mem_append.mp hy with hy | hy
      · exact hfresh y hy kv (List.mem_cons_of_mem _ hkv)
      · simp only [List.mem_singleton] at hy
        subst hy
        simp only [hinv.1]
        intro hcontra
        have hk : x.1 = kv.1 := by injection hcontra
        exact hnd2.1 (hk ▸ List.mem_map_of_mem Prod.fst hkv)) h
    exact ⟨en :: es, by simp [hq], List.Forall₂.cons hen hes⟩

theorem grd_object_some (X : externals) (kvs : List (String × datum_t)) (dv : val_t)
    (p : table_generate_config_params_t) :
    get_replicas_and_director X (some (.datum (.R_OBJECT kvs))) (some dv) p =
      (replicas_loop X kvs [] >>= fun m =>
        get_name X (some dv) "Server tag" >>= fun name =>
          pure ⟨p.num_shards, m, name⟩) := by
  unfold get_replicas_and_director
  simp only [val_t.as_datum, datum_t.get_type, datum_t.pairs, Option.isSome_some, rcheck_true,
    bind, Except.bind, pure, Except.pure, if_true]
  cases replicas_loop X kvs [] with
  | error e => rfl
  | ok m =>
    cases get_name X (some dv) "Server tag" with
    | error e => rfl
    | ok n => rfl

theorem grd_object_none (X : externals) (kvs : List (String × datum_t))
    (p : table_generate_config_params_t) :
    get_replicas_and_director X (some (.datum (.R_OBJECT kvs))) none p =
      .error (.rfail .GENERIC
        "`director_tag` must be specified when `replicas` is an OBJECT.") := by
  unfold get_replicas_and_director
  simp [val_t.as_datum, datum_t.get_type, rcheck_false, bind, Except.bind]

theorem grd_num_some (X : externals) (d : ℚ) (dv : val_t)
    (p : table_generate_config_params_t) :
    get_replicas_and_director X (some (.datum (.R_NUM d))) (some dv) p =
      .error (.rfail .GENERIC
        "`replicas` must be an OBJECT if `director_tag` is specified.") := by
  unfold get_replicas_and_director
  simp [val_t.as_datum, datum_t.get_type, rcheck_false, bind, Except.bind]

theorem grd_num_none (X : externals) (d : ℚ) (p : table_generate_config_params_t) :
    get_replicas_and_director X (some (.datum (.R_NUM d))) none p =
      ((val_t.datum (.R_NUM d)).as_int_size_t X >>= fun count =>
        pure ⟨p.num_shards, [(p.director_tag, count)], p.director_tag⟩) := by
  unfold get_replicas_and_director
  simp only [val_t.as_datum, datum_t.get_type, Option.isSome_none, rcheck_true,
    bind, Except.bind, pure, Except.pure, Bool.not_false]
  cases (val_t.datum (.R_NUM d)).as_int_size_t X with
  | error e => rfl
  | ok c => rfl

theorem grd_none_some (X : externals) (dv : val_t) (p : table_generate_config_params_t) :
    get_replicas_and_director X none (some dv) p =
      (get_name X (some dv) "Server tag" >>= fun name =>
        pure ⟨p.num_shards, p.num_replicas, name⟩) := by
  unfold get_replicas_and_director
  simp only [Option.isSome_some, bind, Except.bind, pure, Except.pure, if_true]

theorem grd_object_ok_inv (X : externals) (kvs : List (String × datum_t)) (dv : val_t)
    (p q : table_generate_config_params_t) (hnd : (kvs.map Prod.fst).Nodup)
    (h : get_replicas_and_director X (some (.datum (.R_OBJECT kvs))) (some dv) p = .ok q) :
    (∃ s, dv.as_str = .ok s ∧ X.is_acceptable_name s = true ∧ q.director_tag = ⟨s⟩) ∧
    List.Forall₂
      (fun en kv => en.1 = ⟨kv.1⟩ ∧ ∃ d c, kv.2 = .R_NUM d ∧
        X.checked_convert_to_int d = .ok c ∧ 0 ≤ c ∧ (en.2 : Int) = c)
      q.num_replicas kvs := by
  rw [grd_object_some] at h
  obtain ⟨m, hm, h⟩ := except_bind_ok _ _ _ h
  obtain ⟨name, hname, h⟩ := except_bind_ok _ _ _ h
  simp only [pure, Except.pure, Except.ok.injEq] at h
  subst h
  obtain ⟨es, hes, hall⟩ := replicas_loop_ok_inv X kvs [] m hnd (by simp) hm
  simp only [List.nil_append] at hes
  subst hes
  refine ⟨get_name_ok_inv X dv _ name hname, ?_⟩
  exact hall.imp (fun en kv hen => by
    have := replicas_entry_ok_inv X kv en hen
    exact ⟨this.1, this.2.2⟩)

theorem map_find_cons (e : name_string_t × Nat) (m : List (name_string_t × Nat))
    (k : name_string_t) :
    map_find (e :: m) k = if e.1 = k then some e.2 else map_find m k := by
  unfold map_find
  rw [List.find?_cons]
  by_cases h : e.1 = k
  · have hb : (e.1 == k) = true := by simpa using h
    simp [hb, h]
  · have hb : (e.1 == k) = false := by simpa using h
    simp [hb, h]

theorem map_find_of_entries (X : externals) (q : List (name_string_t × Nat))
    (kvs : List (String × datum_t))
    (hall : List.Forall₂
      (fun en kv => en.1 = ⟨kv.1⟩ ∧ ∃ d c, kv.2 = datum_t.R_NUM d ∧
        X.checked_convert_to_int d = .ok c ∧ 0 ≤ c ∧ ((en : name_string_t × Nat).2 : Int) = c)
      q kvs)
    (hnd : (kvs.map Prod.fst).Nodup) (s : String) (n : Nat) :
    map_find q ⟨s⟩ = some n ↔
      ∃ d c, (s, datum_t.R_NUM d) ∈ kvs ∧ X.checked_convert_to_int d = .ok c ∧
        (n : Int) = c := by
  induction hall with
  | nil => simp [map_find]
  | @cons en kv q1 kvs1 hR _ ih =>
    obtain ⟨hk, d, c, hkv, hc, h0, hen⟩ := hR
    have hnd2 := List.nodup_cons.mp hnd
    rw [map_find_cons]
    by_cases hs : kv.1 = s
    · have hks : en.1 = ⟨s⟩ := by rw [hk, hs]
      rw [if_pos hks]
      constructor
      · intro h
        simp only [Option.some.injEq] at h
        refine ⟨d, c, ?_, hc, by rw [← h]; exact hen⟩
        have : kv = (s, datum_t.R_NUM d) := by
          cases kv; simp only at hs hkv; rw [hs, hkv]
        rw [this]; exact List.mem_cons_self _ _
      · rintro ⟨d1, c1, hmem, hc1, hn1⟩
        rcases List.mem_cons.mp hmem with hm | hm
        · have hd : d1 = d := by
            have h2 : (s, datum_t.R_NUM d1).2 = kv.2 := by rw [hm]
            simp only [hkv, datum_t.R_NUM.injEq] at h2
            exact h2
          subst hd
          rw [hc] at hc1
          cases hc1
          simp only [Option.some.injEq]
          omega
        · exfalso
          apply hnd2.1
          rw [hs]
          exact List.mem_map_of_mem Prod.fst hm
    · have hks : ¬ en.1 = ⟨s⟩ := by
        rw [hk]; intro hc2; injection hc2 with hc3; exact hs hc3
      rw [if_neg hks, ih hnd2.2]
      constructor
      · rintro ⟨d1, c1, hmem, hc1, hn1⟩
        exact ⟨d1, c1, List.mem_cons_of_mem _ hmem, hc1, hn1⟩
      · rintro ⟨d1, c1, hmem, hc1, hn1⟩
        rcases List.mem_cons.mp hmem with hm | hm
        · exfalso; apply hs; rw [← hm]
        · exact ⟨d1, c1, hm, hc1, hn1⟩

/-! ## Lemmas on the terms -/

theorem cluster_op_relays {σ : Type} (I : reql_cluster_interface σ) (c : cluster_call)
    (k : c.result → Except exc_t val_t) (w : world σ) :
    relays I w (cluster_op I c k w) c k := by
  unfold relays cluster_op invoke
  refine ⟨?_, ?_, ?_⟩
  · cases (I.run c w.st).1 <;> rfl
  · intro e he; rw [he]
  · intro r hr; rw [hr]

theorem meta_term_cases {σ : Type} (X : externals)
    (f : args_t → db_t → Option name_string_t → world σ → Except exc_t val_t × world σ)
    (args : args_t) (w : world σ) :
    (∃ e, table_or_db_meta_term_t.eval_impl X f args w = (.error e, w)) ∨
    ∃ db name_if_table, table_or_db_meta_term_t.eval_impl X f args w =
      f args db name_if_table w := by
  unfold table_or_db_meta_term_t.eval_impl
  split
  · exact Or.inl ⟨_, rfl⟩
  · split
    · split
      · exact Or.inl ⟨_, rfl⟩
      · exact Or.inr ⟨_, _, rfl⟩
    · split
      · exact Or.inl ⟨_, rfl⟩
      · exact Or.inr ⟨_, _, rfl⟩

/-! ## The claims -/

/-- C1: for `table_create` with the `shards` optarg given and for `reconfigure`, when the
optarg evaluates to the integer `s`: if `s ≤ 0` the evaluation fails with "Every table
must have at least one shard." and the cluster state and call log are untouched (no
operation is invoked); if `s > 0` the shard check passes with `num_shards = s`, and every
call the term adds to the log is a `table_create` (respectively `table_reconfigure` or
`db_reconfigure`) whose `params.num_shards` equals `s`. -/
theorem shards_validated {σ : Type} (X : externals) (I : reql_cluster_interface σ)
    (args : args_t) (w : world σ) (v : val_t) (s : Int)
    (hopt : args.optarg "shards" = some v) (hs : v.as_int X = .ok s) :
    (s ≤ 0 →
      table_create_term_t.eval_impl X I args w =
        (.error (.rfail .GENERIC "Every table must have at least one shard."), w) ∧
      ∀ db name_if_table,
        reconfigure_term_t.eval_impl_on_table_or_db X I args db name_if_table w =
          (.error (.rfail .GENERIC "Every table must have at least one shard."), w)) ∧
    (0 < s →
      (∀ p, table_create_term_t.parse_shards X args p = .ok { p with num_shards := s.toNat }) ∧
      (∀ p, reconfigure_term_t.parse_shards X args p = .ok { p with num_shards := s.toNat }) ∧
      (∀ c ∈ (table_create_term_t.eval_impl X I args w).2.log, c ∈ w.log ∨
        ∃ name db params pk, c = .table_create name db params pk ∧
          (params.num_shards : Int) = s) ∧
      (∀ db name_if_table,
        ∀ c ∈ (reconfigure_term_t.eval_impl_on_table_or_db X I args db name_if_table w).2.log,
          c ∈ w.log ∨ ∃ params dry_run,
            (c = .db_reconfigure db params dry_run ∨
              ∃ name, c = .table_reconfigure db name params dry_run) ∧
            (params.num_shards : Int) = s)) := by
  refine ⟨fun hneg => ⟨?_, fun db nit => ?_⟩, fun hpos => ⟨?_, ?_, ?_, fun db nit => ?_⟩⟩
  · unfold table_create_term_t.eval_impl table_create_term_t.parse_arguments
    dsimp only
    rw [table_create_parse_shards_fail X args v s hopt hs hneg]
    rfl
  · unfold reconfigure_term_t.eval_impl_on_table_or_db reconfigure_term_t.parse_arguments
    dsimp only
    rw [reconfigure_parse_shards_fail X args v s hopt hs hneg]
    rfl
  · exact table_create_parse_shards_ok X args v s hopt hs hpos
  · exact reconfigure_parse_shards_ok X args v s hopt hs hpos
  · intro c hc
    unfold table_create_term_t.eval_impl at hc
    cases hp : table_create_term_t.parse_arguments X args with
    | error e => rw [hp] at hc; exact Or.inl hc
    | ok r =>
      obtain ⟨name, db, params, pk⟩ := r
      rw [hp] at hc
      simp only [cluster_op_world, List.mem_append, List.mem_singleton] at hc
      rcases hc with hc | hc
      · exact Or.inl hc
      · exact Or.inr ⟨name, db, params, pk, hc,
          table_create_parse_arguments_num_shards X args v s hopt hs hpos _ _ _ _ hp⟩
  · intro c hc
    unfold reconfigure_term_t.eval_impl_on_table_or_db at hc
    cases hp : reconfigure_term_t.parse_arguments X args with
    | error e => rw [hp] at hc; exact Or.inl hc
    | ok r =>
      obtain ⟨params, dry_run⟩ := r
      rw [hp] at hc
      have hn := reconfigure_parse_arguments_num_shards X args v s hopt hs hpos _ _ hp
      cases nit with
      | none =>
        simp only [cluster_op_world, List.mem_append, List.mem_singleton] at hc
        rcases hc with hc | hc
        · exact Or.inl hc
        · exact Or.inr ⟨params, dry_run, Or.inl hc, hn⟩
      | some name =>
        simp only [cluster_op_world, List.mem_append, List.mem_singleton] at hc
        rcases hc with hc | hc
        · exact Or.inl hc
        · exact Or.inr ⟨params, dry_run, Or.inr ⟨name, hc⟩, hn⟩

/-- Witness for C1: `table_create` with `shards = 0` fails with the shard error and leaves
the world untouched. -/
theorem shards_validated_witness :
    table_create_term_t.eval_impl reference_externals example_interface
        ⟨[.db ⟨⟨"test"⟩⟩, str_val "t"], [("shards", int_val 0)]⟩ ⟨0, []⟩ =
      (.error (.rfail .GENERIC "Every table must have at least one shard."), ⟨0, []⟩) :=
  ((shards_validated reference_externals example_interface
      ⟨[.db ⟨⟨"test"⟩⟩, str_val "t"], [("shards", int_val 0)]⟩ ⟨0, []⟩ (int_val 0) 0
      (by rfl) (by rfl)).1 (by decide)).1

/-- C2 fails as stated: in the object `{"a!": 1, "b": -1}` the count of `b` is a negative
integer, yet the call fails with the error of the earlier check on the tag name `a!`,
not with "Can't have a negative number of replicas". -/
theorem negative_count_message_counterexample :
    (∃ kv ∈ [("a!", int_datum 1), ("b", int_datum (-1))], ∃ d c,
      kv.2 = datum_t.R_NUM d ∧ reference_externals.checked_convert_to_int d = .ok c ∧ c < 0) ∧
    get_replicas_and_director reference_externals
        (some (.datum (.R_OBJECT [("a!", int_datum 1), ("b", int_datum (-1))])))
        (some (str_val "b")) reference_externals.make_default =
      .error (.rfail .GENERIC "Server tag name `a!` invalid (Use A-Za-z0-9_ only).") ∧
    exc_t.rfail .GENERIC "Server tag name `a!` invalid (Use A-Za-z0-9_ only)." ≠
      exc_t.rfail .GENERIC "Can't have a negative number of replicas" :=
  ⟨⟨("b", int_datum (-1)), by simp, Rat.ofInt (-1), -1, rfl, by rfl, by decide⟩,
    by rfl, by decide⟩

/-- C2, amended: when `replicas` is an OBJECT and `director_tag` is given,
`get_replicas_and_director` fails whenever some tag's count is a negative integer; the
error is "Can't have a negative number of replicas" when every earlier pair passes its
checks and the tag of the negative count is an acceptable name (otherwise it is the error
of the first failing check); and when the call succeeds on an object with distinct keys,
`params.num_replicas` has exactly one entry per object key, in order, whose count is the
non-negative integer count of that key. -/
theorem object_replicas_validated (X : externals) (kvs : List (String × datum_t))
    (dv : val_t) (p : table_generate_config_params_t) :
    ((∃ kv ∈ kvs, ∃ d c, kv.2 = .R_NUM d ∧ X.checked_convert_to_int d = .ok c ∧ c < 0) →
      ∃ e, get_replicas_and_director X (some (.datum (.R_OBJECT kvs))) (some dv) p =
        .error e) ∧
    (∀ pre kv post d c, kvs = pre ++ kv :: post →
      (∀ x ∈ pre, ∃ en, replicas_entry X x = .ok en) →
      X.is_acceptable_name kv.1 = true → kv.2 = .R_NUM d →
      X.checked_convert_to_int d = .ok c → c < 0 →
      get_replicas_and_director X (some (.datum (.R_OBJECT kvs))) (some dv) p =
        .error (.rfail .GENERIC "Can't have a negative number of replicas")) ∧
    (∀ q, (kvs.map Prod.fst).Nodup →
      get_replicas_and_director X (some (.datum (.R_OBJECT kvs))) (some dv) p = .ok q →
      List.Forall₂
        (fun en kv => en.1 = ⟨kv.1⟩ ∧ ∃ d c, kv.2 = .R_NUM d ∧
          X.checked_convert_to_int d = .ok c ∧ 0 ≤ c ∧ (en.2 : Int) = c)
        q.num_replicas kvs) := by
  rw [grd_object_some]
  refine ⟨?_, ?_, ?_⟩
  · rintro ⟨kv, hmem, d, c, hkv, hc, hneg⟩
    have hent : ∃ e, replicas_entry X kv = .error e := by
      rw [replicas_entry_negative X kv d c hkv hc hneg]
      split
      · exact ⟨_, rfl⟩
      · exact ⟨_, rfl⟩
    obtain ⟨e, he⟩ := hent
    obtain ⟨e1, he1⟩ := replicas_loop_error_of_mem X kvs kv hmem e he []
    exact ⟨e1, except_bind_error _ _ _ he1⟩
  · intro pre kv post d c hk hpre hname hkv hc hneg
    have hent := replicas_entry_negative X kv d c hkv hc hneg
    rw [if_pos hname] at hent
    rw [hk]
    exact except_bind_error _ _ _ (replicas_loop_first_error X pre post kv hpre _ hent [])
  · intro q hnd h
    rw [← grd_object_some] at h
    exact (grd_object_ok_inv X kvs dv p q hnd h).2

/-- Witness for C2: the object `{"a": 1, "b": -1}` is rejected with the negative-count
error. -/
theorem object_replicas_validated_witness :
    get_replicas_and_director reference_externals
        (some (.datum (.R_OBJECT [("a", int_datum 1), ("b", int_datum (-1))])))
        (some (str_val "b")) reference_externals.make_default =
      .error (.rfail .GENERIC "Can't have a negative number of replicas") :=
  (object_replicas_validated reference_externals
      [("a", int_datum 1), ("b", int_datum (-1))] (str_val "b")
      reference_externals.make_default).2.1
    [("a", int_datum 1)] ("b", int_datum (-1)) [] (Rat.ofInt (-1)) (-1) rfl
    (fun x hx => by
      rw [List.mem_singleton] at hx
      subst hx
      exact ⟨(⟨"a"⟩, 1), by rfl⟩)
    (by rfl) rfl (by rfl) (by decide)

/-- C3 fails on the code: with `replicas = -1` (a NUMBER) and no `director_tag`,
`get_replicas_and_director` succeeds and records `2^64 - 1` replicas for the default
director tag, and `table_create` hands these parameters to the cluster interface. -/
theorem negative_number_replicas_accepted :
    (int_val (-1)).as_int reference_externals = .ok (-1) ∧
    get_replicas_and_director reference_externals (some (int_val (-1))) none
        reference_externals.make_default =
      .ok ⟨1, [(⟨"default"⟩, 18446744073709551615)], ⟨"default"⟩⟩ ∧
    (table_create_term_t.eval_impl reference_externals example_interface
        ⟨[.db ⟨⟨"test"⟩⟩, str_val "t"], [("replicas", int_val (-1))]⟩ ⟨0, []⟩).2.log =
      [.table_create ⟨"t"⟩ ⟨⟨"test"⟩⟩
        ⟨1, [(⟨"default"⟩, 18446744073709551615)], ⟨"default"⟩⟩ "id"] :=
  ⟨by rfl, by rfl, by rfl⟩

/-- C5: `get_replicas_and_director` fails with "`director_tag` must be specified when
`replicas` is an OBJECT." for every OBJECT `replicas` (the empty object included) when
`director_tag` is absent, fails with "`replicas` must be an OBJECT if `director_tag` is
specified." for every NUMBER `replicas` when `director_tag` is present, and fails for
every `replicas` value that is neither an OBJECT nor a NUMBER. -/
theorem replicas_form_matches_director_tag (X : externals)
    (p : table_generate_config_params_t) :
    (∀ kvs, get_replicas_and_director X (some (.datum (.R_OBJECT kvs))) none p =
      .error (.rfail .GENERIC
        "`director_tag` must be specified when `replicas` is an OBJECT.")) ∧
    (∀ d dv, get_replicas_and_director X (some (.datum (.R_NUM d))) (some dv) p =
      .error (.rfail .GENERIC
        "`replicas` must be an OBJECT if `director_tag` is specified.")) ∧
    (∀ r director_tag, (∀ kvs, r ≠ .datum (.R_OBJECT kvs)) → (∀ d, r ≠ .datum (.R_NUM d)) →
      ∃ e, get_replicas_and_director X (some r) director_tag p = .error e) := by
  refine ⟨fun kvs => grd_object_none X kvs p, fun d dv => grd_num_some X d dv p, ?_⟩
  intro r dt hobj hnum
  unfold get_replicas_and_director
  cases r with
  | datum d =>
    cases d with
    | R_OBJECT kvs => exact absurd rfl (hobj kvs)
    | R_NUM n => exact absurd rfl (hnum n)
    | R_NULL => exact ⟨_, rfl⟩
    | R_BOOL b => exact ⟨_, rfl⟩
    | R_STR s => exact ⟨_, rfl⟩
    | R_ARRAY xs => exact ⟨_, rfl⟩
  | grouped_data => exact ⟨_, rfl⟩
  | single_selection t => exact ⟨_, rfl⟩
  | sequence => exact ⟨_, rfl⟩
  | table t => exact ⟨_, rfl⟩
  | table_slice t => exact ⟨_, rfl⟩
  | selection t => exact ⟨_, rfl⟩
  | db d => exact ⟨_, rfl⟩
  | func => exact ⟨_, rfl⟩

/-- Witness for C5: a STRING `replicas` is rejected. -/
theorem replicas_form_matches_director_tag_witness :
    ∃ e, get_replicas_and_director reference_externals (some (str_val "three")) none
      reference_externals.make_default = .error e :=
  (replicas_form_matches_director_tag reference_externals
      reference_externals.make_default).2.2 (str_val "three") none
    (fun kvs h => by cases h) (fun d h => by cases h)

/-- C4 fails as stated: with `replicas = {"a": 1}` and `director_tag = "b"` the call
succeeds, and the resulting `num_replicas` has no entry for the director tag `b`. -/
theorem director_tag_missing_counterexample :
    get_replicas_and_director reference_externals
        (some (.datum (.R_OBJECT [("a", int_datum 1)]))) (some (str_val "b"))
        reference_externals.make_default =
      .ok ⟨1, [(⟨"a"⟩, 1)], ⟨"b"⟩⟩ ∧
    map_find [(⟨"a"⟩, 1)] ⟨"b"⟩ = none :=
  ⟨by rfl, by rfl⟩

/-- C4, amended: for every successful call of `get_replicas_and_director` in which
`director_tag` is given, `params.director_tag` is the given (acceptable) name; when
`replicas` is absent `params.num_replicas` is left as it was; and when `replicas` is
given it is an OBJECT, and (for distinct keys) `params.num_replicas` contains
`params.director_tag` with a count `n > 0` exactly when the object gives that tag the
positive integer count `n`.  The function does not itself require the director tag to
be among the replica tags. -/
theorem director_tag_assigned (X : externals) (replicas : Option val_t) (dv : val_t)
    (p q : table_generate_config_params_t)
    (h : get_replicas_and_director X replicas (some dv) p = .ok q) :
    ∃ s, dv.as_str = .ok s ∧ X.is_acceptable_name s = true ∧ q.director_tag = ⟨s⟩ ∧
      (replicas = none → q.num_replicas = p.num_replicas) ∧
      (∀ r, replicas = some r → ∃ kvs, r = .datum (.R_OBJECT kvs) ∧
        ((kvs.map Prod.fst).Nodup → ∀ n : Nat,
          (map_find q.num_replicas q.director_tag = some n ∧ 0 < n) ↔
            ∃ d c, (s, datum_t.R_NUM d) ∈ kvs ∧ X.checked_convert_to_int d = .ok c ∧
              0 < c ∧ (n : Int) = c)) := by
  cases replicas with
  | none =>
    rw [grd_none_some] at h
    obtain ⟨name, hname, h⟩ := except_bind_ok _ _ _ h
    simp only [pure, Except.pure, Except.ok.injEq] at h
    subst h
    obtain ⟨s, hs, hacc, hn⟩ := get_name_ok_inv X dv _ name hname
    exact ⟨s, hs, hacc, hn, fun _ => rfl, fun r hr => (by cases hr)⟩
  | some r =>
    have hobj : ∃ kvs, r = .datum (.R_OBJECT kvs) := by
      by_contra hno
      have h1 : ∀ kvs, r ≠ .datum (.R_OBJECT kvs) := fun kvs hk => hno ⟨kvs, hk⟩
      by_cases hnum : ∃ d, r = .datum (.R_NUM d)
      · obtain ⟨d, hd⟩ := hnum
        rw [hd, grd_num_some] at h
        cases h
      · have h2 : ∀ d, r ≠ .datum (.R_NUM d) := fun d hd => hnum ⟨d, hd⟩
        have h3 : ∃ e, get_replicas_and_director X (some r) (some dv) p = .error e := by
          unfold get_replicas_and_director
          cases r with
          | datum d =>
            cases d with
            | R_OBJECT kvs => exact absurd rfl (h1 kvs)
            | R_NUM n => exact absurd rfl (h2 n)
            | R_NULL => exact ⟨_, rfl⟩
            | R_BOOL b => exact ⟨_, rfl⟩
            | R_STR s => exact ⟨_, rfl⟩
            | R_ARRAY xs => exact ⟨_, rfl⟩
          | grouped_data => exact ⟨_, rfl⟩
          | single_selection t => exact ⟨_, rfl⟩
          | sequence => exact ⟨_, rfl⟩
          | table t => exact ⟨_, rfl⟩
          | table_slice t => exact ⟨_, rfl⟩
          | selection t => exact ⟨_, rfl⟩
          | db d => exact ⟨_, rfl⟩
          | func => exact ⟨_, rfl⟩
        obtain ⟨e, he⟩ := h3
        rw [he] at h
        cases h
    obtain ⟨kvs, hr⟩ := hobj
    subst hr
    have h0 := h
    rw [grd_object_some] at h0
    obtain ⟨m, -, h0⟩ := except_bind_ok _ _ _ h0
    obtain ⟨name, hname, h0⟩ := except_bind_ok _ _ _ h0
    simp only [pure, Except.pure, Except.ok.injEq] at h0
    obtain ⟨s, hs, hacc, hn⟩ := get_name_ok_inv X dv _ name hname
    have hdt : q.director_tag = ⟨s⟩ := by rw [← h0, hn]
    refine ⟨s, hs, hacc, hdt, fun hc => (by cases hc), fun r hr => ?_⟩
    cases hr
    refine ⟨kvs, rfl, fun hnd n => ?_⟩
    have hall := (grd_object_ok_inv X kvs dv p q hnd h).2
    rw [hdt, map_find_of_entries X q.num_replicas kvs hall hnd s n]
    constructor
    · rintro ⟨⟨d, c, hmem, hc, hnc⟩, hpos⟩
      exact ⟨d, c, hmem, hc, by omega, hnc⟩
    · rintro ⟨d, c, hmem, hc, hpos, hnc⟩
      exact ⟨⟨d, c, hmem, hc, hnc⟩, by omega⟩

/-- Witness for C4: with `replicas = {"a": 1, "b": 2}` and `director_tag = "b"` the call
succeeds and the director tag is assigned. -/
theorem director_tag_assigned_witness :
    ∃ s, (str_val "b").as_str = .ok s ∧ reference_externals.is_acceptable_name s = true ∧
      (⟨"b"⟩ : name_string_t) = ⟨s⟩ :=
  match director_tag_assigned reference_externals
      (some (.datum (.R_OBJECT [("a", int_datum 1), ("b", int_datum 2)]))) (str_val "b")
      reference_externals.make_default ⟨1, [(⟨"a"⟩, 1), (⟨"b"⟩, 2)], ⟨"b"⟩⟩ (by rfl) with
  | ⟨s, h1, h2, h3, _⟩ => ⟨s, h1, h2, h3⟩

/-- C6 fails on the code: evaluated on the table `test.t`, the `status` term invokes
`table_config` (not `table_status`) and returns the configuration document. -/
theorem status_term_invokes_table_config :
    status_term_t.eval_impl reference_externals document_interface
        ⟨[.table ⟨⟨7⟩, ⟨⟨"test"⟩⟩, "t", false⟩], []⟩ ⟨(), []⟩ =
      (.ok (.datum (.R_STR "config document")),
        ⟨(), [.table_config ⟨⟨"test"⟩⟩ ⟨"t"⟩]⟩) ∧
    (document_interface.run (.table_status ⟨⟨"test"⟩⟩ ⟨"t"⟩) ()).1 =
      .ok (val_t.datum (.R_STR "status document")) ∧
    cluster_call.table_config ⟨⟨"test"⟩⟩ ⟨"t"⟩ ≠ cluster_call.table_status ⟨⟨"test"⟩⟩ ⟨"t"⟩ :=
  ⟨by rfl, by rfl, by decide⟩

/-- C8: `reconfigure` makes exactly one cluster-interface call once its arguments are
parsed, and none when parsing throws: if parsing yields `(params, dry_run)` the log grows
by the single call `table_reconfigure db name params dry_run` (or
`db_reconfigure db params dry_run` on a database); `dry_run` is `false` when the optarg is
absent and otherwise the boolean given; `params` is exactly the default parameters
updated by the parsed `shards`, `replicas` and `director_tag`; and the whole term never
adds more than that one call. -/
theorem reconfigure_single_call {σ : Type} (X : externals) (I : reql_cluster_interface σ)
    (args : args_t) (db : db_t) (name_if_table : Option name_string_t) (w : world σ) :
    (∀ e, reconfigure_term_t.parse_arguments X args = .error e →
      reconfigure_term_t.eval_impl_on_table_or_db X I args db name_if_table w =
        (.error e, w)) ∧
    (∀ params dry_run, reconfigure_term_t.parse_arguments X args = .ok (params, dry_run) →
      (reconfigure_term_t.eval_impl_on_table_or_db X I args db name_if_table w).2.log =
        w.log ++ [match name_if_table with
          | some name => .table_reconfigure db name params dry_run
          | none => .db_reconfigure db params dry_run] ∧
      (args.optarg "dry_run" = none → dry_run = false) ∧
      (∀ v, args.optarg "dry_run" = some v → v.as_bool = .ok dry_run) ∧
      ∃ p1 replicas_optarg,
        reconfigure_term_t.parse_shards X args X.make_default = .ok p1 ∧
        args.optarg "replicas" = some replicas_optarg ∧
        get_replicas_and_director X (some replicas_optarg) (args.optarg "director_tag") p1 =
          .ok params) ∧
    ((reconfigure_term_t.eval_impl X I args w).2.log = w.log ∨
      ∃ db1 params dry_run,
        (reconfigure_term_t.eval_impl X I args w).2.log =
          w.log ++ [.db_reconfigure db1 params dry_run] ∨
        ∃ name, (reconfigure_term_t.eval_impl X I args w).2.log =
          w.log ++ [.table_reconfigure db1 name params dry_run]) := by
  refine ⟨?_, ?_, ?_⟩
  · intro e he
    unfold reconfigure_term_t.eval_impl_on_table_or_db
    rw [he]
  · intro params dry_run hp
    refine ⟨?_, ?_⟩
    · unfold reconfigure_term_t.eval_impl_on_table_or_db
      rw [hp]
      cases name_if_table with
      | none => simp only [cluster_op_world]
      | some name => simp only [cluster_op_world]
    · unfold reconfigure_term_t.parse_arguments at hp
      dsimp only at hp
      obtain ⟨p1, hp1, hp⟩ := except_bind_ok _ _ _ hp
      obtain ⟨rv, hrv, hp⟩ := except_bind_ok _ _ _ hp
      obtain ⟨q, hq, hp⟩ := except_bind_ok _ _ _ hp
      obtain ⟨d1, hd1, hp⟩ := except_bind_ok _ _ _ hp
      simp only [pure, Except.pure, Except.ok.injEq, Prod.mk.injEq] at hp
      obtain ⟨hq1, hd2⟩ := hp
      subst hq1 hd2
      have hrep : args.optarg "replicas" = some rv := by
        unfold reconfigure_term_t.required_optarg at hrv
        cases ho : args.optarg "replicas" with
        | none => simp [ho, rcheck_false, bind, Except.bind] at hrv
        | some v0 =>
          simp [ho, rcheck_true, bind, Except.bind, pure, Except.pure] at hrv
          rw [hrv]
      refine ⟨?_, ?_, p1, rv, hp1, hrep, hq⟩
      · intro hnone
        rw [hnone] at hd1
        simp only [pure, Except.pure, Except.ok.injEq] at hd1
        exact hd1.symm
      · intro v hv
        rw [hv] at hd1
        exact hd1
  · unfold reconfigure_term_t.eval_impl
    rcases meta_term_cases X (reconfigure_term_t.eval_impl_on_table_or_db X I) args w with
      ⟨e, he⟩ | ⟨db1, nit, h⟩
    · rw [he]; exact Or.inl rfl
    · rw [h]
      unfold reconfigure_term_t.eval_impl_on_table_or_db
      split
      · exact Or.inl rfl
      · rename_i _ cp dr _
        cases nit with
        | none =>
          exact Or.inr ⟨db1, cp, dr, Or.inl (by simp only [cluster_op_world])⟩
        | some name =>
          exact Or.inr ⟨db1, cp, dr, Or.inr ⟨name, by simp only [cluster_op_world]⟩⟩

/-- Witness for C8: `reconfigure` of the table `test.t` with `shards = 2`,
`replicas = 3` and `dry_run = true` makes the single call `table_reconfigure` with these
parameters and the flag set. -/
theorem reconfigure_single_call_witness :
    (reconfigure_term_t.eval_impl_on_table_or_db reference_externals example_interface
        ⟨[], [("shards", int_val 2), ("replicas", int_val 3),
          ("dry_run", .datum (.R_BOOL true))]⟩ ⟨⟨"test"⟩⟩ (some ⟨"t"⟩) ⟨5, []⟩).2.log =
      [] ++ [.table_reconfigure ⟨⟨"test"⟩⟩ ⟨"t"⟩ ⟨2, [(⟨"default"⟩, 3)], ⟨"default"⟩⟩ true] :=
  ((reconfigure_single_call reference_externals example_interface
      ⟨[], [("shards", int_val 2), ("replicas", int_val 3),
        ("dry_run", .datum (.R_BOOL true))]⟩ ⟨⟨"test"⟩⟩ (some ⟨"t"⟩) ⟨5, []⟩).2.1
    ⟨2, [(⟨"default"⟩, 3)], ⟨"default"⟩⟩ true (by rfl)).1

/-- C9 (against the reconfiguration described by the specification): a dry run leaves
the committed contract set unchanged, and a real reconfiguration with the same
parameters on the same base either returns the very plan the dry run returned or
reports the failure of the consensus proposal of that plan (and repeats the planner's
error when the dry run failed); moreover the `reconfigure` term evaluated with
`dry_run = true` over any interface whose dry-run reconfigurations leave the cluster
state unchanged leaves the cluster state unchanged, and the interface built from the
specification is such an interface. -/
theorem dry_run_purity {contracts : Type}
    (plan : contracts → table_generate_config_params_t → Except String contracts)
    (propose : contracts → contracts → Except String contracts)
    (encode : contracts → datum_t)
    (params : table_generate_config_params_t) (base : contracts) :
    (spec_table_reconfigure plan propose params true base).2 = base ∧
    (match (spec_table_reconfigure plan propose params true base).1 with
      | .ok new_contracts =>
        (spec_table_reconfigure plan propose params false
            (spec_table_reconfigure plan propose params true base).2).1 = .ok new_contracts ∨
        ∃ e, propose base new_contracts = .error e ∧
          (spec_table_reconfigure plan propose params false
            (spec_table_reconfigure plan propose params true base).2).1 = .error e
      | .error e =>
        (spec_table_reconfigure plan propose params false
            (spec_table_reconfigure plan propose params true base).2).1 = .error e) ∧
    (∀ {σ : Type} (X : externals) (I : reql_cluster_interface σ) (args : args_t) (db : db_t)
      (name_if_table : Option name_string_t) (w : world σ) (v : val_t),
      (∀ db1 name p st, (I.run (.table_reconfigure db1 name p true) st).2 = st) →
      (∀ db1 p st, (I.run (.db_reconfigure db1 p true) st).2 = st) →
      args.optarg "dry_run" = some v → v.as_bool = .ok true →
      (reconfigure_term_t.eval_impl_on_table_or_db X I args db name_if_table w).2.st =
        w.st) ∧
    (∀ db1 name p st,
      ((spec_cluster_interface plan propose encode).run
        (.table_reconfigure db1 name p true) st).2 = st) ∧
    (∀ db1 p st,
      ((spec_cluster_interface plan propose encode).run
        (.db_reconfigure db1 p true) st).2 = st) := by
  have hdry : ∀ p st, (spec_table_reconfigure plan propose p true st).2 = st := by
    intro p st
    unfold spec_table_reconfigure
    cases plan st p <;> rfl
  refine ⟨hdry params base, ?_, ?_, fun db1 name p st => hdry p st,
    fun db1 p st => hdry p st⟩
  · rw [hdry params base]
    unfold spec_table_reconfigure
    cases hpl : plan base params with
    | error e => rfl
    | ok nc =>
      cases hpr : propose base nc with
      | error e => exact Or.inr ⟨e, hpr, by simp [hpr]⟩
      | ok c1 => exact Or.inl (by simp [hpr])
  · intro σ X I args db nit w v hI1 hI2 hopt hv
    unfold reconfigure_term_t.eval_impl_on_table_or_db
    cases hp : reconfigure_term_t.parse_arguments X args with
    | error e => rfl
    | ok r =>
      obtain ⟨p, dry⟩ := r
      have hdry_true : dry = true := by
        unfold reconfigure_term_t.parse_arguments at hp
        dsimp only at hp
        obtain ⟨p1, -, hp⟩ := except_bind_ok _ _ _ hp
        obtain ⟨rv, -, hp⟩ := except_bind_ok _ _ _ hp
        obtain ⟨q, -, hp⟩ := except_bind_ok _ _ _ hp
        obtain ⟨d1, hd1, hp⟩ := except_bind_ok _ _ _ hp
        simp only [pure, Except.pure, Except.ok.injEq, Prod.mk.injEq] at hp
        simp only [hopt, hv, Except.ok.injEq] at hd1
        subst hd1
        exact hp.2.symm
      subst hdry_true
      cases nit with
      | none => simp only [cluster_op_world, hI2]
      | some name => simp only [cluster_op_world, hI1]

/-- Witness for C9: a dry-run `reconfigure` over the interface built from the
specification leaves the committed state `5` in place. -/
theorem dry_run_purity_witness :
    (reconfigure_term_t.eval_impl_on_table_or_db reference_externals example_interface
        ⟨[], [("shards", int_val 2), ("replicas", int_val 3),
          ("dry_run", .datum (.R_BOOL true))]⟩ ⟨⟨"test"⟩⟩ (some ⟨"t"⟩) ⟨5, []⟩).2.st = 5 :=
  (dry_run_purity (fun _ p => Except.ok p.num_shards) (fun _ new => Except.ok new)
      (fun n => datum_t.R_NUM (Rat.ofInt n)) reference_externals.make_default 5).2.2.1
    reference_externals example_interface
    ⟨[], [("shards", int_val 2), ("replicas", int_val 3),
      ("dry_run", .datum (.R_BOOL true))]⟩ ⟨⟨"test"⟩⟩ (some ⟨"t"⟩) ⟨5, []⟩
    (.datum (.R_BOOL true))
    (fun _ _ _ _ => rfl) (fun _ _ _ => rfl) (by rfl) (by rfl)

/-! ## Lemmas on epochs and timestamps -/

theorem epoch_lt_iff (a b : epoch_t) :
    epoch_t.lt a b ↔ a.timestamp < b.timestamp ∨ (a.timestamp = b.timestamp ∧ a.id < b.id) := by
  unfold epoch_t.lt epoch_t.compare
  split_ifs <;> simp <;> omega

theorem epoch_compare_eq_iff (a b : epoch_t) : epoch_t.compare a b = .eq ↔ a = b := by
  obtain ⟨t1, i1⟩ := a
  obtain ⟨t2, i2⟩ := b
  unfold epoch_t.compare
  simp only [epoch_t.mk.injEq]
  split_ifs <;> simp <;> omega

theorem epoch_compare_gt_iff (a b : epoch_t) : epoch_t.compare a b = .gt ↔ epoch_t.lt b a := by
  unfold epoch_t.lt epoch_t.compare
  split_ifs <;> simp <;> omega

theorem epoch_lt_irrefl (a : epoch_t) : ¬ epoch_t.lt a a := by
  rw [epoch_lt_iff]; omega

theorem timestamp_lt_iff (a b : timestamp_t) :
    timestamp_t.lt a b ↔
      epoch_t.lt a.epoch b.epoch ∨ (a.epoch = b.epoch ∧ a.log_index < b.log_index) := by
  unfold timestamp_t.lt timestamp_t.compare
  cases h : epoch_t.compare a.epoch b.epoch with
  | lt =>
    have : epoch_t.lt a.epoch b.epoch := h
    simp [this]
  | gt =>
    have h1 : ¬ epoch_t.lt a.epoch b.epoch := by unfold epoch_t.lt; rw [h]; simp
    have h2 : a.epoch ≠ b.epoch := by
      intro he; rw [← epoch_compare_eq_iff] at he; rw [he] at h; cases h
    simp [h1, h2]
  | eq =>
    have h2 : a.epoch = b.epoch := (epoch_compare_eq_iff _ _).mp h
    obtain ⟨e1, l1⟩ := a
    obtain ⟨e2, l2⟩ := b
    simp only at h2
    subst h2
    have h1 := epoch_lt_irrefl e1
    simp only [h1, false_or, true_and]
    by_cases h3 : l1 < l2
    · simp [h3]
    · by_cases h4 : l2 < l1
      · simp [h3, h4]
      · simp [h3, h4]

theorem timestamp_compare_gt_iff (a b : timestamp_t) :
    timestamp_t.compare a b = .gt ↔ timestamp_t.lt b a := by
  rw [timestamp_lt_iff]
  unfold timestamp_t.compare
  cases h : epoch_t.compare a.epoch b.epoch with
  | lt =>
    have h0 : epoch_t.lt a.epoch b.epoch := h
    have h1 : ¬ epoch_t.lt b.epoch a.epoch := by
      rw [epoch_lt_iff] at h0 ⊢; omega
    have h2 : b.epoch ≠ a.epoch := by
      intro he; rw [he] at h0; exact epoch_lt_irrefl _ h0
    simp [h1, h2]
  | gt =>
    have h1 : epoch_t.lt b.epoch a.epoch := (epoch_compare_gt_iff _ _).mp h
    simp [h1]
  | eq =>
    have h2 : a.epoch = b.epoch := (epoch_compare_eq_iff _ _).mp h
    obtain ⟨e1, l1⟩ := a
    obtain ⟨e2, l2⟩ := b
    simp only at h2
    subst h2
    have h1 := epoch_lt_irrefl e1
    simp only [h1, false_or, true_and]
    by_cases h3 : l1 < l2
    · have h4 : ¬ l2 < l1 := by omega
      simp [h3, h4]
    · by_cases h4 : l2 < l1
      · simp [h3, h4]
      · simp [h3, h4]

theorem timestamp_compare_eq_iff (a b : timestamp_t) :
    timestamp_t.compare a b = .eq ↔ a = b := by
  unfold timestamp_t.compare
  cases h : epoch_t.compare a.epoch b.epoch with
  | lt =>
    have h2 : a ≠ b := by
      intro he; rw [he] at h
      have := (epoch_compare_eq_iff b.epoch b.epoch).mpr rfl
      rw [this] at h; cases h
    simp [h2]
  | gt =>
    have h2 : a ≠ b := by
      intro he; rw [he] at h
      have := (epoch_compare_eq_iff b.epoch b.epoch).mpr rfl
      rw [this] at h; cases h
    simp [h2]
  | eq =>
    have h2 : a.epoch = b.epoch := (epoch_compare_eq_iff _ _).mp h
    obtain ⟨e1, l1⟩ := a
    obtain ⟨e2, l2⟩ := b
    simp only at h2
    subst h2
    simp only [timestamp_t.mk.injEq, true_and]
    by_cases h3 : l1 < l2
    · have h5 : l1 ≠ l2 := by omega
      simp [h3, h5]
    · by_cases h4 : l2 < l1
      · have h5 : l1 ≠ l2 := by omega
        simp [h3, h4, h5]
      · have h5 : l1 = l2 := by omega
        simp [h5]

theorem timestamp_lt_fields (a b : timestamp_t) :
    timestamp_t.lt a b ↔
      a.epoch.timestamp < b.epoch.timestamp ∨
      (a.epoch.timestamp = b.epoch.timestamp ∧
        (a.epoch.id < b.epoch.id ∨ (a.epoch.id = b.epoch.id ∧ a.log_index < b.log_index))) := by
  rw [timestamp_lt_iff, epoch_lt_iff]
  obtain ⟨⟨t1, i1⟩, l1⟩ := a
  obtain ⟨⟨t2, i2⟩, l2⟩ := b
  simp only [epoch_t.mk.injEq]
  constructor
  · rintro (h | h | h) <;> omega
  · intro h; omega

theorem timestamp_eq_fields (a b : timestamp_t) :
    a = b ↔ a.epoch.timestamp = b.epoch.timestamp ∧ a.epoch.id = b.epoch.id ∧
      a.log_index = b.log_index := by
  obtain ⟨⟨t1, i1⟩, l1⟩ := a
  obtain ⟨⟨t2, i2⟩, l2⟩ := b
  simp only [timestamp_t.mk.injEq, epoch_t.mk.injEq]
  constructor
  · rintro ⟨⟨h1, h2⟩, h3⟩; exact ⟨h1, h2, h3⟩
  · rintro ⟨h1, h2, h3⟩; exact ⟨⟨h1, h2⟩, h3⟩

/-! ## The claims on epochs, timestamps and the planner -/

/-- C11 (against the comparison described by the specification): epochs compare
lexicographically by `(timestamp, id)` and timestamps by epoch first and then by
`log_index`; on the fields `(epoch.timestamp, epoch.id, log_index)` the comparison of
timestamps is a strict total order: irreflexive, transitive, and trichotomous (exactly
one of `a < b`, `a = b`, `b < a` holds), with `greater` the converse of `less` and
`equal` the equality of all three fields. -/
theorem timestamps_totally_ordered :
    (∀ a b : epoch_t, epoch_t.lt a b ↔
      a.timestamp < b.timestamp ∨ (a.timestamp = b.timestamp ∧ a.id < b.id)) ∧
    (∀ a b : timestamp_t, timestamp_t.lt a b ↔
      epoch_t.lt a.epoch b.epoch ∨ (a.epoch = b.epoch ∧ a.log_index < b.log_index)) ∧
    (∀ a : timestamp_t, ¬ timestamp_t.lt a a) ∧
    (∀ a b c : timestamp_t, timestamp_t.lt a b → timestamp_t.lt b c → timestamp_t.lt a c) ∧
    (∀ a b : timestamp_t,
      (timestamp_t.lt a b ∧ a ≠ b ∧ ¬ timestamp_t.lt b a) ∨
      (¬ timestamp_t.lt a b ∧ a = b ∧ ¬ timestamp_t.lt b a) ∨
      (¬ timestamp_t.lt a b ∧ a ≠ b ∧ timestamp_t.lt b a)) ∧
    (∀ a b : timestamp_t, timestamp_t.compare a b = .gt ↔ timestamp_t.lt b a) ∧
    (∀ a b : timestamp_t, timestamp_t.compare a b = .eq ↔
      a.epoch.timestamp = b.epoch.timestamp ∧ a.epoch.id = b.epoch.id ∧
        a.log_index = b.log_index) := by
  refine ⟨epoch_lt_iff, timestamp_lt_iff, ?_, ?_, ?_, ?_, ?_⟩
  · intro a
    rw [timestamp_lt_fields]; omega
  · intro a b c
    simp only [timestamp_lt_fields]; omega
  · intro a b
    simp only [timestamp_lt_fields, timestamp_eq_fields, ne_eq]; omega
  · exact timestamp_compare_gt_iff
  · intro a b
    rw [timestamp_compare_eq_iff, timestamp_eq_fields]

/-- Witness for C11: transitivity across an epoch change and a log advance. -/
theorem timestamps_totally_ordered_witness :
    timestamp_t.lt ⟨⟨1, 5⟩, 9⟩ ⟨⟨2, 0⟩, 1⟩ :=
  timestamps_totally_ordered.2.2.2.1 ⟨⟨1, 5⟩, 9⟩ ⟨⟨2, 0⟩, 0⟩ ⟨⟨2, 0⟩, 1⟩
    (by decide) (by decide)

theorem spec_plan_shard_invariant (pool : name_string_t → List server_id_t)
    (params : table_generate_config_params_t) (current : Option contract_t) (c : contract_t)
    (h : spec_plan_shard pool params current = .ok c) :
    c.voters = c.replicas ∧ ∀ p, c.primary = some p → p ∈ c.replicas := by
  unfold spec_plan_shard at h
  dsimp only at h
  obtain ⟨selections, -, h⟩ := except_bind_ok _ _ _ h
  simp only [pure, Except.pure, Except.ok.injEq] at h
  subst h
  refine ⟨rfl, ?_⟩
  intro p hp
  have hdir : ∀ x, x ∈ (match selections.find? (fun e => e.1 == params.director_tag) with
      | some e => e.2
      | none => []) → x ∈ (selections.map Prod.snd).flatten := by
    intro x hx
    cases hf : selections.find? (fun e => e.1 == params.director_tag) with
    | none => rw [hf] at hx; cases hx
    | some e =>
      rw [hf] at hx
      exact List.mem_flatten.mpr ⟨e.2, List.mem_map_of_mem Prod.snd (List.mem_of_find?_eq_some hf), hx⟩
  have hhead : ∀ (l : List server_id_t) x, l.head? = some x → x ∈ l := by
    intro l x hl
    cases l with
    | nil => cases hl
    | cons y ys =>
      simp only [List.head?_cons, Option.some.injEq] at hl
      subst hl
      exact List.mem_cons_self _ _
  simp only at hp
  apply hdir
  cases current with
  | none => exact hhead _ _ hp
  | some cur =>
    simp only at hp
    cases hcp : cur.primary with
    | none => rw [hcp] at hp; exact hhead _ _ hp
    | some q =>
      rw [hcp] at hp
      simp only at hp
      split at hp
      · rename_i hq
        simp only [Option.some.injEq] at hp
        subst hp
        exact hq
      · exact hhead _ _ hp

theorem spec_plan_shards_invariant (pool : name_string_t → List server_id_t)
    (params : table_generate_config_params_t) (current : List contract_t) (shards : List Nat)
    (contracts : List contract_t)
    (h : spec_plan_shards pool params current shards = .ok contracts) :
    contracts.length = shards.length ∧
      ∀ c ∈ contracts, c.voters = c.replicas ∧ ∀ p, c.primary = some p → p ∈ c.replicas := by
  induction shards generalizing contracts with
  | nil =>
    unfold spec_plan_shards at h
    cases h
    exact ⟨rfl, fun c hc => by cases hc⟩
  | cons i rest ih =>
    unfold spec_plan_shards at h
    obtain ⟨c, hc, h⟩ := except_bind_ok _ _ _ h
    obtain ⟨cs, hcs, h⟩ := except_bind_ok _ _ _ h
    simp only [pure, Except.pure, Except.ok.injEq] at h
    subst h
    obtain ⟨hlen, hall⟩ := ih cs hcs
    refine ⟨by simp [hlen], ?_⟩
    intro c1 hc1
    rcases List.mem_cons.mp hc1 with h1 | h1
    · subst h1
      exact spec_plan_shard_invariant pool params _ _ hc
    · exact hall c1 h1

/-- C12 (against the planner described by the specification): for every contract set
the Reconfiguration Planner produces from parameters it accepts, there is one contract
per shard, at least one shard, and in every contract `voters` is a subset of `replicas`
and the primary, when set, is a member of `replicas`. -/
theorem contract_invariant (pool : name_string_t → List server_id_t)
    (current : List contract_t) (params : table_generate_config_params_t)
    (contracts : List contract_t) (h : spec_planner pool current params = .ok contracts) :
    contracts.length = params.num_shards ∧ 1 ≤ params.num_shards ∧
      ∀ c ∈ contracts,
        (∀ v ∈ c.voters, v ∈ c.replicas) ∧ (∀ p, c.primary = some p → p ∈ c.replicas) := by
  unfold spec_planner at h
  obtain ⟨u, hv, h⟩ := except_bind_ok _ _ _ h
  have hshards : 1 ≤ params.num_shards := by
    unfold spec_validate at hv
    by_contra hlt
    have : params.num_shards < 1 := by omega
    simp [this] at hv
  obtain ⟨hlen, hall⟩ := spec_plan_shards_invariant pool params current _ contracts h
  refine ⟨by simpa using hlen, hshards, ?_⟩
  intro c hc
  obtain ⟨h1, h2⟩ := hall c hc
  exact ⟨fun v hv1 => h1 ▸ hv1, h2⟩

/-- Witness for C12: table creation with `num_shards = 1` and three replicas under the
tag `default` yields one contract with three replicas, all voters, whose primary is one
of them. -/
theorem contract_invariant_witness :
    [(⟨some 1, [1, 2, 3], [1, 2, 3]⟩ : contract_t)].length = 1 ∧ 1 ≤ 1 ∧
      ∀ c ∈ [(⟨some 1, [1, 2, 3], [1, 2, 3]⟩ : contract_t)],
        (∀ v ∈ c.voters, v ∈ c.replicas) ∧ (∀ p, c.primary = some p → p ∈ c.replicas) :=
  contract_invariant example_pool [] ⟨1, [(⟨"default"⟩, 3)], ⟨"default"⟩⟩
    [⟨some 1, [1, 2, 3], [1, 2, 3]⟩] (by rfl)

/-! ## The claims on argument handling -/

theorem db_and_table_name_inv (X : externals) (args : args_t) (db : db_t)
    (name : name_string_t) (h : db_and_table_name X args = .ok (db, name)) :
    (args.num_args = 1 → ∃ dbv a0, args.optarg "db" = some dbv ∧ dbv.as_db = .ok db ∧
      args.arg 0 = .ok a0 ∧ a0.as_str = .ok name.str) ∧
    (args.num_args ≠ 1 → ∃ a0 a1, args.arg 0 = .ok a0 ∧ a0.as_db = .ok db ∧
      args.arg 1 = .ok a1 ∧ a1.as_str = .ok name.str) := by
  unfold db_and_table_name at h
  by_cases hn : args.num_args = 1
  · refine ⟨fun _ => ?_, fun hne => absurd hn hne⟩
    rw [if_pos hn] at h
    dsimp only at h
    cases hdb : args.optarg "db" with
    | none => rw [hdb] at h; simp [r_sanity_check, bind, Except.bind] at h
    | some dbv =>
      rw [hdb] at h
      obtain ⟨-, -, h⟩ := except_bind_ok _ _ _ h
      obtain ⟨db1, hdb1, h⟩ := except_bind_ok _ _ _ h
      obtain ⟨a0, ha0, h⟩ := except_bind_ok _ _ _ h
      obtain ⟨n1, hn1, h⟩ := except_bind_ok _ _ _ h
      simp only [pure, Except.pure, Except.ok.injEq, Prod.mk.injEq] at h
      obtain ⟨h1, h2⟩ := h
      subst h1 h2
      obtain ⟨s0, hs0, -, hn2⟩ := get_name_ok_inv X a0 _ _ hn1
      subst hn2
      exact ⟨dbv, a0, rfl, hdb1, ha0, hs0⟩
  · refine ⟨fun h1 => absurd h1 hn, fun _ => ?_⟩
    rw [if_neg hn] at h
    obtain ⟨a0, ha0, h⟩ := except_bind_ok _ _ _ h
    obtain ⟨db1, hdb1, h⟩ := except_bind_ok _ _ _ h
    obtain ⟨a1, ha1, h⟩ := except_bind_ok _ _ _ h
    obtain ⟨n1, hn1, h⟩ := except_bind_ok _ _ _ h
    simp only [pure, Except.pure, Except.ok.injEq, Prod.mk.injEq] at h
    obtain ⟨h1, h2⟩ := h
    subst h1 h2
    obtain ⟨s0, hs0, -, hn2⟩ := get_name_ok_inv X a1 _ _ hn1
    subst hn2
    exact ⟨a0, a1, ha0, hdb1, ha1, hs0⟩

/-- C13: whenever `table_create` hands `(name, db, params, primary_key)` to the cluster
interface, the call logged is `table_create name db params primary_key`; the primary
key is "id" when the `primary_key` optarg is absent and otherwise exactly the string
supplied; with one positional argument `db` is the `db` optarg and `name` is argument
0, and otherwise (two arguments) `db` is argument 0 and `name` is argument 1. -/
theorem table_create_primary_key_and_target {σ : Type} (X : externals)
    (I : reql_cluster_interface σ) (args : args_t) (w : world σ) (name : name_string_t)
    (db : db_t) (params : table_generate_config_params_t) (primary_key : String)
    (h : table_create_term_t.parse_arguments X args = .ok (name, db, params, primary_key)) :
    (table_create_term_t.eval_impl X I args w).2.log =
      w.log ++ [.table_create name db params primary_key] ∧
    (args.optarg "primary_key" = none → primary_key = "id") ∧
    (∀ v, args.optarg "primary_key" = some v → v.as_str = .ok primary_key) ∧
    (args.num_args = 1 → ∃ dbv a0, args.optarg "db" = some dbv ∧ dbv.as_db = .ok db ∧
      args.arg 0 = .ok a0 ∧ a0.as_str = .ok name.str) ∧
    (args.num_args = 2 → ∃ a0 a1, args.arg 0 = .ok a0 ∧ a0.as_db = .ok db ∧
      args.arg 1 = .ok a1 ∧ a1.as_str = .ok name.str) := by
  refine ⟨?_, ?_⟩
  · unfold table_create_term_t.eval_impl
    rw [h]
    simp only [cluster_op_world]
  · unfold table_create_term_t.parse_arguments at h
    dsimp only at h
    obtain ⟨p1, -, h⟩ := except_bind_ok _ _ _ h
    obtain ⟨p2, -, h⟩ := except_bind_ok _ _ _ h
    obtain ⟨pk, hpk, h⟩ := except_bind_ok _ _ _ h
    obtain ⟨r, hr, h⟩ := except_bind_ok _ _ _ h
    obtain ⟨rdb, rname⟩ := r
    simp only [pure, Except.pure, Except.ok.injEq, Prod.mk.injEq] at h
    obtain ⟨h1, h2, -, h4⟩ := h
    subst h1 h2 h4
    obtain ⟨hone, htwo⟩ := db_and_table_name_inv X args _ _ hr
    refine ⟨?_, ?_, hone, fun h2 => htwo (by omega)⟩
    · intro hnone
      rw [hnone] at hpk
      simp only [pure, Except.pure, Except.ok.injEq] at hpk
      exact hpk.symm
    · intro v hv
      rw [hv] at hpk
      exact hpk

/-- Witness for C13: `r.db("test").table_create("t", primary_key = "key")`. -/
theorem table_create_primary_key_and_target_witness :
    (table_create_term_t.eval_impl reference_externals example_interface
        ⟨[.db ⟨⟨"test"⟩⟩, str_val "t"], [("primary_key", str_val "key")]⟩ ⟨0, []⟩).2.log =
      [] ++ [.table_create ⟨"t"⟩ ⟨⟨"test"⟩⟩ ⟨1, [(⟨"default"⟩, 1)], ⟨"default"⟩⟩ "key"] :=
  (table_create_primary_key_and_target reference_externals example_interface
    ⟨[.db ⟨⟨"test"⟩⟩, str_val "t"], [("primary_key", str_val "key")]⟩ ⟨0, []⟩
    ⟨"t"⟩ ⟨⟨"test"⟩⟩ ⟨1, [(⟨"default"⟩, 1)], ⟨"default"⟩⟩ "key" (by rfl)).1

/-- C14: `finished` is the highest readiness level, and every call the `wait` term makes
is `table_wait` (table target) or `db_wait` (database target) with
`readiness = finished`: evaluated on a database or a table it logs exactly that one
call, and the whole term logs either nothing (the target did not resolve) or that one
call. -/
theorem wait_requests_finished {σ : Type} (X : externals) (I : reql_cluster_interface σ)
    (args : args_t) (w : world σ) :
    (∀ r : table_readiness_t, r.rank ≤ table_readiness_t.finished.rank) ∧
    (∀ r : table_readiness_t, r.rank = table_readiness_t.finished.rank ↔ r = .finished) ∧
    (∀ db, (wait_term_t.eval_impl_on_table_or_db I args db none w).2.log =
      w.log ++ [.db_wait db .finished]) ∧
    (∀ db name, (wait_term_t.eval_impl_on_table_or_db I args db (some name) w).2.log =
      w.log ++ [.table_wait db name .finished]) ∧
    ((wait_term_t.eval_impl X I args w).2.log = w.log ∨
      ∃ db, (wait_term_t.eval_impl X I args w).2.log = w.log ++ [.db_wait db .finished] ∨
        ∃ name, (wait_term_t.eval_impl X I args w).2.log =
          w.log ++ [.table_wait db name .finished]) := by
  refine ⟨?_, ?_, ?_, ?_, ?_⟩
  · intro r; cases r <;> decide
  · intro r; cases r <;> decide
  · intro db
    unfold wait_term_t.eval_impl_on_table_or_db
    simp only [cluster_op_world]
  · intro db name
    unfold wait_term_t.eval_impl_on_table_or_db
    simp only [cluster_op_world]
  · unfold wait_term_t.eval_impl
    rcases meta_term_cases X (wait_term_t.eval_impl_on_table_or_db I) args w with
      ⟨e, he⟩ | ⟨db, nit, h⟩
    · rw [he]; exact Or.inl rfl
    · rw [h]
      unfold wait_term_t.eval_impl_on_table_or_db
      cases nit with
      | none => exact Or.inr ⟨db, Or.inl (by simp only [cluster_op_world])⟩
      | some name => exact Or.inr ⟨db, Or.inr ⟨name, by simp only [cluster_op_world]⟩⟩

theorem meta_term_target {σ : Type} (X : externals)
    (f : args_t → db_t → Option name_string_t → world σ → Except exc_t val_t × world σ)
    (args : args_t) (w : world σ) (target : val_t)
    (h : (args.num_args = 0 ∧ args.optarg "db" = some target) ∨
      (args.num_args ≠ 0 ∧ args.arg 0 = .ok target)) :
    table_or_db_meta_term_t.eval_impl X f args w =
      if X.is_convertible target.get_type .DB then
        match target.as_db with
        | .error e => (.error e, w)
        | .ok db => f args db none w
      else
        match target.as_table with
        | .error e => (.error e, w)
        | .ok table => f args table.db (some (name_string_t.guarantee_valid table.name)) w := by
  unfold table_or_db_meta_term_t.eval_impl
  rcases h with ⟨h0, ht⟩ | ⟨h0, ht⟩
  · simp only [h0, if_true, ht, Option.isSome_some, r_sanity_check, bind, Except.bind, pure,
      Except.pure]
  · simp only [h0, if_false, ht]

/-- C15: for `wait`, `reconfigure` and `rebalance` the target is the `db` optarg when
there is no positional argument and argument 0 otherwise; if the target's type is
convertible to DB the method of the term is entered with that database and an empty
`name_if_table`, and otherwise with the table's own database and the table's name (so
`name_if_table` is empty exactly when the term is called on a database); with an empty
`name_if_table` the call made is the database variant (`db_wait`, `db_rebalance`,
`db_reconfigure`) on that database, and with a name it is the table variant
(`table_wait`, `table_rebalance`, `table_reconfigure`) on that database and name. -/
theorem table_or_db_dispatch {σ : Type} (X : externals) (I : reql_cluster_interface σ)
    (args : args_t) (w : world σ) :
    (∀ (f : args_t → db_t → Option name_string_t → world σ → Except exc_t val_t × world σ)
      (target : val_t),
      ((args.num_args = 0 ∧ args.optarg "db" = some target) ∨
        (args.num_args ≠ 0 ∧ args.arg 0 = .ok target)) →
      (X.is_convertible target.get_type .DB = true → ∀ db, target.as_db = .ok db →
        table_or_db_meta_term_t.eval_impl X f args w = f args db none w) ∧
      (X.is_convertible target.get_type .DB = false → ∀ table, target.as_table = .ok table →
        table_or_db_meta_term_t.eval_impl X f args w =
          f args table.db (some (name_string_t.guarantee_valid table.name)) w)) ∧
    (∀ db,
      (wait_term_t.eval_impl_on_table_or_db I args db none w).2.log =
        w.log ++ [.db_wait db .finished] ∧
      (rebalance_term_t.eval_impl_on_table_or_db I args db none w).2.log =
        w.log ++ [.db_rebalance db] ∧
      ∀ params dry_run, reconfigure_term_t.parse_arguments X args = .ok (params, dry_run) →
        (reconfigure_term_t.eval_impl_on_table_or_db X I args db none w).2.log =
          w.log ++ [.db_reconfigure db params dry_run]) ∧
    (∀ db name,
      (wait_term_t.eval_impl_on_table_or_db I args db (some name) w).2.log =
        w.log ++ [.table_wait db name .finished] ∧
      (rebalance_term_t.eval_impl_on_table_or_db I args db (some name) w).2.log =
        w.log ++ [.table_rebalance db name] ∧
      ∀ params dry_run, reconfigure_term_t.parse_arguments X args = .ok (params, dry_run) →
        (reconfigure_term_t.eval_impl_on_table_or_db X I args db (some name) w).2.log =
          w.log ++ [.table_reconfigure db name params dry_run]) := by
  refine ⟨?_, ?_, ?_⟩
  · intro f target ht
    rw [meta_term_target X f args w target ht]
    refine ⟨fun hc db hdb => ?_, fun hc table htab => ?_⟩
    · rw [if_pos hc, hdb]
    · rw [hc, htab]; rfl
  · intro db
    refine ⟨?_, ?_, ?_⟩
    · unfold wait_term_t.eval_impl_on_table_or_db
      simp only [cluster_op_world]
    · unfold rebalance_term_t.eval_impl_on_table_or_db
      simp only [cluster_op_world]
    · intro params dry_run hp
      unfold reconfigure_term_t.eval_impl_on_table_or_db
      rw [hp]
      simp only [cluster_op_world]
  · intro db name
    refine ⟨?_, ?_, ?_⟩
    · unfold wait_term_t.eval_impl_on_table_or_db
      simp only [cluster_op_world]
    · unfold rebalance_term_t.eval_impl_on_table_or_db
      simp only [cluster_op_world]
    · intro params dry_run hp
      unfold reconfigure_term_t.eval_impl_on_table_or_db
      rw [hp]
      simp only [cluster_op_world]

/-- Witness for C15: `rebalance` called on the table `test.t` enters the method with the
table's database and name. -/
theorem table_or_db_dispatch_witness :
    table_or_db_meta_term_t.eval_impl reference_externals
        (rebalance_term_t.eval_impl_on_table_or_db example_interface)
        ⟨[.table ⟨⟨7⟩, ⟨⟨"test"⟩⟩, "t", false⟩], []⟩ ⟨0, []⟩ =
      rebalance_term_t.eval_impl_on_table_or_db example_interface
        ⟨[.table ⟨⟨7⟩, ⟨⟨"test"⟩⟩, "t", false⟩], []⟩ ⟨⟨"test"⟩⟩
        (some (name_string_t.guarantee_valid "t")) ⟨0, []⟩ :=
  ((table_or_db_dispatch reference_externals example_interface
      ⟨[.table ⟨⟨7⟩, ⟨⟨"test"⟩⟩, "t", false⟩], []⟩ ⟨0, []⟩).1
    (rebalance_term_t.eval_impl_on_table_or_db example_interface)
    (.table ⟨⟨7⟩, ⟨⟨"test"⟩⟩, "t", false⟩)
    (Or.inr ⟨by decide, by rfl⟩)).2 (by rfl) ⟨⟨7⟩, ⟨⟨"test"⟩⟩, "t", false⟩ (by rfl)

/-! ## The claims on `reconfigure` arguments and the frame of the parser -/

theorem replicas_loop_inplace_agree (X : externals) (kvs : List (String × datum_t))
    (m : List (name_string_t × Nat)) :
    replicas_loop X kvs m =
      match (replicas_loop_inplace X kvs m).1 with
      | .ok _ => .ok (replicas_loop_inplace X kvs m).2
      | .error e => .error e := by
  induction kvs generalizing m with
  | nil => rfl
  | cons x rest ih =>
    unfold replicas_loop replicas_loop_inplace
    cases hx : replicas_entry X x with
    | error e => rfl
    | ok en => exact ih _

theorem get_replicas_inplace_frame (X : externals) (replicas director_tag : Option val_t)
    (p : table_generate_config_params_t) :
    (get_replicas_inplace X replicas director_tag p).2.num_shards = p.num_shards ∧
    (get_replicas_inplace X replicas director_tag p).2.director_tag = p.director_tag ∧
    (replicas = none → (get_replicas_inplace X replicas director_tag p).2 = p) := by
  unfold get_replicas_inplace
  cases replicas with
  | none => exact ⟨rfl, rfl, fun _ => rfl⟩
  | some r =>
    refine ⟨?_, ?_, fun h => (by cases h)⟩
    · dsimp only
      repeat' split
      all_goals rfl
    · dsimp only
      repeat' split
      all_goals rfl

theorem grd_inplace_agree (X : externals) (replicas director_tag : Option val_t)
    (p : table_generate_config_params_t) :
    get_replicas_and_director X replicas director_tag p =
      match (get_replicas_and_director_inplace X replicas director_tag p).1 with
      | .ok _ => .ok (get_replicas_and_director_inplace X replicas director_tag p).2
      | .error e => .error e := by
  unfold get_replicas_and_director get_replicas_and_director_inplace get_replicas_inplace
  cases replicas with
  | none =>
    cases director_tag with
    | none => rfl
    | some dv =>
      simp only [Option.isSome_some, bind, Except.bind, pure, Except.pure, if_true]
      cases get_name X (some dv) "Server tag" <;> rfl
  | some r =>
    cases hd : r.as_datum with
    | error e => simp [hd, bind, Except.bind]
    | ok datum =>
      simp only [hd, bind, Except.bind, pure, Except.pure]
      by_cases hobj : datum.get_type = .R_OBJECT
      · simp only [hobj, if_true]
        cases director_tag with
        | none => simp [rcheck]
        | some dv =>
          simp only [Option.isSome_some, rcheck_true, if_true]
          rw [replicas_loop_inplace_agree]
          cases (replicas_loop_inplace X datum.pairs []).1 with
          | error e => rfl
          | ok u =>
            simp only
            cases get_name X (some dv) "Server tag" <;> rfl
      · by_cases hnum : datum.get_type = .R_NUM
        · simp only [hnum, if_true]
          cases director_tag with
          | some dv => simp [rcheck]
          | none =>
            simp only [Option.isSome_none, Bool.not_false, rcheck_true]
            cases r.as_int_size_t X <;> simp
        · simp only [hobj, hnum, if_false]

theorem grd_inplace_frame (X : externals) (replicas director_tag : Option val_t)
    (p : table_generate_config_params_t) :
    (get_replicas_and_director_inplace X replicas director_tag p).2.num_shards =
      p.num_shards ∧
    (replicas = none →
      (get_replicas_and_director_inplace X replicas director_tag p).2.num_replicas =
        p.num_replicas) ∧
    (director_tag = none →
      (get_replicas_and_director_inplace X replicas director_tag p).2.director_tag =
        p.director_tag) ∧
    (∀ dv s, director_tag = some dv → dv.as_str = .ok s → X.is_acceptable_name s = true →
      (get_replicas_and_director_inplace X replicas director_tag p).1 = .ok () →
      (get_replicas_and_director_inplace X replicas director_tag p).2.director_tag = ⟨s⟩) := by
  obtain ⟨h1, h2, h3⟩ := get_replicas_inplace_frame X replicas director_tag p
  unfold get_replicas_and_director_inplace
  cases hf : (get_replicas_inplace X replicas director_tag p).1 with
  | error e =>
    refine ⟨h1, fun hn => by rw [h3 hn], fun _ => h2, ?_⟩
    intro dv s _ _ _ hok
    cases hok
  | ok u =>
    cases director_tag with
    | none =>
      simp only [Option.isSome_none, Bool.false_eq_true, if_false]
      refine ⟨h1, fun hn => by rw [h3 hn], fun _ => h2, ?_⟩
      intro dv s hdv
      cases hdv
    | some dv =>
      simp only [Option.isSome_some, if_true]
      cases hg : get_name X (some dv) "Server tag" with
      | error e =>
        refine ⟨h1, fun hn => by rw [h3 hn], fun hc => (by cases hc), ?_⟩
        intro dv1 s _ _ _ hok
        cases hok
      | ok n =>
        refine ⟨h1, fun hn => by rw [h3 hn], fun hc => (by cases hc), ?_⟩
        intro dv1 s hdv hs hacc _
        cases hdv
        rw [get_name_of_ok X dv _ s hs hacc] at hg
        cases hg
        rfl

theorem grd_ok_inplace (X : externals) (replicas director_tag : Option val_t)
    (p q : table_generate_config_params_t)
    (h : get_replicas_and_director X replicas director_tag p = .ok q) :
    (get_replicas_and_director_inplace X replicas director_tag p).1 = .ok () ∧
      (get_replicas_and_director_inplace X replicas director_tag p).2 = q := by
  rw [grd_inplace_agree] at h
  cases hi : (get_replicas_and_director_inplace X replicas director_tag p).1 with
  | error e => rw [hi] at h; cases h
  | ok u =>
    rw [hi] at h
    simp only [Except.ok.injEq] at h
    exact ⟨rfl, h⟩

theorem grd_inplace_director (X : externals) (replicas : Option val_t) (dv : val_t)
    (p : table_generate_config_params_t)
    (h : (get_replicas_and_director_inplace X replicas (some dv) p).1 = .ok ()) :
    ∃ s, dv.as_str = .ok s ∧ X.is_acceptable_name s = true ∧
      (get_replicas_and_director_inplace X replicas (some dv) p).2.director_tag = ⟨s⟩ := by
  unfold get_replicas_and_director_inplace at h ⊢
  cases hf : (get_replicas_inplace X replicas (some dv) p).1 with
  | error e => rw [hf] at h; cases h
  | ok u =>
    rw [hf] at h
    simp only [Option.isSome_some, if_true] at h ⊢
    cases hg : get_name X (some dv) "Server tag" with
    | error e => rw [hg] at h; cases h
    | ok n =>
      obtain ⟨s, hs, hacc, hn⟩ := get_name_ok_inv X dv _ n hg
      exact ⟨s, hs, hacc, hn⟩

theorem parse_shards_frame (X : externals) (args : args_t)
    (p p1 : table_generate_config_params_t)
    (h : table_create_term_t.parse_shards X args p = .ok p1) :
    p1.num_replicas = p.num_replicas ∧ p1.director_tag = p.director_tag ∧
      (args.optarg "shards" = none → p1 = p) := by
  unfold table_create_term_t.parse_shards at h
  cases ho : args.optarg "shards" with
  | none =>
    rw [ho] at h
    simp only [pure, Except.pure, Except.ok.injEq] at h
    subst h
    exact ⟨rfl, rfl, fun _ => rfl⟩
  | some v =>
    rw [ho] at h
    simp only at h
    obtain ⟨i, -, h⟩ := except_bind_ok _ _ _ h
    obtain ⟨u, -, h⟩ := except_bind_ok _ _ _ h
    obtain ⟨j, -, h⟩ := except_bind_ok _ _ _ h
    simp only [pure, Except.pure, Except.ok.injEq] at h
    subst h
    exact ⟨rfl, rfl, fun hc => (by cases hc)⟩

theorem except_ok_bind {ε α β : Type} (a : α) (f : α → Except ε β) :
    (Except.ok a : Except ε α) >>= f = f a := rfl

theorem static_cast_round_trip (i : Int) (h0 : 0 ≤ i) (h1 : is_int64 i) :
    static_cast_int64_t (static_cast_size_t i) = i := by
  rw [static_cast_size_t_of_nonneg i h0 h1]
  unfold static_cast_int64_t
  unfold is_int64 at h1
  rw [Int.toNat_of_nonneg h0, Int.emod_eq_of_lt h0 (by omega)]
  rw [if_pos h1.2]

theorem as_int_size_t_of_nonneg (X : externals) (v : val_t) (i : Int)
    (hi : v.as_int X = .ok i) (h0 : 0 ≤ i) : v.as_int_size_t X = .ok i.toNat := by
  have hr := as_int_range X v i hi
  have hb : (static_cast_int64_t (static_cast_size_t i) == i) = true := by
    rw [static_cast_round_trip i h0 hr]
    exact beq_self_eq_true i
  unfold val_t.as_int_size_t
  rw [hi, except_ok_bind]
  dsimp only
  rw [hb, rcheck_true, except_ok_bind, static_cast_size_t_of_nonneg i h0 hr]
  rfl

/-- C16: `reconfigure` fails with "Missing required argument `shards`." when the `shards`
optarg is absent, and with "Missing required argument `replicas`." when `shards` is
present and valid (a positive integer) but `replicas` is absent; in both cases the world
is untouched (no cluster-interface operation is invoked).  `table_create` accepts the
absence of either: the shard block and `get_replicas_and_director` then leave the
parameters as they are, so the parameters handed on keep the default `num_shards`
(respectively the default `num_replicas`). -/
theorem reconfigure_requires_shards_and_replicas {σ : Type} (X : externals)
    (I : reql_cluster_interface σ) (args : args_t) (db : db_t)
    (name_if_table : Option name_string_t) (w : world σ) :
    (args.optarg "shards" = none →
      reconfigure_term_t.eval_impl_on_table_or_db X I args db name_if_table w =
        (.error (.rfail .GENERIC "Missing required argument `shards`."), w)) ∧
    (∀ v s, args.optarg "shards" = some v → v.as_int X = .ok s → 0 < s →
      args.optarg "replicas" = none →
      reconfigure_term_t.eval_impl_on_table_or_db X I args db name_if_table w =
        (.error (.rfail .GENERIC "Missing required argument `replicas`."), w)) ∧
    (args.optarg "shards" = none →
      ∀ p, table_create_term_t.parse_shards X args p = .ok p) ∧
    (∀ p, get_replicas_and_director X none none p = .ok p) ∧
    (∀ name db1 params pk,
      table_create_term_t.parse_arguments X args = .ok (name, db1, params, pk) →
      (args.optarg "shards" = none → params.num_shards = X.make_default.num_shards) ∧
      (args.optarg "replicas" = none →
        params.num_replicas = X.make_default.num_replicas)) := by
  refine ⟨?_, ?_, ?_, ?_, ?_⟩
  · intro hnone
    unfold reconfigure_term_t.eval_impl_on_table_or_db reconfigure_term_t.parse_arguments
      reconfigure_term_t.parse_shards reconfigure_term_t.required_optarg
    simp only [hnone, Option.isSome_none, rcheck_false, bind, Except.bind]
    rfl
  · intro v s hv hs hpos hnone
    unfold reconfigure_term_t.eval_impl_on_table_or_db reconfigure_term_t.parse_arguments
    dsimp only
    rw [reconfigure_parse_shards_ok X args v s hv hs hpos]
    unfold reconfigure_term_t.required_optarg
    simp only [hnone, Option.isSome_none, rcheck_false, bind, Except.bind]
    rfl
  · intro hnone p
    unfold table_create_term_t.parse_shards
    rw [hnone]
    rfl
  · intro p
    rfl
  · intro name db1 params pk h
    unfold table_create_term_t.parse_arguments at h
    dsimp only at h
    obtain ⟨p1, hp1, h⟩ := except_bind_ok _ _ _ h
    obtain ⟨p2, hp2, h⟩ := except_bind_ok _ _ _ h
    obtain ⟨pk1, -, h⟩ := except_bind_ok _ _ _ h
    obtain ⟨r, -, h⟩ := except_bind_ok _ _ _ h
    obtain ⟨rdb, rname⟩ := r
    simp only [pure, Except.pure, Except.ok.injEq, Prod.mk.injEq] at h
    obtain ⟨-, -, h3, -⟩ := h
    subst h3
    obtain ⟨hf1, -, hf3⟩ := parse_shards_frame X args _ _ hp1
    obtain ⟨-, hq⟩ := grd_ok_inplace X _ _ _ _ hp2
    obtain ⟨hn, hr, -, -⟩ := grd_inplace_frame X (args.optarg "replicas")
      (args.optarg "director_tag") p1
    rw [hq] at hn hr
    refine ⟨fun hnone => ?_, fun hnone => ?_⟩
    · rw [hn, hf3 hnone]
    · rw [hr hnone, hf1]

/-- Witness for C16: `reconfigure` with `shards = 2` and no `replicas` fails for the
missing `replicas` and makes no call. -/
theorem reconfigure_requires_shards_and_replicas_witness :
    reconfigure_term_t.eval_impl_on_table_or_db reference_externals example_interface
        ⟨[], [("shards", int_val 2)]⟩ ⟨⟨"test"⟩⟩ (some ⟨"t"⟩) ⟨5, []⟩ =
      (.error (.rfail .GENERIC "Missing required argument `replicas`."), ⟨5, []⟩) :=
  (reconfigure_requires_shards_and_replicas reference_externals example_interface
    ⟨[], [("shards", int_val 2)]⟩ ⟨⟨"test"⟩⟩ (some ⟨"t"⟩) ⟨5, []⟩).2.1
    (int_val 2) 2 (by rfl) (by rfl) (by decide) (by rfl)

/-- The NUMBER branch of `get_replicas_and_director` on a number that `as_int<size_t>`
converts to `n`, with no `director_tag`: `params.num_replicas` becomes the single-entry
map `{d -> n}`, `d` being `params.director_tag` on entry, `params.director_tag` is still
`d`, and what `params.num_replicas` held on entry is discarded; a non-negative integer
`i` converts to `i` itself. -/
theorem number_replicas_single_entry (X : externals) (number : ℚ)
    (p : table_generate_config_params_t) :
    (∀ n, (val_t.datum (.R_NUM number)).as_int_size_t X = .ok n →
      get_replicas_and_director X (some (.datum (.R_NUM number))) none p =
        .ok ⟨p.num_shards, [(p.director_tag, n)], p.director_tag⟩) ∧
    (∀ i, X.checked_convert_to_int number = .ok i → 0 ≤ i →
      (val_t.datum (.R_NUM number)).as_int_size_t X = .ok i.toNat) := by
  refine ⟨?_, ?_⟩
  · intro n hn
    rw [grd_num_none, hn]
    rfl
  · intro i hi h0
    exact as_int_size_t_of_nonneg X _ i (by
      unfold val_t.as_int
      simp only [val_t.as_datum, datum_t.as_num, bind, Except.bind, hi]) h0

/-- The NUMBER branch on `replicas = 3`, over parameters that held two entries: the
single entry `{default -> 3}` is left. -/
theorem number_replicas_single_entry_example :
    get_replicas_and_director reference_externals (some (.datum (.R_NUM (Rat.ofInt 3))))
        none ⟨4, [(⟨"a"⟩, 1), (⟨"b"⟩, 2)], ⟨"default"⟩⟩ =
      .ok ⟨4, [(⟨"default"⟩, 3)], ⟨"default"⟩⟩ :=
  (number_replicas_single_entry reference_externals (Rat.ofInt 3)
    ⟨4, [(⟨"a"⟩, 1), (⟨"b"⟩, 2)], ⟨"default"⟩⟩).1 3 (by rfl)

/-- C17 fails on the code: the NUMBER `-1` is accepted by `as_int<size_t>`, which
returns `2^64 - 1` for it, and with no `director_tag` the call returns with
`params.num_replicas = {d -> 2^64 - 1}` rather than `{d -> -1}`; the entries held on
entry are discarded and `params.director_tag` is still `d`, as claimed. -/
theorem number_replicas_wraps_negative :
    (int_val (-1)).as_int_size_t reference_externals = .ok 18446744073709551615 ∧
    get_replicas_and_director reference_externals (some (int_val (-1))) none
        ⟨4, [(⟨"a"⟩, 1), (⟨"b"⟩, 2)], ⟨"us"⟩⟩ =
      .ok ⟨4, [(⟨"us"⟩, 18446744073709551615)], ⟨"us"⟩⟩ ∧
    ((18446744073709551615 : Nat) : Int) ≠ -1 :=
  ⟨by rfl, by rfl, by decide⟩

/-- C18: the frame of `get_replicas_and_director`.  The function agrees with its
in-place form; on every path, return or throw, `params.num_shards` is as on entry,
`params.num_replicas` is as on entry when `replicas` is absent, and
`params.director_tag` is as on entry when `director_tag` is absent; and on return, when
`director_tag` is present with the string `s`, `params.director_tag` is the name `s`. -/
theorem get_replicas_and_director_frame (X : externals)
    (replicas director_tag : Option val_t) (p : table_generate_config_params_t) :
    (get_replicas_and_director X replicas director_tag p =
      match (get_replicas_and_director_inplace X replicas director_tag p).1 with
      | .ok _ => .ok (get_replicas_and_director_inplace X replicas director_tag p).2
      | .error e => .error e) ∧
    (get_replicas_and_director_inplace X replicas director_tag p).2.num_shards =
      p.num_shards ∧
    (replicas = none →
      (get_replicas_and_director_inplace X replicas director_tag p).2.num_replicas =
        p.num_replicas) ∧
    (director_tag = none →
      (get_replicas_and_director_inplace X replicas director_tag p).2.director_tag =
        p.director_tag) ∧
    (∀ q, get_replicas_and_director X replicas director_tag p = .ok q →
      q.num_shards = p.num_shards ∧
      (replicas = none → q.num_replicas = p.num_replicas) ∧
      (director_tag = none → q.director_tag = p.director_tag) ∧
      (∀ dv s, director_tag = some dv → dv.as_str = .ok s → q.director_tag = ⟨s⟩)) := by
  obtain ⟨h1, h2, h3, -⟩ := grd_inplace_frame X replicas director_tag p
  refine ⟨grd_inplace_agree X replicas director_tag p, h1, h2, h3, ?_⟩
  intro q hq
  obtain ⟨hok, heq⟩ := grd_ok_inplace X replicas director_tag p q hq
  rw [heq] at h1 h2 h3
  refine ⟨h1, h2, h3, ?_⟩
  intro dv s hdv hs
  subst hdv
  obtain ⟨s1, hs1, -, hd⟩ := grd_inplace_director X replicas dv p hok
  rw [heq] at hd
  rw [hs] at hs1
  cases hs1
  exact hd

/-- Witness for C18: with `replicas` absent and `director_tag = "us"` the call returns
the parameters with only the director tag replaced. -/
theorem get_replicas_and_director_frame_witness :
    (⟨4, [(⟨"a"⟩, 1)], ⟨"us"⟩⟩ : table_generate_config_params_t).num_shards = 4 ∧
      ((none : Option val_t) = none →
        (⟨4, [(⟨"a"⟩, 1)], ⟨"us"⟩⟩ : table_generate_config_params_t).num_replicas =
          [(⟨"a"⟩, 1)]) :=
  match (get_replicas_and_director_frame reference_externals none (some (str_val "us"))
      ⟨4, [(⟨"a"⟩, 1)], ⟨"default"⟩⟩).2.2.2.2 ⟨4, [(⟨"a"⟩, 1)], ⟨"us"⟩⟩ (by rfl) with
  | ⟨h1, h2, _, _⟩ => ⟨h1, h2⟩

/-! ## The claims on type manipulation -/

theorem supertype_subtype_merge (s : Nat) (t : Fin 10) :
    supertype (merge_types s t.val) = s ∧ subtype (merge_types s t.val) = 9 * s + t.val := by
  have ht := t.isLt
  have h0 : (0 : Int) ≤ (s : Int) * 10 + (t.val : Int) := by omega
  have hs : supertype (merge_types s t.val) = s := by
    unfold supertype merge_types MAX_TYPE
    rw [Int.tdiv_eq_ediv h0 (by decide)]
    omega
  refine ⟨hs, ?_⟩
  unfold subtype
  rw [hs]
  unfold merge_types MAX_TYPE
  omega

/-- C19 fails on the code: `subtype(end_type)` is `end_type - end_type / MAX_TYPE`, which
is non-zero for each of the seven supertype codes, so the `// Identity` test
`!subtype(end_type) && ...` never holds: `coerce_to` of a DB to "DB" (and of a function
to "FUNCTION") does not return the value but fails with "Cannot COERCE". -/
theorem identity_coercion_fails :
    reference_externals.is_convertible (val_t.db ⟨⟨"test"⟩⟩).get_type .DB = true ∧
    type_manip.get_type reference_type_externals "DB" = .ok DB_TYPE ∧
    supertype DB_TYPE = raw_type_t.DB.code ∧
    (subtype DB_TYPE = 9 ∧ subtype TABLE_TYPE = 18 ∧ subtype SELECTION_TYPE = 27 ∧
      subtype SEQUENCE_TYPE = 36 ∧ subtype SINGLE_SELECTION_TYPE = 45 ∧
      subtype DATUM_TYPE = 54 ∧ subtype FUNC_TYPE = 63) ∧
    coerce_term_t.eval_impl reference_externals reference_type_externals
        (.db ⟨⟨"test"⟩⟩) (str_val "DB") =
      .error (.rfail .GENERIC "Cannot COERCE DB to DB.") ∧
    coerce_term_t.eval_impl reference_externals reference_type_externals
        .func (str_val "FUNCTION") =
      .error (.rfail .GENERIC "Cannot COERCE FUNCTION to FUNCTION.") :=
  ⟨by rfl, by rfl, by rfl, ⟨by rfl, by rfl, by rfl, by rfl, by rfl, by rfl, by rfl⟩,
    by rfl, by rfl⟩

/-- C20 fails on the code: `supertype(merge_types(s, t)) = s` holds, but
`subtype(merge_types(s, t))` is `9 * s + t`, not `t`: for `s = 1`, `t = 0` the code is
10, its subtype is 9, and merging the parts of the code 10 gives 19. -/
theorem type_code_decomposition_fails :
    merge_types 1 0 = 10 ∧ supertype (merge_types 1 0) = 1 ∧
    subtype (merge_types 1 0) = 9 ∧
    merge_types (supertype 10) (subtype 10) = 19 ∧
    (∀ (s : Nat) (t : Fin 10),
      supertype (merge_types s t.val) = s ∧ subtype (merge_types s t.val) = 9 * s + t.val) :=
  ⟨by rfl, by rfl, by rfl, by rfl, supertype_subtype_merge⟩

/-! ## Lemmas on the coerce map -/

theorem char_toUpper_idem (c : Char) : c.toUpper.toUpper = c.toUpper := by
  by_cases h : c.toNat ≥ 97 ∧ c.toNat ≤ 122
  · obtain ⟨h1, h2⟩ := h
    have hc : c = Char.ofNat c.toNat := (Char.ofNat_toNat c).symm
    generalize c.toNat = n at h1 h2 hc
    subst hc
    interval_cases n <;> decide
  · have hid : c.toUpper = c := by
      unfold Char.toUpper
      simp only [h, if_false]
    rw [hid, hid]

theorem toupper_idem (s : String) : toupper (toupper s) = toupper s := by
  unfold toupper
  simp only [List.map_map]
  congr 1
  apply List.map_congr_left
  intro c _
  exact char_toUpper_idem c

theorem map_assign_new {κ ν : Type} [DecidableEq κ] (m : List (κ × ν)) (k : κ) (v : ν)
    (h : ∀ e ∈ m, e.1 ≠ k) : map_assign m k v = m ++ [(k, v)] := by
  unfold map_assign
  have hany : m.any (fun e => decide (e.1 = k)) = false := by
    rw [List.any_eq_false]
    intro x hx
    simpa using h x hx
  rw [hany]
  rfl

theorem foldl_map_assign {κ ν : Type} [DecidableEq κ] (l m : List (κ × ν))
    (hnd : (l.map Prod.fst).Nodup) (hdisj : ∀ e ∈ m, ∀ x ∈ l, e.1 ≠ x.1) :
    l.foldl (fun m e => map_assign m e.1 e.2) m = m ++ l := by
  induction l generalizing m with
  | nil => simp
  | cons x rest ih =>
    have hnd2 := List.nodup_cons.mp hnd
    rw [List.foldl_cons, map_assign_new m x.1 x.2 (fun e he => hdisj e he x (List.mem_cons_self _ _))]
    rw [ih (m ++ [(x.1, x.2)]) hnd2.2]
    · simp
    · intro e he y hy
      rcases List.mem_append.mp he with he | he
      · exact hdisj e he y (List.mem_cons_of_mem _ hy)
      · simp only [List.mem_singleton] at he
        subst he
        intro hxy
        exact hnd2.1 (hxy ▸ List.mem_map_of_mem Prod.fst hy)

theorem map_lookup_some_iff {κ ν : Type} [DecidableEq κ] (m : List (κ × ν)) (k : κ) (v : ν)
    (hnd : (m.map Prod.fst).Nodup) : map_lookup m k = some v ↔ (k, v) ∈ m := by
  induction m with
  | nil => simp [map_lookup]
  | cons x rest ih =>
    have hnd2 := List.nodup_cons.mp hnd
    unfold map_lookup at ih ⊢
    rw [List.find?_cons]
    by_cases hx : x.1 = k
    · have hb : decide (x.1 = k) = true := by simpa using hx
      simp only [hb, Option.map_some', Option.some.injEq, List.mem_cons]
      constructor
      · intro h; left; rw [← h, ← hx]
      · rintro (h | h)
        · rw [← h]
        · exfalso
          apply hnd2.1
          rw [hx]
          exact List.mem_map_of_mem Prod.fst h
    · have hb : decide (x.1 = k) = false := by simpa using hx
      simp only [hb, List.mem_cons]
      rw [ih hnd2.2]
      constructor
      · intro h; exact Or.inr h
      · rintro (h | h)
        · exfalso; apply hx; rw [← h]
        · exact h

theorem map_lookup_none_iff {κ ν : Type} [DecidableEq κ] (m : List (κ × ν)) (k : κ) :
    map_lookup m k = none ↔ k ∉ m.map Prod.fst := by
  unfold map_lookup
  simp only [Option.map_eq_none', List.find?_eq_none, decide_eq_true_eq, List.mem_map,
    not_exists, not_and]

theorem assignments_names (T : type_externals) :
    (coerce_map_t.assignments T).map Prod.fst =
      ["DB", "TABLE", "SELECTION", "STREAM", "SINGLE_SELECTION", "DATUM", "FUNCTION",
        "NULL", "BOOL", "NUMBER", "STRING", "ARRAY", "OBJECT"] := rfl

theorem assignments_names_nodup (T : type_externals) :
    ((coerce_map_t.assignments T).map Prod.fst).Nodup := by
  rw [assignments_names]
  decide

theorem names_upper_case :
    ∀ n ∈ ["DB", "TABLE", "SELECTION", "STREAM", "SINGLE_SELECTION", "DATUM", "FUNCTION",
      "NULL", "BOOL", "NUMBER", "STRING", "ARRAY", "OBJECT"], toupper n = n := by
  decide

theorem coerce_map_map (T : type_externals) :
    (_coerce_map T).map = coerce_map_t.assignments T := by
  unfold _coerce_map coerce_map_t.mk_default
  dsimp only
  rw [foldl_map_assign _ [] (assignments_names_nodup T) (fun e he => by cases he)]
  rfl

theorem assignments_codes_nodup (T : type_externals)
    (hdistinct : Function.Injective T.datum_type_code)
    (hrange : ∀ t, 1 ≤ T.datum_type_code t ∧ T.datum_type_code t < MAX_TYPE) :
    ((coerce_map_t.assignments T).map Prod.snd).Nodup := by
  have h1 := hrange .R_NULL
  have h2 := hrange .R_BOOL
  have h3 := hrange .R_NUM
  have h4 := hrange .R_STR
  have h5 := hrange .R_ARRAY
  have h6 := hrange .R_OBJECT
  have d12 : T.datum_type_code .R_NULL ≠ T.datum_type_code .R_BOOL :=
    fun h => by cases hdistinct h
  have d13 : T.datum_type_code .R_NULL ≠ T.datum_type_code .R_NUM :=
    fun h => by cases hdistinct h
  have d14 : T.datum_type_code .R_NULL ≠ T.datum_type_code .R_STR :=
    fun h => by cases hdistinct h
  have d15 : T.datum_type_code .R_NULL ≠ T.datum_type_code .R_ARRAY :=
    fun h => by cases hdistinct h
  have d16 : T.datum_type_code .R_NULL ≠ T.datum_type_code .R_OBJECT :=
    fun h => by cases hdistinct h
  have d23 : T.datum_type_code .R_BOOL ≠ T.datum_type_code .R_NUM :=
    fun h => by cases hdistinct h
  have d24 : T.datum_type_code .R_BOOL ≠ T.datum_type_code .R_STR :=
    fun h => by cases hdistinct h
  have d25 : T.datum_type_code .R_BOOL ≠ T.datum_type_code .R_ARRAY :=
    fun h => by cases hdistinct h
  have d26 : T.datum_type_code .R_BOOL ≠ T.datum_type_code .R_OBJECT :=
    fun h => by cases hdistinct h
  have d34 : T.datum_type_code .R_NUM ≠ T.datum_type_code .R_STR :=
    fun h => by cases hdistinct h
  have d35 : T.datum_type_code .R_NUM ≠ T.datum_type_code .R_ARRAY :=
    fun h => by cases hdistinct h
  have d36 : T.datum_type_code .R_NUM ≠ T.datum_type_code .R_OBJECT :=
    fun h => by cases hdistinct h
  have d45 : T.datum_type_code .R_STR ≠ T.datum_type_code .R_ARRAY :=
    fun h => by cases hdistinct h
  have d46 : T.datum_type_code .R_STR ≠ T.datum_type_code .R_OBJECT :=
    fun h => by cases hdistinct h
  have d56 : T.datum_type_code .R_ARRAY ≠ T.datum_type_code .R_OBJECT :=
    fun h => by cases hdistinct h
  unfold MAX_TYPE at h1 h2 h3 h4 h5 h6
  simp only [coerce_map_t.assignments, List.map, DB_TYPE, TABLE_TYPE, SELECTION_TYPE,
    SEQUENCE_TYPE, SINGLE_SELECTION_TYPE, DATUM_TYPE, FUNC_TYPE, R_NULL_TYPE, R_BOOL_TYPE,
    R_NUM_TYPE, R_STR_TYPE, R_ARRAY_TYPE, R_OBJECT_TYPE, raw_type_t.code, MAX_TYPE,
    List.nodup_cons, List.mem_cons, List.mem_singleton, List.not_mem_nil, List.nodup_nil,
    not_or, or_false, and_true]
  repeat' apply And.intro
  all_goals first | omega | exact not_false

theorem foldl_rmap_assign (l : List (String × Int)) (r : List (Int × String)) :
    l.foldl (fun r it => map_assign r it.2 it.1) r =
      (l.map Prod.swap).foldl (fun m e => map_assign m e.1 e.2) r := by
  induction l generalizing r with
  | nil => rfl
  | cons x xs ih =>
    simp only [List.foldl_cons, List.map_cons, Prod.fst_swap, Prod.snd_swap]
    exact ih _

theorem sorted_codes_nodup (T : type_externals)
    (hdistinct : Function.Injective T.datum_type_code)
    (hrange : ∀ t, 1 ≤ T.datum_type_code t ∧ T.datum_type_code t < MAX_TYPE) :
    ((((coerce_map_t.assignments T).insertionSort key_le).map Prod.swap).map
      Prod.fst).Nodup := by
  have hperm := List.perm_insertionSort key_le (coerce_map_t.assignments T)
  have hfst : (((coerce_map_t.assignments T).insertionSort key_le).map Prod.swap).map
      Prod.fst = ((coerce_map_t.assignments T).insertionSort key_le).map Prod.snd := by
    rw [List.map_map]
    rfl
  rw [hfst]
  exact ((hperm.map Prod.snd).nodup_iff).mpr (assignments_codes_nodup T hdistinct hrange)

theorem coerce_map_rmap (T : type_externals)
    (hdistinct : Function.Injective T.datum_type_code)
    (hrange : ∀ t, 1 ≤ T.datum_type_code t ∧ T.datum_type_code t < MAX_TYPE) :
    (_coerce_map T).rmap =
      ((coerce_map_t.assignments T).insertionSort key_le).map Prod.swap := by
  have hmap := coerce_map_map T
  unfold _coerce_map coerce_map_t.mk_default at hmap ⊢
  dsimp only at hmap ⊢
  rw [hmap, foldl_rmap_assign,
    foldl_map_assign _ [] (sorted_codes_nodup T hdistinct hrange) (fun e he => by cases he)]
  rfl

theorem mem_rmap_iff (T : type_externals)
    (hdistinct : Function.Injective T.datum_type_code)
    (hrange : ∀ t, 1 ≤ T.datum_type_code t ∧ T.datum_type_code t < MAX_TYPE)
    (c : Int) (n : String) :
    (c, n) ∈ (_coerce_map T).rmap ↔ (n, c) ∈ coerce_map_t.assignments T := by
  rw [coerce_map_rmap T hdistinct hrange, List.mem_map]
  have hperm := List.perm_insertionSort key_le (coerce_map_t.assignments T)
  constructor
  · rintro ⟨e, he, hswap⟩
    have hmem := hperm.mem_iff.mp he
    have he2 : e = (n, c) := by
      rcases e with ⟨a, b⟩
      simp only [Prod.swap_prod_mk, Prod.mk.injEq] at hswap
      rw [hswap.1, hswap.2]
    rw [← he2]
    exact hmem
  · intro h
    exact ⟨(n, c), hperm.mem_iff.mpr h, rfl⟩

theorem get_type_ok_iff (T : type_externals) (s : String) (c : Int) :
    type_manip.get_type T s = .ok c ↔ (toupper s, c) ∈ coerce_map_t.assignments T := by
  rw [← map_lookup_some_iff _ _ _ (assignments_names_nodup T)]
  unfold type_manip.get_type coerce_map_t.get_type
  rw [coerce_map_map]
  cases map_lookup (coerce_map_t.assignments T) (toupper s) with
  | none => simp
  | some v => simp

theorem get_type_unknown (T : type_externals) (s : String)
    (h : toupper s ∉ (coerce_map_t.assignments T).map Prod.fst) :
    type_manip.get_type T s = .error (.rfail .GENERIC ("Unknown Type: " ++ toupper s)) := by
  unfold type_manip.get_type coerce_map_t.get_type
  rw [coerce_map_map, (map_lookup_none_iff _ _).mpr h]

theorem get_name_ok_iff (T : type_externals)
    (hdistinct : Function.Injective T.datum_type_code)
    (hrange : ∀ t, 1 ≤ T.datum_type_code t ∧ T.datum_type_code t < MAX_TYPE)
    (c : Int) (n : String) :
    type_manip.get_name T c = .ok n ↔ (n, c) ∈ coerce_map_t.assignments T := by
  rw [← mem_rmap_iff T hdistinct hrange, ← map_lookup_some_iff _ _ _ (by
    rw [coerce_map_rmap T hdistinct hrange]
    exact sorted_codes_nodup T hdistinct hrange)]
  unfold type_manip.get_name coerce_map_t.get_name
  cases map_lookup (_coerce_map T).rmap c with
  | none => simp
  | some v => simp

theorem mem_codes_iff (T : type_externals) (c : Int) :
    c ∈ (coerce_map_t.assignments T).map Prod.snd ↔
      (c = 10 ∨ c = 20 ∨ c = 30 ∨ c = 40 ∨ c = 50 ∨ c = 60 ∨ c = 70 ∨
        c = 60 + T.datum_type_code .R_NULL ∨ c = 60 + T.datum_type_code .R_BOOL ∨
        c = 60 + T.datum_type_code .R_NUM ∨ c = 60 + T.datum_type_code .R_STR ∨
        c = 60 + T.datum_type_code .R_ARRAY ∨ c = 60 + T.datum_type_code .R_OBJECT) := by
  simp only [coerce_map_t.assignments, List.map, DB_TYPE, TABLE_TYPE, SELECTION_TYPE,
    SEQUENCE_TYPE, SINGLE_SELECTION_TYPE, DATUM_TYPE, FUNC_TYPE, R_NULL_TYPE, R_BOOL_TYPE,
    R_NUM_TYPE, R_STR_TYPE, R_ARRAY_TYPE, R_OBJECT_TYPE, raw_type_t.code, MAX_TYPE,
    List.mem_cons, List.mem_singleton, List.not_mem_nil, or_false]
  norm_num

theorem get_name_sanity_iff (T : type_externals)
    (hdistinct : Function.Injective T.datum_type_code)
    (hrange : ∀ t, 1 ≤ T.datum_type_code t ∧ T.datum_type_code t < MAX_TYPE) (c : Int) :
    type_manip.get_name T c = .error .sanity ↔
      c ∉ (coerce_map_t.assignments T).map Prod.snd := by
  unfold type_manip.get_name coerce_map_t.get_name
  cases h : map_lookup (_coerce_map T).rmap c with
  | none =>
    simp only [true_iff]
    rw [map_lookup_none_iff] at h
    intro hc
    apply h
    obtain ⟨e, he, hec⟩ := List.mem_map.mp hc
    have hmem : (c, e.1) ∈ (_coerce_map T).rmap :=
      (mem_rmap_iff T hdistinct hrange c e.1).mpr (by rw [← hec]; exact he)
    exact List.mem_map_of_mem Prod.fst hmem
  | some n =>
    have hnd : ((_coerce_map T).rmap.map Prod.fst).Nodup := by
      rw [coerce_map_rmap T hdistinct hrange]
      exact sorted_codes_nodup T hdistinct hrange
    have hmem := (mem_rmap_iff T hdistinct hrange c n).mp
      ((map_lookup_some_iff _ _ _ hnd).mp h)
    constructor
    · intro hcontra; cases hcontra
    · intro hc
      exact absurd (List.mem_map_of_mem Prod.snd hmem) hc

theorem typeof_eq_get_name (T : type_externals) (v : val_t) :
    typeof_term_t.eval_impl T v =
      (type_manip.get_name T
        (match v with
          | .datum d => 60 + T.datum_type_code d.get_type
          | w => w.get_type.code * 10)).map (fun name => val_t.datum (.R_STR name)) := by
  unfold typeof_term_t.eval_impl
  cases v <;>
    simp only [val_t.get_type, raw_type_t.code, MAX_TYPE, DATUM_TYPE, val_t.as_datum] <;>
    norm_num <;> (try rw [except_ok_bind]) <;>
    (generalize type_manip.get_name T _ = r; cases r <;> rfl)

theorem typeof_mapped (T : type_externals)
    (hdistinct : Function.Injective T.datum_type_code)
    (hrange : ∀ t, 1 ≤ T.datum_type_code t ∧ T.datum_type_code t < MAX_TYPE) (v : val_t)
    (h : ¬(v.get_type = .TABLE_SLICE ∨ v.get_type = .GROUPED_DATA)) :
    ∃ name, typeof_term_t.eval_impl T v = .ok (.datum (.R_STR name)) ∧
      name ∈ (coerce_map_t.assignments T).map Prod.fst := by
  have key : ∀ c, c ∈ (coerce_map_t.assignments T).map Prod.snd →
      ∃ name, Except.map (fun name => val_t.datum (.R_STR name)) (type_manip.get_name T c) =
          .ok (.datum (.R_STR name)) ∧
        name ∈ (coerce_map_t.assignments T).map Prod.fst := by
    intro c hc
    obtain ⟨e, he, hec⟩ := List.mem_map.mp hc
    refine ⟨e.1, ?_, List.mem_map_of_mem Prod.fst he⟩
    rw [(get_name_ok_iff T hdistinct hrange c e.1).mpr (by rw [← hec]; exact he)]
    rfl
  rw [typeof_eq_get_name]
  apply key
  rw [mem_codes_iff]
  cases v with
  | datum d => cases d <;> simp [datum_t.get_type]
  | table_slice x => exact absurd (Or.inl rfl) h
  | grouped_data => exact absurd (Or.inr rfl) h
  | single_selection x => simp [val_t.get_type, raw_type_t.code]
  | sequence => simp [val_t.get_type, raw_type_t.code]
  | table x => simp [val_t.get_type, raw_type_t.code]
  | selection x => simp [val_t.get_type, raw_type_t.code]
  | db x => simp [val_t.get_type, raw_type_t.code]
  | func => simp [val_t.get_type, raw_type_t.code]

theorem reference_codes_injective :
    Function.Injective reference_type_externals.datum_type_code := by
  intro a b hab
  cases a <;> cases b <;> first | rfl | (exact absurd hab (by decide))

theorem reference_codes_range :
    ∀ t, 1 ≤ reference_type_externals.datum_type_code t ∧
      reference_type_externals.datum_type_code t < MAX_TYPE := by
  intro t
  cases t <;> decide

/-! ## The claims on typeof and on the coerce map -/

/-- C21 fails as stated: of the nine raw types of `val.hpp` that the claim
enumerates, TABLE_SLICE and GROUPED_DATA have the codes 90 and 80, and the reverse map of
the coerce map holds neither: `get_name` fails its sanity check on them, and `typeof` of
a table slice or of grouped data does not return a name. -/
theorem typeof_unmapped_types_counterexample :
    raw_type_t.TABLE_SLICE.code * MAX_TYPE = 90 ∧
    raw_type_t.GROUPED_DATA.code * MAX_TYPE = 80 ∧
    map_lookup (_coerce_map reference_type_externals).rmap 90 = none ∧
    map_lookup (_coerce_map reference_type_externals).rmap 80 = none ∧
    type_manip.get_name reference_type_externals (raw_type_t.TABLE_SLICE.code * MAX_TYPE) =
      .error .sanity ∧
    type_manip.get_name reference_type_externals (raw_type_t.GROUPED_DATA.code * MAX_TYPE) =
      .error .sanity ∧
    typeof_term_t.eval_impl reference_type_externals
        (.table_slice ⟨⟨7⟩, ⟨⟨"test"⟩⟩, "t", false⟩) = .error .sanity ∧
    typeof_term_t.eval_impl reference_type_externals .grouped_data = .error .sanity :=
  ⟨by rfl, by rfl, by rfl, by rfl, by rfl, by rfl, by rfl, by rfl⟩

/-- C21, amended: when the six datum type codes are distinct and lie in 1..MAX_TYPE-1,
`typeof` is total over the seven raw types the coerce map covers. It returns "DB",
"TABLE", "SELECTION", "STREAM", "SINGLE_SELECTION" and "FUNCTION" for a value of the raw
type DB, TABLE, SELECTION, SEQUENCE, SINGLE_SELECTION and FUNC, and "NULL", "BOOL",
"NUMBER", "STRING", "ARRAY" or "OBJECT" for a datum of that type; so for every value
whose raw type is neither TABLE_SLICE nor GROUPED_DATA the sanity check of `get_name`
passes and `typeof` returns one of the names of the map.  The codes of TABLE_SLICE and
GROUPED_DATA have no entry in the reverse map. -/
theorem typeof_total_on_mapped_types (T : type_externals)
    (hdistinct : Function.Injective T.datum_type_code)
    (hrange : ∀ t, 1 ≤ T.datum_type_code t ∧ T.datum_type_code t < MAX_TYPE) :
    (∀ d, typeof_term_t.eval_impl T (.db d) = .ok (.datum (.R_STR "DB"))) ∧
    (∀ t, typeof_term_t.eval_impl T (.table t) = .ok (.datum (.R_STR "TABLE"))) ∧
    (∀ t, typeof_term_t.eval_impl T (.selection t) = .ok (.datum (.R_STR "SELECTION"))) ∧
    typeof_term_t.eval_impl T .sequence = .ok (.datum (.R_STR "STREAM")) ∧
    (∀ t, typeof_term_t.eval_impl T (.single_selection t) =
      .ok (.datum (.R_STR "SINGLE_SELECTION"))) ∧
    typeof_term_t.eval_impl T .func = .ok (.datum (.R_STR "FUNCTION")) ∧
    typeof_term_t.eval_impl T (.datum .R_NULL) = .ok (.datum (.R_STR "NULL")) ∧
    (∀ b, typeof_term_t.eval_impl T (.datum (.R_BOOL b)) = .ok (.datum (.R_STR "BOOL"))) ∧
    (∀ n, typeof_term_t.eval_impl T (.datum (.R_NUM n)) = .ok (.datum (.R_STR "NUMBER"))) ∧
    (∀ x, typeof_term_t.eval_impl T (.datum (.R_STR x)) = .ok (.datum (.R_STR "STRING"))) ∧
    (∀ xs, typeof_term_t.eval_impl T (.datum (.R_ARRAY xs)) =
      .ok (.datum (.R_STR "ARRAY"))) ∧
    (∀ kvs, typeof_term_t.eval_impl T (.datum (.R_OBJECT kvs)) =
      .ok (.datum (.R_STR "OBJECT"))) ∧
    (∀ v : val_t, ¬(v.get_type = .TABLE_SLICE ∨ v.get_type = .GROUPED_DATA) →
      ∃ name, typeof_term_t.eval_impl T v = .ok (.datum (.R_STR name)) ∧
        name ∈ ["DB", "TABLE", "SELECTION", "STREAM", "SINGLE_SELECTION", "DATUM",
          "FUNCTION", "NULL", "BOOL", "NUMBER", "STRING", "ARRAY", "OBJECT"]) ∧
    type_manip.get_name T (raw_type_t.TABLE_SLICE.code * MAX_TYPE) = .error .sanity ∧
    type_manip.get_name T (raw_type_t.GROUPED_DATA.code * MAX_TYPE) = .error .sanity := by
  have key : ∀ (n : String) (c : Int), (n, c) ∈ coerce_map_t.assignments T →
      Except.map (fun name => val_t.datum (.R_STR name)) (type_manip.get_name T c) =
        .ok (.datum (.R_STR n)) := by
    intro n c h
    rw [(get_name_ok_iff T hdistinct hrange c n).mpr h]
    rfl
  have h1 := hrange .R_NULL
  have h2 := hrange .R_BOOL
  have h3 := hrange .R_NUM
  have h4 := hrange .R_STR
  have h5 := hrange .R_ARRAY
  have h6 := hrange .R_OBJECT
  unfold MAX_TYPE at h1 h2 h3 h4 h5 h6
  refine ⟨?_, ?_, ?_, ?_, ?_, ?_, ?_, ?_, ?_, ?_, ?_, ?_, ?_, ?_, ?_⟩
  · intro d
    rw [typeof_eq_get_name]
    exact key "DB" _ (by simp [coerce_map_t.assignments, DB_TYPE, val_t.get_type,
      raw_type_t.code, MAX_TYPE])
  · intro t
    rw [typeof_eq_get_name]
    exact key "TABLE" _ (by simp [coerce_map_t.assignments, TABLE_TYPE, val_t.get_type,
      raw_type_t.code, MAX_TYPE])
  · intro t
    rw [typeof_eq_get_name]
    exact key "SELECTION" _ (by simp [coerce_map_t.assignments, SELECTION_TYPE,
      val_t.get_type, raw_type_t.code, MAX_TYPE])
  · rw [typeof_eq_get_name]
    exact key "STREAM" _ (by simp [coerce_map_t.assignments, SEQUENCE_TYPE, val_t.get_type,
      raw_type_t.code, MAX_TYPE])
  · intro t
    rw [typeof_eq_get_name]
    exact key "SINGLE_SELECTION" _ (by simp [coerce_map_t.assignments,
      SINGLE_SELECTION_TYPE, val_t.get_type, raw_type_t.code, MAX_TYPE])
  · rw [typeof_eq_get_name]
    exact key "FUNCTION" _ (by simp [coerce_map_t.assignments, FUNC_TYPE, val_t.get_type,
      raw_type_t.code, MAX_TYPE])
  · rw [typeof_eq_get_name]
    exact key "NULL" _ (by simp [coerce_map_t.assignments, R_NULL_TYPE, datum_t.get_type,
      raw_type_t.code, MAX_TYPE])
  · intro b
    rw [typeof_eq_get_name]
    exact key "BOOL" _ (by simp [coerce_map_t.assignments, R_BOOL_TYPE, datum_t.get_type,
      raw_type_t.code, MAX_TYPE])
  · intro n
    rw [typeof_eq_get_name]
    exact key "NUMBER" _ (by simp [coerce_map_t.assignments, R_NUM_TYPE, datum_t.get_type,
      raw_type_t.code, MAX_TYPE])
  · intro x
    rw [typeof_eq_get_name]
    exact key "STRING" _ (by simp [coerce_map_t.assignments, R_STR_TYPE, datum_t.get_type,
      raw_type_t.code, MAX_TYPE])
  · intro xs
    rw [typeof_eq_get_name]
    exact key "ARRAY" _ (by simp [coerce_map_t.assignments, R_ARRAY_TYPE, datum_t.get_type,
      raw_type_t.code, MAX_TYPE])
  · intro kvs
    rw [typeof_eq_get_name]
    exact key "OBJECT" _ (by simp [coerce_map_t.assignments, R_OBJECT_TYPE,
      datum_t.get_type, raw_type_t.code, MAX_TYPE])
  · intro v hv
    rw [← assignments_names T]
    exact typeof_mapped T hdistinct hrange v hv
  · exact (get_name_sanity_iff T hdistinct hrange _).mpr (by
      rw [mem_codes_iff]
      simp only [raw_type_t.code, MAX_TYPE]
      omega)
  · exact (get_name_sanity_iff T hdistinct hrange _).mpr (by
      rw [mem_codes_iff]
      simp only [raw_type_t.code, MAX_TYPE]
      omega)

/-- Witness for C21: with the datum type codes 1 to 6, `typeof` of the number 3 is
"NUMBER". -/
theorem typeof_total_on_mapped_types_witness :
    Function.Injective reference_type_externals.datum_type_code ∧
    (∀ t, 1 ≤ reference_type_externals.datum_type_code t ∧
      reference_type_externals.datum_type_code t < MAX_TYPE) ∧
    typeof_term_t.eval_impl reference_type_externals (.datum (.R_NUM (Rat.ofInt 3))) =
      .ok (.datum (.R_STR "NUMBER")) :=
  ⟨reference_codes_injective, reference_codes_range,
    (typeof_total_on_mapped_types reference_type_externals reference_codes_injective
      reference_codes_range).2.2.2.2.2.2.2.2.1 (Rat.ofInt 3)⟩

/-- C22: when the six datum type codes are distinct and lie in 1..MAX_TYPE-1,
`get_type(s)` succeeds exactly when the upper-cased `s` is one of the 13 names of the
coerce map and fails with "Unknown Type" otherwise; `get_type(s) = get_type(upper(s))`;
`get_name(get_type(s)) = upper(s)` for every accepted `s`; each code `c` of the map has a
name with `get_type(get_name(c)) = c`; and the 13 names, like the 13 codes, are pairwise
distinct. -/
theorem names_and_codes_correspond (T : type_externals) (s : String) (c : Int)
    (hdistinct : Function.Injective T.datum_type_code)
    (hrange : ∀ t, 1 ≤ T.datum_type_code t ∧ T.datum_type_code t < MAX_TYPE) :
    ((∃ code, type_manip.get_type T s = .ok code) ↔
      toupper s ∈ ["DB", "TABLE", "SELECTION", "STREAM", "SINGLE_SELECTION", "DATUM",
        "FUNCTION", "NULL", "BOOL", "NUMBER", "STRING", "ARRAY", "OBJECT"]) ∧
    (toupper s ∉ ["DB", "TABLE", "SELECTION", "STREAM", "SINGLE_SELECTION", "DATUM",
        "FUNCTION", "NULL", "BOOL", "NUMBER", "STRING", "ARRAY", "OBJECT"] →
      type_manip.get_type T s =
        .error (.rfail .GENERIC ("Unknown Type: " ++ toupper s))) ∧
    type_manip.get_type T s = type_manip.get_type T (toupper s) ∧
    (type_manip.get_type T s = .ok c → type_manip.get_name T c = .ok (toupper s)) ∧
    (c ∈ (coerce_map_t.assignments T).map Prod.snd →
      ∃ name, type_manip.get_name T c = .ok name ∧ type_manip.get_type T name = .ok c) ∧
    ((coerce_map_t.assignments T).map Prod.fst).Nodup ∧
    ((coerce_map_t.assignments T).map Prod.snd).Nodup ∧
    ((coerce_map_t.assignments T).map Prod.snd).length = 13 := by
  refine ⟨?_, ?_, ?_, ?_, ?_, assignments_names_nodup T,
    assignments_codes_nodup T hdistinct hrange, by rfl⟩
  · rw [← assignments_names T]
    constructor
    · rintro ⟨code, hcode⟩
      exact List.mem_map_of_mem Prod.fst ((get_type_ok_iff T s code).mp hcode)
    · intro hmem
      obtain ⟨e, he, hes⟩ := List.mem_map.mp hmem
      exact ⟨e.2, (get_type_ok_iff T s e.2).mpr (by rw [← hes]; exact he)⟩
  · intro hnot
    exact get_type_unknown T s (by rw [assignments_names]; exact hnot)
  · unfold type_manip.get_type
    rw [toupper_idem]
  · intro hok
    exact (get_name_ok_iff T hdistinct hrange c (toupper s)).mpr
      ((get_type_ok_iff T s c).mp hok)
  · intro hc
    obtain ⟨e, he, hec⟩ := List.mem_map.mp hc
    have hup : toupper e.1 = e.1 :=
      names_upper_case e.1 (by
        rw [← assignments_names T]
        exact List.mem_map_of_mem Prod.fst he)
    refine ⟨e.1, (get_name_ok_iff T hdistinct hrange c e.1).mpr (by rw [← hec]; exact he),
      (get_type_ok_iff T e.1 c).mpr ?_⟩
    rw [hup, ← hec]
    exact he

/-- Witness for C22: with the datum type codes 1 to 6, `get_type("number")` is the code 64
and `get_name(64)` is "NUMBER". -/
theorem names_and_codes_correspond_witness :
    Function.Injective reference_type_externals.datum_type_code ∧
    (∀ t, 1 ≤ reference_type_externals.datum_type_code t ∧
      reference_type_externals.datum_type_code t < MAX_TYPE) ∧
    type_manip.get_type reference_type_externals "number" = .ok 64 ∧
    type_manip.get_name reference_type_externals 64 = .ok (toupper "number") ∧
    toupper "number" = "NUMBER" :=
  ⟨reference_codes_injective, reference_codes_range, by rfl,
    (names_and_codes_correspond reference_type_externals "number" 64
      reference_codes_injective reference_codes_range).2.2.2.1 (by rfl),
    by decide⟩

/-! ## Lemmas on the relay of the cluster outcome -/

theorem c_str_of_no_nul (e : String) (h : Char.ofNat 0 ∉ e.data) : c_str e = e := by
  unfold c_str
  have htw : e.data.takeWhile (fun ch => decide (ch ≠ Char.ofNat 0)) = e.data := by
    rw [List.takeWhile_eq_self_iff]
    intro x hx
    simp only [ne_eq, decide_not, Bool.not_eq_true', decide_eq_false_iff_not]
    intro hx0
    exact h (hx0 ▸ hx)
  rw [htw]

theorem c_str_prefix (e : String) :
    ∃ rest, e.data = (c_str e).data ++ rest ∧ Char.ofNat 0 ∉ (c_str e).data ∧
      (rest = [] ∨ ∃ tail, rest = Char.ofNat 0 :: tail) := by
  refine ⟨e.data.dropWhile (fun ch => decide (ch ≠ Char.ofNat 0)), ?_, ?_, ?_⟩
  · unfold c_str
    exact (List.takeWhile_append_dropWhile _ _).symm
  · unfold c_str
    intro hmem
    have hp := List.mem_takeWhile_imp hmem
    simp at hp
  · induction e.data with
    | nil => exact Or.inl rfl
    | cons a l ih =>
      by_cases ha : a = Char.ofNat 0
      · right
        refine ⟨l, ?_⟩
        rw [List.dropWhile_cons_of_neg (by simp [ha]), ha]
      · rw [List.dropWhile_cons_of_pos (by simp [ha])]
        exact ih

theorem db_name_parse (X : externals) (args : args_t) (v : val_t) (name : name_string_t)
    (hv : args.arg 0 = .ok v) (hname : get_name X (some v) "Database" = .ok name) :
    (do get_name X (some (← args.arg 0)) "Database") = Except.ok name := by
  rw [hv, except_ok_bind]
  exact hname

theorem table_list_parse (args : args_t) (dbv : val_t) (db : db_t)
    (ht : (args.num_args = 0 ∧ args.optarg "db" = some dbv) ∨
      (args.num_args ≠ 0 ∧ args.arg 0 = .ok dbv))
    (hdb : dbv.as_db = .ok db) :
    (if args.num_args = 0 then do
        let dbv := args.optarg "db"
        r_sanity_check dbv.isSome
        match dbv with
        | none => .error .sanity
        | some dbv => dbv.as_db
      else do (← args.arg 0).as_db) = Except.ok db := by
  rcases ht with ⟨h0, ht⟩ | ⟨h0, ht⟩
  · simp only [h0, if_true, ht, Option.isSome_some, r_sanity_check, bind, Except.bind, pure,
      Except.pure, hdb]
  · simp only [h0, if_false, ht, bind, Except.bind, hdb]

theorem table_list_relays {σ : Type} (X : externals) (I : reql_cluster_interface σ)
    (args : args_t) (w : world σ) (dbv : val_t) (db : db_t)
    (ht : (args.num_args = 0 ∧ args.optarg "db" = some dbv) ∨
      (args.num_args ≠ 0 ∧ args.arg 0 = .ok dbv))
    (hdb : dbv.as_db = .ok db) :
    relays I w (table_list_term_t.eval_impl X I args w) (.table_list db)
      (fun tables => X.array_datum (names_to_array tables) >>= fun arr => .ok (.datum arr)) := by
  unfold table_list_term_t.eval_impl
  rw [table_list_parse args dbv db ht hdb]
  exact cluster_op_relays I _ _ w

/-! ## The claims on the relay of the cluster outcome -/

/-- C7 fails as stated: when `db_list` reports the failure message `a`, NUL,
`b`, the term `db_list` fails with the GENERIC error whose message is `a`, not the
message reported: `rfail(GENERIC, "%s", error.c_str())` stops at the first NUL. -/
theorem nul_error_message_counterexample :
    (nul_interface.run .db_list ()).1 = .error ⟨['a', Char.ofNat 0, 'b']⟩ ∧
    db_list_term_t.eval_impl reference_externals nul_interface ⟨[], []⟩ ⟨(), []⟩ =
      (.error (.rfail .GENERIC "a"), ⟨(), [.db_list]⟩) ∧
    ("a" : String) ≠ ⟨['a', Char.ofNat 0, 'b']⟩ :=
  ⟨by rfl, by rfl, by decide⟩

/-- C7, amended: once its arguments are parsed, each of the thirteen administrative terms
makes one cluster-interface call and relays it: if the call reports failure with message
`e` the term fails with the GENERIC error whose message is `e` up to its first NUL
character (exactly `e` when `e` holds no NUL), and if it reports success the term returns
the result unchanged as a value (for the list terms: the array the datum constructor
builds from the returned name set; for `table`: the table value holding the returned
table).  For `wait`, `reconfigure` and `rebalance` this is stated of the method and of
the term. -/
theorem terms_relay_cluster_outcome {σ : Type} (X : externals)
    (I : reql_cluster_interface σ) (args : args_t) (w : world σ) :
    (∀ v name, args.arg 0 = .ok v → get_name X (some v) "Database" = .ok name →
      relays I w (db_term_t.eval_impl X I args w) (.db_find name)
        (fun db => .ok (.db db)) ∧
      relays I w (db_create_term_t.eval_impl X I args w) (.db_create name)
        (fun result => .ok (.datum result)) ∧
      relays I w (db_drop_term_t.eval_impl X I args w) (.db_drop name)
        (fun result => .ok (.datum result))) ∧
    relays I w (db_list_term_t.eval_impl X I args w) .db_list
      (fun dbs => X.array_datum (names_to_array dbs) >>= fun arr => .ok (.datum arr)) ∧
    (∀ name db params pk,
      table_create_term_t.parse_arguments X args = .ok (name, db, params, pk) →
      relays I w (table_create_term_t.eval_impl X I args w)
        (.table_create name db params pk) (fun result => .ok (.datum result))) ∧
    (∀ db name, db_and_table_name X args = .ok (db, name) →
      relays I w (table_drop_term_t.eval_impl X I args w)
        (.table_drop name db) (fun result => .ok (.datum result))) ∧
    (∀ dbv db,
      ((args.num_args = 0 ∧ args.optarg "db" = some dbv) ∨
        (args.num_args ≠ 0 ∧ args.arg 0 = .ok dbv)) →
      dbv.as_db = .ok db →
      relays I w (table_list_term_t.eval_impl X I args w) (.table_list db)
        (fun tables =>
          X.array_datum (names_to_array tables) >>= fun arr => .ok (.datum arr))) ∧
    (∀ use_outdated format db name,
      table_term_t.parse_arguments X args = .ok (use_outdated, format, db, name) →
      relays I w (table_term_t.eval_impl X I args w) (.table_find name db format)
        (fun table => .ok (.table ⟨table, db, name.str, use_outdated⟩))) ∧
    (∀ target, args.arg 0 = .ok target →
      (X.is_convertible target.get_type .DB = true → ∀ db, target.as_db = .ok db →
        relays I w (config_term_t.eval_impl X I args w) (.db_config db)
          (fun selection => .ok selection)) ∧
      (X.is_convertible target.get_type .DB = false → ∀ table, target.as_table = .ok table →
        relays I w (config_term_t.eval_impl X I args w)
          (.table_config table.db (name_string_t.guarantee_valid table.name))
          (fun selection => .ok selection))) ∧
    (∀ target table, args.arg 0 = .ok target → target.as_table = .ok table →
      relays I w (status_term_t.eval_impl X I args w)
        (.table_config table.db (name_string_t.guarantee_valid table.name))
        (fun selection => .ok selection)) ∧
    (∀ db,
      relays I w (wait_term_t.eval_impl_on_table_or_db I args db none w)
        (.db_wait db .finished) (fun result => .ok (.datum result)) ∧
      relays I w (rebalance_term_t.eval_impl_on_table_or_db I args db none w)
        (.db_rebalance db) (fun result => .ok (.datum result)) ∧
      ∀ params dry_run, reconfigure_term_t.parse_arguments X args = .ok (params, dry_run) →
        relays I w (reconfigure_term_t.eval_impl_on_table_or_db X I args db none w)
          (.db_reconfigure db params dry_run) (fun result => .ok (.datum result))) ∧
    (∀ db name,
      relays I w (wait_term_t.eval_impl_on_table_or_db I args db (some name) w)
        (.table_wait db name .finished) (fun result => .ok (.datum result)) ∧
      relays I w (rebalance_term_t.eval_impl_on_table_or_db I args db (some name) w)
        (.table_rebalance db name) (fun result => .ok (.datum result)) ∧
      ∀ params dry_run, reconfigure_term_t.parse_arguments X args = .ok (params, dry_run) →
        relays I w (reconfigure_term_t.eval_impl_on_table_or_db X I args db (some name) w)
          (.table_reconfigure db name params dry_run) (fun result => .ok (.datum result))) ∧
    (∀ target,
      ((args.num_args = 0 ∧ args.optarg "db" = some target) ∨
        (args.num_args ≠ 0 ∧ args.arg 0 = .ok target)) →
      (X.is_convertible target.get_type .DB = true → ∀ db, target.as_db = .ok db →
        relays I w (wait_term_t.eval_impl X I args w)
          (.db_wait db .finished) (fun result => .ok (.datum result)) ∧
        relays I w (rebalance_term_t.eval_impl X I args w)
          (.db_rebalance db) (fun result => .ok (.datum result)) ∧
        ∀ params dry_run,
          reconfigure_term_t.parse_arguments X args = .ok (params, dry_run) →
          relays I w (reconfigure_term_t.eval_impl X I args w)
            (.db_reconfigure db params dry_run) (fun result => .ok (.datum result))) ∧
      (X.is_convertible target.get_type .DB = false → ∀ table, target.as_table = .ok table →
        relays I w (wait_term_t.eval_impl X I args w)
          (.table_wait table.db (name_string_t.guarantee_valid table.name) .finished)
          (fun result => .ok (.datum result)) ∧
        relays I w (rebalance_term_t.eval_impl X I args w)
          (.table_rebalance table.db (name_string_t.guarantee_valid table.name))
          (fun result => .ok (.datum result)) ∧
        ∀ params dry_run,
          reconfigure_term_t.parse_arguments X args = .ok (params, dry_run) →
          relays I w (reconfigure_term_t.eval_impl X I args w)
            (.table_reconfigure table.db (name_string_t.guarantee_valid table.name)
              params dry_run)
            (fun result => .ok (.datum result)))) ∧
    (∀ e : String, Char.ofNat 0 ∉ e.data → c_str e = e) ∧
    (∀ e : String, ∃ rest, e.data = (c_str e).data ++ rest ∧
      Char.ofNat 0 ∉ (c_str e).data ∧ (rest = [] ∨ ∃ tail, rest = Char.ofNat 0 :: tail)) := by
  have hmethod_db : ∀ db,
      relays I w (wait_term_t.eval_impl_on_table_or_db I args db none w)
        (.db_wait db .finished) (fun result => .ok (.datum result)) ∧
      relays I w (rebalance_term_t.eval_impl_on_table_or_db I args db none w)
        (.db_rebalance db) (fun result => .ok (.datum result)) ∧
      ∀ params dry_run, reconfigure_term_t.parse_arguments X args = .ok (params, dry_run) →
        relays I w (reconfigure_term_t.eval_impl_on_table_or_db X I args db none w)
          (.db_reconfigure db params dry_run) (fun result => .ok (.datum result)) := by
    intro db
    refine ⟨cluster_op_relays I _ _ w, cluster_op_relays I _ _ w, ?_⟩
    intro params dry_run hp
    unfold reconfigure_term_t.eval_impl_on_table_or_db
    rw [hp]
    exact cluster_op_relays I _ _ w
  have hmethod_table : ∀ db name,
      relays I w (wait_term_t.eval_impl_on_table_or_db I args db (some name) w)
        (.table_wait db name .finished) (fun result => .ok (.datum result)) ∧
      relays I w (rebalance_term_t.eval_impl_on_table_or_db I args db (some name) w)
        (.table_rebalance db name) (fun result => .ok (.datum result)) ∧
      ∀ params dry_run, reconfigure_term_t.parse_arguments X args = .ok (params, dry_run) →
        relays I w (reconfigure_term_t.eval_impl_on_table_or_db X I args db (some name) w)
          (.table_reconfigure db name params dry_run) (fun result => .ok (.datum result)) := by
    intro db name
    refine ⟨cluster_op_relays I _ _ w, cluster_op_relays I _ _ w, ?_⟩
    intro params dry_run hp
    unfold reconfigure_term_t.eval_impl_on_table_or_db
    rw [hp]
    exact cluster_op_relays I _ _ w
  refine ⟨?_, cluster_op_relays I _ _ w, ?_, ?_, ?_, ?_, ?_, ?_, hmethod_db, hmethod_table,
    ?_, c_str_of_no_nul, c_str_prefix⟩
  · intro v name hv hname
    have hparse := db_name_parse X args v name hv hname
    refine ⟨?_, ?_, ?_⟩
    · unfold db_term_t.eval_impl
      rw [hparse]
      exact cluster_op_relays I _ _ w
    · unfold db_create_term_t.eval_impl
      rw [hparse]
      exact cluster_op_relays I _ _ w
    · unfold db_drop_term_t.eval_impl
      rw [hparse]
      exact cluster_op_relays I _ _ w
  · intro name db params pk hp
    unfold table_create_term_t.eval_impl
    rw [hp]
    exact cluster_op_relays I _ _ w
  · intro db name hp
    unfold table_drop_term_t.eval_impl
    rw [hp]
    exact cluster_op_relays I _ _ w
  · intro dbv db ht hdb
    exact table_list_relays X I args w dbv db ht hdb
  · intro use_outdated format db name hp
    unfold table_term_t.eval_impl
    rw [hp]
    exact cluster_op_relays I _ _ w
  · intro target ht
    refine ⟨fun hc db hdb => ?_, fun hc table htab => ?_⟩
    · unfold config_term_t.eval_impl
      rw [ht]
      dsimp only
      rw [if_pos hc, hdb]
      exact cluster_op_relays I _ _ w
    · unfold config_term_t.eval_impl
      rw [ht]
      dsimp only
      rw [hc, htab]
      exact cluster_op_relays I _ _ w
  · intro target table ht htab
    have hparse : (do (← args.arg 0).as_table) = Except.ok table := by
      rw [ht, except_ok_bind]
      exact htab
    unfold status_term_t.eval_impl
    rw [hparse]
    exact cluster_op_relays I _ _ w
  · intro target ht
    refine ⟨fun hc db hdb => ?_, fun hc table htab => ?_⟩
    · unfold wait_term_t.eval_impl rebalance_term_t.eval_impl reconfigure_term_t.eval_impl
      rw [meta_term_target X _ args w target ht, meta_term_target X _ args w target ht,
        meta_term_target X _ args w target ht, if_pos hc, if_pos hc, if_pos hc, hdb]
      exact hmethod_db db
    · unfold wait_term_t.eval_impl rebalance_term_t.eval_impl reconfigure_term_t.eval_impl
      rw [meta_term_target X _ args w target ht, meta_term_target X _ args w target ht,
        meta_term_target X _ args w target ht, hc, htab]
      exact hmethod_table table.db (name_string_t.guarantee_valid table.name)

/-- Witness for C7: `db` applied to the name `test` over an interface whose `db_find`
reports the failure `unavailable` fails with the GENERIC error of that message. -/
theorem terms_relay_cluster_outcome_witness :
    (db_term_t.eval_impl reference_externals example_interface
        ⟨[str_val "test"], []⟩ ⟨0, []⟩).1 =
      .error (.rfail .GENERIC (c_str "unavailable")) ∧
    c_str "unavailable" = "unavailable" :=
  ⟨(((terms_relay_cluster_outcome reference_externals example_interface
      ⟨[str_val "test"], []⟩ ⟨0, []⟩).1 (str_val "test") ⟨"test"⟩ (by rfl) (by rfl)).1).2.1
      "unavailable" (by rfl),
    by decide⟩

/-! ## The claim on the list terms -/

theorem names_to_array_facts (names : Finset name_string_t) :
    (names_to_array names).length = names.card ∧
    (∀ d, d ∈ names_to_array names ↔ ∃ n ∈ names, d = datum_t.R_STR n.str) ∧
    (names_to_array names).Nodup ∧
    (names_to_array names).Pairwise
      (fun a b => ∃ x y : name_string_t,
        a = datum_t.R_STR x.str ∧ b = datum_t.R_STR y.str ∧ x < y) := by
  have hinj : Function.Injective (fun it : name_string_t => datum_t.R_STR it.str) := by
    intro a b hab
    simp only [datum_t.R_STR.injEq, name_string_t.str] at hab
    cases a; cases b; simp_all
  refine ⟨?_, ?_, ?_, ?_⟩
  · simp [names_to_array]
  · intro d
    simp only [names_to_array, List.mem_map, Finset.mem_sort]
    constructor
    · rintro ⟨n, hn, rfl⟩; exact ⟨n, hn, rfl⟩
    · rintro ⟨n, hn, rfl⟩; exact ⟨n, hn, rfl⟩
  · exact (Finset.sort_nodup (· ≤ ·) names).map hinj
  · unfold names_to_array
    rw [List.pairwise_map]
    exact (Finset.sort_sorted_lt names).imp (fun {a b} hab => ⟨a, b, rfl, rfl, hab⟩)

theorem list_value_eq (X : externals) (names : Finset name_string_t) :
    (X.array_datum (names_to_array names) >>= fun arr => Except.ok (val_t.datum arr)) =
      (X.array_datum (names_to_array names)).map val_t.datum := by
  cases X.array_datum (names_to_array names) <;> rfl

theorem list_value_facts (X : externals) (names : Finset name_string_t)
    (hctor : ∀ xs d, X.array_datum xs = .ok d → d = .R_ARRAY xs)
    (out : Except exc_t val_t)
    (hout : out = (X.array_datum (names_to_array names)).map val_t.datum) :
    (∀ d, X.array_datum (names_to_array names) = .ok d →
      out = .ok (.datum (.R_ARRAY (names_to_array names)))) ∧
    (∀ e, X.array_datum (names_to_array names) = .error e → out = .error e) ∧
    (∀ v, out = .ok v →
      ∃ arr, v = .datum (.R_ARRAY arr) ∧ arr.length = names.card ∧
        (∀ d, d ∈ arr ↔ ∃ n ∈ names, d = datum_t.R_STR n.str) ∧ arr.Nodup ∧
        arr.Pairwise (fun a b => ∃ x y : name_string_t,
          a = datum_t.R_STR x.str ∧ b = datum_t.R_STR y.str ∧ x < y)) := by
  subst hout
  refine ⟨?_, ?_, ?_⟩
  · intro d hd
    rw [hd, hctor _ d hd]
    rfl
  · intro e he
    rw [he]
    rfl
  · intro v hv
    cases hd : X.array_datum (names_to_array names) with
    | error e => rw [hd] at hv; cases hv
    | ok d =>
      rw [hd] at hv
      have hv2 : v = .datum d := by
        cases hv
        rfl
      rw [hctor _ d hd] at hv2
      exact ⟨_, hv2, names_to_array_facts names⟩

/-- C10: when the datum constructor keeps the elements it is given (it returns the array
of them or throws), `db_list` and `table_list` applied to the name set the cluster
interface returns evaluate to what the constructor makes of the array of the names: the
array value itself when the constructor accepts it, its error otherwise; and every value
the terms return is an array whose length is the size of the set, which holds exactly
the names of the set as strings, each once, in strictly ascending order of the name
ordering. -/
theorem list_terms_array {σ : Type} (X : externals) (I : reql_cluster_interface σ)
    (args : args_t) (w : world σ) (names : Finset name_string_t)
    (hctor : ∀ xs d, X.array_datum xs = .ok d → d = .R_ARRAY xs) :
    ((I.run .db_list w.st).1 = .ok names →
      (∀ d, X.array_datum (names_to_array names) = .ok d →
        (db_list_term_t.eval_impl X I args w).1 =
          .ok (.datum (.R_ARRAY (names_to_array names)))) ∧
      (∀ e, X.array_datum (names_to_array names) = .error e →
        (db_list_term_t.eval_impl X I args w).1 = .error e) ∧
      (∀ v, (db_list_term_t.eval_impl X I args w).1 = .ok v →
        ∃ arr, v = .datum (.R_ARRAY arr) ∧ arr.length = names.card ∧
          (∀ d, d ∈ arr ↔ ∃ n ∈ names, d = datum_t.R_STR n.str) ∧ arr.Nodup ∧
          arr.Pairwise (fun a b => ∃ x y : name_string_t,
            a = datum_t.R_STR x.str ∧ b = datum_t.R_STR y.str ∧ x < y))) ∧
    (∀ dbv db,
      ((args.num_args = 0 ∧ args.optarg "db" = some dbv) ∨
        (args.num_args ≠ 0 ∧ args.arg 0 = .ok dbv)) →
      dbv.as_db = .ok db →
      (I.run (.table_list db) w.st).1 = .ok names →
      (∀ d, X.array_datum (names_to_array names) = .ok d →
        (table_list_term_t.eval_impl X I args w).1 =
          .ok (.datum (.R_ARRAY (names_to_array names)))) ∧
      (∀ e, X.array_datum (names_to_array names) = .error e →
        (table_list_term_t.eval_impl X I args w).1 = .error e) ∧
      (∀ v, (table_list_term_t.eval_impl X I args w).1 = .ok v →
        ∃ arr, v = .datum (.R_ARRAY arr) ∧ arr.length = names.card ∧
          (∀ d, d ∈ arr ↔ ∃ n ∈ names, d = datum_t.R_STR n.str) ∧ arr.Nodup ∧
          arr.Pairwise (fun a b => ∃ x y : name_string_t,
            a = datum_t.R_STR x.str ∧ b = datum_t.R_STR y.str ∧ x < y))) := by
  refine ⟨?_, ?_⟩
  · intro hrun
    apply list_value_facts X names hctor
    have hrel : relays I w (db_list_term_t.eval_impl X I args w) .db_list
        (fun dbs => X.array_datum (names_to_array dbs) >>= fun arr => .ok (.datum arr)) :=
      cluster_op_relays I _ _ w
    rw [hrel.2.2 names hrun]
    exact list_value_eq X names
  · intro dbv db ht hdb hrun
    apply list_value_facts X names hctor
    rw [(table_list_relays X I args w dbv db ht hdb).2.2 names hrun]
    exact list_value_eq X names

/-- Witness for C10: over an interface whose `db_list` returns the one name `test`, the
term `db_list` returns the array of the one string `test`. -/
theorem list_terms_array_witness :
    (db_list_term_t.eval_impl reference_externals listing_interface ⟨[], []⟩ ⟨(), []⟩).1 =
      .ok (.datum (.R_ARRAY (names_to_array {⟨"test"⟩}))) ∧
    names_to_array {⟨"test"⟩} = [datum_t.R_STR "test"] :=
  ⟨((list_terms_array reference_externals listing_interface ⟨[], []⟩ ⟨(), []⟩ {⟨"test"⟩}
      (fun xs d h => by cases h; rfl)).1 (by rfl)).1 (.R_ARRAY (names_to_array {⟨"test"⟩}))
      (by rfl),
    by simp [names_to_array, name_string_t.str]⟩

end ql
